import Mathlib

/-!
# JiraExplorer: the REST orchestration layer of `jira_client.cpp`

A shallow embedding of `JiraClient` (document codec, field-metadata cache, write
operations, paginated and single-request reads, board/sprint aggregation) together with
the properties proved about it.

Conventions of the embedding.

* `QString` is a list of characters; a null and an empty `QString` are both `[]`
  (the source only ever asks `isEmpty`).
* `QJsonValue` is the JSON tree; a `QJsonObject` is an association list read by
  `QJsonObject.value` (first binding of the key) and written by `QJsonObject.insert`.
* A network reply is the triple the `finished` handlers read: the transport error, the
  HTTP status and the parsed body.  The replies an operation receives are passed to it as
  a script (`List QNetworkReply`): the i-th request it issues is answered by the i-th
  reply, and a request that has no reply in the script stays in flight.
* Signals and requests are recorded in a log of `Effect`s, in program order.
* Object lifetimes.  The paginated reads keep their accumulator and their recursive
  `std::function` in locals of the call that issues the first request, and the `finished`
  handlers hold them by reference.  The handlers run from the event loop, after that call
  has returned.  The log follows the text of the handler, and wherever the handler uses an
  object whose lifetime has ended the log holds the mark `Effect.undefined`: the effects
  before the first mark (`defined`) are what the program does, what stands after it is
  what the text of the handler says and C++ does not guarantee.
* An operation is run alone unless stated otherwise; `ensureFieldMetadata.interleaved`
  is the catalog load when the handlers of other operations run while its read is in
  flight.
* Tables of the Qt library that the source relies on but does not contain (Unicode case
  folding, lower-casing, ISO date parsing, percent-encoding) are fields of the structure
  `Qt`; `std::sort` is the field of `StdLib`.
-/

namespace JiraExplorer

/-! ## Strings -/

abbrev QString := List Char

abbrev QStringList := List QString

instance : Coe String QString := ⟨String.toList⟩

/-- Unicode separator categories (Zs, Zl, Zp) above U+00A0, the table behind
`QChar::isSpace_helper`. -/
def QChar.isSpace_helper (u : Nat) : Bool :=
  u == 0x1680 || (0x2000 ≤ u && u ≤ 0x200a) || u == 0x2028 || u == 0x2029
    || u == 0x202f || u == 0x205f || u == 0x3000

/-- Model of `QChar::isSpace`: space, `\t \n \v \f \r`, U+0085, U+00A0 and the Unicode separators. -/
def QChar.isSpace (c : Char) : Bool :=
  let u := c.toNat
  u == 0x20 || (u ≤ 0x0d && 0x09 ≤ u)
    || (u > 127 && (u == 0x85 || u == 0xa0 || QChar.isSpace_helper u))

/-- Model of `QString::trimmed`: whitespace removed from the start and the end. -/
def QString.trimmed (s : QString) : QString :=
  (s.dropWhile QChar.isSpace).rdropWhile QChar.isSpace

/-- Model of `QString::split(sep)` with the default `Qt::KeepEmptyParts`. -/
def QString.split : QString → Char → QStringList
  | [], _ => [[]]
  | c :: cs, sep =>
    if c = sep then [] :: QString.split cs sep
    else
      match QString.split cs sep with
      | [] => [[c]]
      | p :: ps => (c :: p) :: ps

/-- Model of `QStringList::join(sep)`. -/
def QStringList.join : QStringList → QString → QString
  | [], _ => []
  | [l], _ => l
  | l :: ls, sep => l ++ sep ++ QStringList.join ls sep

/-- Model of `QString::mid(position)` for a position inside the string. -/
def QString.mid (s : QString) (position : Int) : QString := s.drop position.toNat

/-- Model of `QString::left(n)` for `n ≥ 0`. -/
def QString.left (s : QString) (n : Int) : QString := s.take n.toNat

/-- The test that `needle` stands at the start of `s`, characters being compared by `eq`. -/
def QString.startsWithBy (eq : Char → Char → Bool) : QString → QString → Bool
  | _, [] => true
  | [], _ :: _ => false
  | a :: s, b :: needle => eq a b && QString.startsWithBy eq s needle

/-- Model of `QString::indexOf(needle, 0, cs)`: the first index at which `needle` occurs,
`-1` when there is none; `s` is the rest of the string from index `i` on and `eq` compares
two characters under the case sensitivity `cs`. -/
def QString.indexOfBy (eq : Char → Char → Bool) (needle : QString) : QString → Int → Int
  | [], i => if needle.isEmpty then i else -1
  | a :: s, i =>
    if QString.startsWithBy eq (a :: s) needle then i
    else QString.indexOfBy eq needle s (i + 1)

/-- Model of `QString::indexOf(ch)`. -/
def QString.indexOf (s : QString) (ch : Char) : Int :=
  QString.indexOfBy (fun a b => a == b) [ch] s 0

/-- Model of `operator>` on `QString`: lexicographic order of the character codes. -/
def QString.gt (a b : QString) : Bool := decide (b < a)

/-! ## JSON values -/

inductive QJsonValue where
  | Null
  | Undefined
  | Boolean (b : Bool)
  | Double (d : Rat)
  | String (s : QString)
  | Array (a : List QJsonValue)
  | Object (o : List (QString × QJsonValue))

abbrev QJsonArray := List QJsonValue

abbrev QJsonObject := List (QString × QJsonValue)

def QJsonValue.isNull : QJsonValue → Bool
  | .Null => true
  | _ => false

def QJsonValue.isUndefined : QJsonValue → Bool
  | .Undefined => true
  | _ => false

def QJsonValue.isArray : QJsonValue → Bool
  | .Array _ => true
  | _ => false

def QJsonValue.isObject : QJsonValue → Bool
  | .Object _ => true
  | _ => false

/-- Model of `QJsonValue::toString()`: the string, or a null string for any other kind. -/
def QJsonValue.toString : QJsonValue → QString
  | .String s => s
  | _ => []

/-- Model of `QJsonValue::toArray()`: the array, or an empty array for any other kind. -/
def QJsonValue.toArray : QJsonValue → QJsonArray
  | .Array a => a
  | _ => []

/-- Model of `QJsonValue::toObject()`: the object, or an empty object for any other kind. -/
def QJsonValue.toObject : QJsonValue → QJsonObject
  | .Object o => o
  | _ => []

/-- Model of `QJsonValue::toBool(defaultValue)`. -/
def QJsonValue.toBool : QJsonValue → Bool → Bool
  | .Boolean b, _ => b
  | _, d => d

/-- Model of `QJsonValue::toInt(defaultValue)`: the number when it is integral and fits an `int`,
the default otherwise. -/
def QJsonValue.toInt : QJsonValue → Int → Int
  | .Double q, d => if q.den = 1 ∧ -2147483648 ≤ q.num ∧ q.num ≤ 2147483647 then q.num else d
  | _, d => d

/-- Model of `QJsonValue::toDouble()`. -/
def QJsonValue.toDouble : QJsonValue → Rat
  | .Double q => q
  | _ => 0

def QJsonValue.isString : QJsonValue → Bool
  | .String _ => true
  | _ => false

def QJsonValue.isDouble : QJsonValue → Bool
  | .Double _ => true
  | _ => false

/-- Model of `QJsonValue::toString(defaultValue)`. -/
def QJsonValue.toStringOr : QJsonValue → QString → QString
  | .String s, _ => s
  | _, d => d

/-- Model of `QJsonObject::value(key)`: the value bound to `key`, `Undefined` when there is none. -/
def QJsonObject.value : QJsonObject → QString → QJsonValue
  | [], _ => .Undefined
  | (k, v) :: rest, key => if k = key then v else QJsonObject.value rest key

/-- Model of `QJsonObject::contains(key)`. -/
def QJsonObject.contains : QJsonObject → QString → Bool
  | [], _ => false
  | (k, _) :: rest, key => if k = key then true else QJsonObject.contains rest key

def QJsonObject.remove : QJsonObject → QString → QJsonObject
  | [], _ => []
  | (k, v) :: rest, key =>
    if k = key then QJsonObject.remove rest key else (k, v) :: QJsonObject.remove rest key

/-- Replace the binding of `key` where it stands, or add one at the end. -/
def QJsonObject.replace : QJsonObject → QString → QJsonValue → QJsonObject
  | [], key, v => [(key, v)]
  | (k, w) :: rest, key, v =>
    if k = key then (key, v) :: rest else (k, w) :: QJsonObject.replace rest key v

/-- Model of `QJsonObject::insert(key, value)`: a previous binding of the key is replaced;
inserting `Undefined` removes the key. -/
def QJsonObject.insert (o : QJsonObject) (key : QString) (v : QJsonValue) : QJsonObject :=
  if v.isUndefined then QJsonObject.remove o key else QJsonObject.replace o key v

/-! ## Document codec -/

/-- The method `JiraClient::buildAdfDocument`: one paragraph holding one text node per piece of
`plainText.split('\n')`. -/
def buildAdfDocument (plainText : QString) : QJsonObject :=
  let safe := plainText
  let parts := QString.split safe '\n'
  let content : QJsonArray := parts.foldl (fun content p =>
    let textNode := QJsonObject.insert [] "type" (.String "text")
    let textNode := QJsonObject.insert textNode "text" (.String p)
    let paraContent : QJsonArray := [] ++ [QJsonValue.Object textNode]
    let paragraph := QJsonObject.insert [] "type" (.String "paragraph")
    let paragraph := QJsonObject.insert paragraph "content" (.Array paraContent)
    content ++ [QJsonValue.Object paragraph]) []
  let doc := QJsonObject.insert [] "version" (.Double 1)
  let doc := QJsonObject.insert doc "type" (.String "doc")
  let doc := QJsonObject.insert doc "content" (.Array content)
  doc

/-- The `text` branch of the walk: start a line if there is none, then
`takeLast`, `+= text`, `append`. -/
def appendText (lines : QStringList) (text : QString) : QStringList :=
  let lines := if lines.isEmpty then lines ++ [[]] else lines
  let current := lines.getLastD []
  lines.dropLast ++ [current ++ text]

mutual
/-- The recursive lambda `walk` of `JiraClient::adfToPlainText`; the list of lines that the
source mutates in place is threaded through. -/
def walk : QJsonValue → QStringList → QStringList
  | .Null, lines => lines
  | .Undefined, lines => lines
  | .Array a, lines => walkSeparated a true lines
  | .Boolean _, lines => lines
  | .Double _, lines => lines
  | .String _, lines => lines
  | .Object o, lines =>
    let type := (QJsonObject.value o "type").toString
    if type = ("doc" : QString) then walkContentSeparated o lines
    else if type = ("paragraph" : QString) then
      walkContent o (if lines.isEmpty then lines ++ [[]] else lines)
    else if type = ("hardBreak" : QString) then lines ++ [[]]
    else if type = ("text" : QString) then
      appendText lines (QJsonObject.value o "text").toString
    else walkContent o lines
/-- The loop `for v : arr { if (!first) lines.append(""); first = false; walk(v, lines); }`. -/
def walkSeparated : List QJsonValue → Bool → QStringList → QStringList
  | [], _, lines => lines
  | v :: vs, first, lines =>
    walkSeparated vs false (walk v (if first then lines else lines ++ [[]]))
/-- The loop `for v : arr walk(v, lines)`. -/
def walkChildren : List QJsonValue → QStringList → QStringList
  | [], lines => lines
  | v :: vs, lines => walkChildren vs (walk v lines)
/-- The separated loop over `o.value("content").toArray()`. -/
def walkContentSeparated : List (QString × QJsonValue) → QStringList → QStringList
  | [], lines => lines
  | (k, v) :: rest, lines =>
    if k = ("content" : QString) then
      match v with
      | .Array a => walkSeparated a true lines
      | _ => lines
    else walkContentSeparated rest lines
/-- The plain loop over `o.value("content").toArray()`. -/
def walkContent : List (QString × QJsonValue) → QStringList → QStringList
  | [], lines => lines
  | (k, v) :: rest, lines =>
    if k = ("content" : QString) then
      match v with
      | .Array a => walkChildren a lines
      | _ => lines
    else walkContent rest lines
end

/-- The loop `while (!out.isEmpty() && out.last().trimmed().isEmpty()) out.removeLast()`. -/
def removeTrailingBlank (out : QStringList) : QStringList :=
  out.rdropWhile (fun l => (QString.trimmed l).isEmpty)

/-- The method `JiraClient::adfToPlainText`. -/
def adfToPlainText (adf : QJsonValue) : QString :=
  let out := walk adf []
  let out := removeTrailingBlank out
  QString.trimmed (QStringList.join out "\n")

/-! ## The Qt library tables, replies, requests, signals -/

/-- The type `QDateTime`: `none` is an invalid date-time, `some ms` the instant `ms` milliseconds
after the epoch (the quantity Qt compares date-times by). -/
abbrev QDateTime := Option Int

def QDateTime.isValid (d : QDateTime) : Bool := d.isSome

/-- The `operator>` on `QDateTime`, which the source evaluates on valid operands only. -/
def QDateTime.gt : QDateTime → QDateTime → Bool
  | some a, some b => decide (b < a)
  | _, _ => false

/-- A valid `QDate` of the common era. -/
structure QDate where
  year : Nat
  month : Nat
  day : Nat
  deriving DecidableEq

/-- Decimal digits of `n`, left-padded with zeros to `width`. -/
def zeroPadded (width n : Nat) : QString :=
  let ds := (toString n).toList
  List.replicate (width - ds.length) '0' ++ ds

/-- The rendering `QDate::toString("yyyy-MM-dd")`. -/
def QDate.toString (d : QDate) : QString :=
  zeroPadded 4 d.year ++ ("-" : QString) ++ zeroPadded 2 d.month ++ ("-" : QString)
    ++ zeroPadded 2 d.day

/-- Library functions of Qt whose tables are not part of the repository. -/
structure Qt where
  /-- Model of `QChar::toCaseFolded`, behind `Qt::CaseInsensitive` comparisons. -/
  toCaseFolded : Char → Char
  /-- Model of `QDateTime::fromString(s, Qt::ISODateWithMs)`. -/
  fromStringISODateWithMs : QString → QDateTime
  /-- Model of `QDateTime::fromString(s, Qt::ISODate)`. -/
  fromStringISODate : QString → QDateTime
  /-- Model of `QUrl::toPercentEncoding`. -/
  toPercentEncoding : QString → QString
  /-- Model of `QDate::fromString(s, Qt::ISODate)`; `none` is an invalid date. -/
  dateFromStringISODate : QString → Option QDate
  /-- Model of `QString::toLower`. -/
  toLower : QString → QString

/-- The test `a.compare(b, Qt::CaseInsensitive) == 0`. -/
def QString.equalsIgnoreCase (qt : Qt) (a b : QString) : Bool :=
  decide (a.map qt.toCaseFolded = b.map qt.toCaseFolded)

/-- Model of `QString::indexOf(needle, 0, Qt::CaseInsensitive)`. -/
def QString.indexOfCaseInsensitive (qt : Qt) (s needle : QString) : Int :=
  QString.indexOfBy (fun a b => qt.toCaseFolded a == qt.toCaseFolded b) needle s 0

/-- The `operator>` on `QDateTime` for operands that may be invalid: an invalid date-time
precedes every valid one. -/
def QDateTime.after : QDateTime → QDateTime → Bool
  | some a, some b => decide (b < a)
  | some _, none => true
  | none, _ => false

/-- Model of `QString::number(int)`. -/
def QString.number (n : Int) : QString := (toString n).toList

inductive NetworkError where
  | NoError
  | AuthenticationRequiredError
  | ContentAccessDenied
  | OtherError
  deriving DecidableEq

/-- What a `finished` handler reads from its reply: `error()`, the HTTP status attribute
(`0` when there is none), `errorString()` and `QJsonDocument::fromJson(readAll())`, which
is an `Array`, an `Object`, or (for a body that is no JSON document) `Null`. -/
structure QNetworkReply where
  error : NetworkError
  status : Int
  errorString : QString
  body : QJsonValue

structure QUrl where
  path : QString
  query : List (QString × QString)

inductive Verb where
  | GET
  | POST
  | PUT
  deriving DecidableEq

structure Request where
  verb : Verb
  url : QUrl
  payload : QJsonValue

/-- The record `JiraTicket` of `models.h`. -/
structure JiraTicket where
  key : QString
  summary : QString
  status : QString
  sprint : QString
  deriving DecidableEq

/-- The record `JiraComment` of `models.h`. -/
structure JiraComment where
  id : QString
  author : QString
  created : QDateTime
  editableBody : QString
  deriving DecidableEq

/-- The record `JiraHistoryEntry` of `models.h`. -/
structure JiraHistoryEntry where
  author : QString
  when : QDateTime
  field : QString
  fromValue : QString
  toValue : QString
  deriving DecidableEq

/-- The record `JiraIssueFieldSnapshot` of `models.h`. -/
structure JiraIssueFieldSnapshot where
  description : QString
  storyPoints : Option Rat
  assigneeDisplayName : QString
  assigneeAccountId : QString
  sprintName : QString
  sprintId : Option Int
  dueDate : Option QDate
  deriving DecidableEq

/-- The value-initialised record `JiraIssueFieldSnapshot{}`. -/
def JiraIssueFieldSnapshot.new : JiraIssueFieldSnapshot :=
  ⟨[], none, [], [], [], none, none⟩

/-- The record `JiraTransition` of `models.h`. -/
structure JiraTransition where
  id : QString
  name : QString
  deriving DecidableEq

/-- The algorithm `std::sort` at the element type of the history.  The standard fixes its
result only up to the order of equivalent elements, so it is a parameter of the model. -/
structure StdLib where
  sort : (JiraHistoryEntry → JiraHistoryEntry → Bool) → List JiraHistoryEntry
    → List JiraHistoryEntry

inductive Signal where
  | myTicketsReady (tickets : List JiraTicket)
  | issueFieldSnapshotReady (snapshot : JiraIssueFieldSnapshot)
  | issueCommentsReady (comments : List JiraComment)
  | issueHistoryReady (entries : List JiraHistoryEntry)
  | transitionsReady (transitions : List JiraTransition)
  | mostRecentActiveSprintReady (sprintId : Option Int) (sprintName : QString)
      (startDate : Option QDateTime)
  | sprintIssuesReady (tickets : List JiraTicket)
  | operationSucceeded (message : QString)
  | operationFailed (context error : QString)
  | authenticationRequired (message : QString)
  deriving DecidableEq

/-- What a handler does that the C++ standard leaves undefined. -/
inductive UndefinedBehaviour where
  /-- The handler reads or appends to the accumulator `all`, a local of the call that issued
  the first request, which it holds by reference and which was destroyed when that call
  returned. -/
  | accumulator
  /-- The handler has called its copy of the recursive `std::function`; the call has issued
  its request and, to connect the handler of that request, copies the local `fetch`
  (`fetchPage`), which it holds by reference and which was destroyed when the call that
  declared it returned. -/
  | handler
  /-- The sum of two `int`s is outside the range of `int`. -/
  | overflow
  deriving DecidableEq

inductive Effect where
  | send (r : Request)
  | emit (s : Signal)
  /-- The mark of undefined behaviour: the statement that follows in the handler uses an
  object whose lifetime has ended, or overflows. -/
  | undefined (u : UndefinedBehaviour)

/-- The signals of a log, in emission order. -/
def signals : List Effect → List Signal
  | [] => []
  | .emit s :: log => s :: signals log
  | .send _ :: log => signals log
  | .undefined _ :: log => signals log

/-- The requests of a log, in issue order. -/
def requests : List Effect → List Request
  | [] => []
  | .send r :: log => r :: requests log
  | .emit _ :: log => requests log
  | .undefined _ :: log => requests log

def Effect.isUndefined : Effect → Bool
  | .undefined _ => true
  | _ => false

/-- The log of a call of the recursive `std::function` made by a handler, through the copy
that the handler holds: the call issues its request (the head of the log) and then copies
the destroyed local `fetch` into the handler that it connects to the reply. -/
def fromHandler : List Effect → List Effect
  | [] => []
  | e :: log => e :: .undefined .handler :: log

/-- The range of the C++ type `int`. -/
def fitsInt (n : Int) : Bool := decide (-2147483648 ≤ n ∧ n ≤ 2147483647)

/-- The value of an integer as an `int`: two's complement on 32 bits. -/
def toCInt (n : Int) : Int := (n + 2147483648) % 4294967296 - 2147483648

def Signal.isOperationSucceeded : Signal → Bool
  | .operationSucceeded _ => true
  | _ => false

def Signal.isOperationFailed : Signal → Bool
  | .operationFailed _ _ => true
  | _ => false

def Signal.isAuthenticationRequired : Signal → Bool
  | .authenticationRequired _ => true
  | _ => false

def Signal.isMostRecentActiveSprintReady : Signal → Bool
  | .mostRecentActiveSprintReady _ _ _ => true
  | _ => false

/-! ## The client -/

structure JiraClient where
  m_instanceUrl : QString
  m_username : QString
  m_apiToken : QString
  m_basePlatform : QString
  m_baseAgile : QString
  m_fieldMetadataLoaded : Bool
  m_sprintFieldId : QString
  m_storyPointsFieldId : QString

/-- The helper `trimTrailingSlash`: `while (s.endsWith('/')) s.chop(1)`. -/
def trimTrailingSlash (s : QString) : QString :=
  s.rdropWhile (fun ch => ch == '/')

/-- A freshly constructed `JiraClient`. -/
def JiraClient.new : JiraClient :=
  ⟨[], [], [], [], [], false, [], []⟩

/-- The method `JiraClient::configure`. -/
def JiraClient.configure (_c : JiraClient) (instanceUrl username apiToken : QString) :
    JiraClient :=
  let m_instanceUrl := trimTrailingSlash instanceUrl
  { m_instanceUrl := m_instanceUrl
    m_username := username
    m_apiToken := apiToken
    m_basePlatform := m_instanceUrl ++ ("/rest/api/3" : QString)
    m_baseAgile := m_instanceUrl ++ ("/rest/agile/1.0" : QString)
    m_fieldMetadataLoaded := false
    m_sprintFieldId := []
    m_storyPointsFieldId := [] }

/-- The method `JiraClient::isAuthError` (the reply pointer is never null in a handler). -/
def isAuthError (reply : QNetworkReply) (err : NetworkError) : Bool :=
  let status := reply.status
  err == .AuthenticationRequiredError
    || err == .ContentAccessDenied
    || status == 401
    || status == 403

/-- One turn of the catalog loop of `ensureFieldMetadata`. -/
def scanField (qt : Qt) (c : JiraClient) (v : QJsonValue) : JiraClient :=
  let o := v.toObject
  let name := (QJsonObject.value o "name").toString
  let id := (QJsonObject.value o "id").toString
  let c := if QString.equalsIgnoreCase qt name "Sprint" then { c with m_sprintFieldId := id } else c
  let c := if QString.equalsIgnoreCase qt name "Story Points" then
    { c with m_storyPointsFieldId := id } else c
  c

/-- The method `JiraClient::ensureFieldMetadata(cont)`.  `net` is the script of replies still
to come; the continuation receives the client state and the rest of the script.  `c` is
the client when the method is called: it decides whether the catalog is read and where.
`atReply` is the client when the reply of that read arrives: the `finished` handler and
the continuation read and write the members as they are then, after the handlers of other
operations may have written them. -/
def ensureFieldMetadata.interleaved (qt : Qt) (c atReply : JiraClient)
    (net : List QNetworkReply)
    (cont : JiraClient → List QNetworkReply → JiraClient × List Effect) :
    JiraClient × List Effect :=
  if c.m_fieldMetadataLoaded then cont c net
  else
    let url : QUrl := ⟨c.m_basePlatform ++ ("/field" : QString), []⟩
    let get := Effect.send ⟨.GET, url, .Undefined⟩
    match net with
    | [] => (c, [get])
    | reply :: net =>
      let data := reply.body
      let err := reply.error
      let errStr := reply.errorString
      if err ≠ .NoError then
        if isAuthError reply err then
          (atReply, [get, .emit (.authenticationRequired
            "Jira authentication failed while loading field metadata. Please configure your API token.")])
        else
          let r := cont atReply net
          (r.1, get :: .emit (.operationFailed "Load field metadata" errStr) :: r.2)
      else if !data.isArray then
        let r := cont atReply net
        (r.1, get :: .emit (.operationFailed "Load field metadata"
          "Unexpected JSON (expected array)") :: r.2)
      else
        let arr := data.toArray
        let c := arr.foldl (scanField qt) atReply
        let c := { c with m_fieldMetadataLoaded := true }
        let r := cont c net
        (r.1, get :: r.2)

/-- The method `JiraClient::ensureFieldMetadata(cont)` of an operation that is run alone: no
other handler runs while the catalog read is in flight, so that the client is the same
when the reply arrives. -/
def ensureFieldMetadata (qt : Qt) (c : JiraClient) (net : List QNetworkReply)
    (cont : JiraClient → List QNetworkReply → JiraClient × List Effect) :
    JiraClient × List Effect :=
  ensureFieldMetadata.interleaved qt c c net cont

/-! ## Write operations -/

/-- The method `JiraClient::updateIssueDescription` with the `finished` handler of its PUT. -/
def updateIssueDescription (qt : Qt) (c : JiraClient) (issueKey plainText : QString)
    (net : List QNetworkReply) : List Effect :=
  if (QString.trimmed issueKey).isEmpty then []
  else
    let url : QUrl := ⟨c.m_basePlatform ++ ("/issue/" : QString) ++ qt.toPercentEncoding issueKey, []⟩
    let fields := QJsonObject.insert [] "description" (.Object (buildAdfDocument plainText))
    let payload := QJsonObject.insert [] "fields" (.Object fields)
    Effect.send ⟨.PUT, url, .Object payload⟩ ::
      match net with
      | [] => []
      | reply :: _ =>
        let err := reply.error
        let errStr := reply.errorString
        if err ≠ .NoError then
          if isAuthError reply err then
            [.emit (.authenticationRequired
              "Jira authentication failed while updating the description. Please configure your API token.")]
          else [.emit (.operationFailed "UpdateIssueDescription" errStr)]
        else [.emit (.operationSucceeded "Description updated")]

/-- The method `JiraClient::addComment` with the `finished` handler of its POST. -/
def addComment (qt : Qt) (c : JiraClient) (issueKey plainText : QString)
    (net : List QNetworkReply) : List Effect :=
  if (QString.trimmed issueKey).isEmpty || (QString.trimmed plainText).isEmpty then []
  else
    let url : QUrl := ⟨c.m_basePlatform ++ ("/issue/" : QString) ++ qt.toPercentEncoding issueKey
      ++ ("/comment" : QString), []⟩
    let payload := QJsonObject.insert [] "body" (.Object (buildAdfDocument plainText))
    Effect.send ⟨.POST, url, .Object payload⟩ ::
      match net with
      | [] => []
      | reply :: _ =>
        let err := reply.error
        let errStr := reply.errorString
        if err ≠ .NoError then
          if isAuthError reply err then
            [.emit (.authenticationRequired
              "Jira authentication failed while adding a comment. Please configure your API token.")]
          else [.emit (.operationFailed "AddComment" errStr)]
        else [.emit (.operationSucceeded "Comment posted")]

/-- The method `JiraClient::updateComment` with the `finished` handler of its PUT. -/
def updateComment (qt : Qt) (c : JiraClient) (issueKey commentId plainText : QString)
    (net : List QNetworkReply) : List Effect :=
  if (QString.trimmed issueKey).isEmpty || (QString.trimmed commentId).isEmpty then []
  else
    let url : QUrl := ⟨c.m_basePlatform ++ ("/issue/" : QString) ++ qt.toPercentEncoding issueKey
      ++ ("/comment/" : QString) ++ qt.toPercentEncoding commentId, []⟩
    let payload := QJsonObject.insert [] "body" (.Object (buildAdfDocument plainText))
    Effect.send ⟨.PUT, url, .Object payload⟩ ::
      match net with
      | [] => []
      | reply :: _ =>
        let err := reply.error
        let errStr := reply.errorString
        if err ≠ .NoError then
          if isAuthError reply err then
            [.emit (.authenticationRequired
              "Jira authentication failed while updating a comment. Please configure your API token.")]
          else [.emit (.operationFailed "UpdateComment" errStr)]
        else [.emit (.operationSucceeded "Comment updated")]

/-- The method `JiraClient::updateDueDate` with the `finished` handler of its PUT. -/
def updateDueDate (qt : Qt) (c : JiraClient) (issueKey : QString) (dueDate : Option QDate)
    (net : List QNetworkReply) : List Effect :=
  if (QString.trimmed issueKey).isEmpty then []
  else
    let url : QUrl := ⟨c.m_basePlatform ++ ("/issue/" : QString) ++ qt.toPercentEncoding issueKey, []⟩
    let fields :=
      match dueDate with
      | some d => QJsonObject.insert [] "duedate" (.String (QDate.toString d))
      | none => QJsonObject.insert [] "duedate" .Null
    let payload := QJsonObject.insert [] "fields" (.Object fields)
    Effect.send ⟨.PUT, url, .Object payload⟩ ::
      match net with
      | [] => []
      | reply :: _ =>
        let err := reply.error
        let errStr := reply.errorString
        if err ≠ .NoError then
          if isAuthError reply err then
            [.emit (.authenticationRequired
              "Jira authentication failed while updating the due date. Please configure your API token.")]
          else [.emit (.operationFailed "UpdateDueDate" errStr)]
        else [.emit (.operationSucceeded "Due date updated")]

/-- The method `JiraClient::transitionIssue` with the `finished` handler of its POST. -/
def transitionIssue (qt : Qt) (c : JiraClient) (issueKey transitionId : QString)
    (net : List QNetworkReply) : List Effect :=
  if (QString.trimmed issueKey).isEmpty || (QString.trimmed transitionId).isEmpty then []
  else
    let url : QUrl := ⟨c.m_basePlatform ++ ("/issue/" : QString) ++ qt.toPercentEncoding issueKey
      ++ ("/transitions" : QString), []⟩
    let transition := QJsonObject.insert [] "id" (.String transitionId)
    let payload := QJsonObject.insert [] "transition" (.Object transition)
    Effect.send ⟨.POST, url, .Object payload⟩ ::
      match net with
      | [] => []
      | reply :: _ =>
        let err := reply.error
        let errStr := reply.errorString
        if err ≠ .NoError then
          if isAuthError reply err then
            [.emit (.authenticationRequired
              "Jira authentication failed while transitioning the issue. Please configure your API token.")]
          else [.emit (.operationFailed "TransitionIssue" errStr)]
        else [.emit (.operationSucceeded "Transition applied")]

/-- The method `JiraClient::updateStoryPoints`, run alone: field-metadata resolution, then
the PUT and its `finished` handler. -/
def updateStoryPoints (qt : Qt) (c : JiraClient) (issueKey : QString) (storyPoints : Option Rat)
    (net : List QNetworkReply) : JiraClient × List Effect :=
  if (QString.trimmed issueKey).isEmpty then (c, [])
  else
    ensureFieldMetadata qt c net (fun c net =>
      if c.m_storyPointsFieldId.isEmpty then (c, [])
      else
        let url : QUrl :=
          ⟨c.m_basePlatform ++ ("/issue/" : QString) ++ qt.toPercentEncoding issueKey, []⟩
        let fields :=
          match storyPoints with
          | some p => QJsonObject.insert [] c.m_storyPointsFieldId (.Double p)
          | none => QJsonObject.insert [] c.m_storyPointsFieldId .Null
        let payload := QJsonObject.insert [] "fields" (.Object fields)
        (c, Effect.send ⟨.PUT, url, .Object payload⟩ ::
          match net with
          | [] => []
          | reply :: _ =>
            let err := reply.error
            let errStr := reply.errorString
            if err ≠ .NoError then
              if isAuthError reply err then
                [.emit (.authenticationRequired
                  "Jira authentication failed while updating story points. Please configure your API token.")]
              else [.emit (.operationFailed "UpdateStoryPoints" errStr)]
            else [.emit (.operationSucceeded "Story points updated")]))

/-- The method `JiraClient::updateSprint`, run alone: field-metadata resolution, then the
PUT and its `finished` handler. -/
def updateSprint (qt : Qt) (c : JiraClient) (issueKey : QString) (sprintId : Option Int)
    (net : List QNetworkReply) : JiraClient × List Effect :=
  if (QString.trimmed issueKey).isEmpty then (c, [])
  else
    ensureFieldMetadata qt c net (fun c net =>
      if c.m_sprintFieldId.isEmpty then (c, [])
      else
        let url : QUrl :=
          ⟨c.m_basePlatform ++ ("/issue/" : QString) ++ qt.toPercentEncoding issueKey, []⟩
        let fields :=
          match sprintId with
          | some i => QJsonObject.insert [] c.m_sprintFieldId (.Array ([] ++ [QJsonValue.Double i]))
          | none => QJsonObject.insert [] c.m_sprintFieldId .Null
        let payload := QJsonObject.insert [] "fields" (.Object fields)
        (c, Effect.send ⟨.PUT, url, .Object payload⟩ ::
          match net with
          | [] => []
          | reply :: _ =>
            let err := reply.error
            let errStr := reply.errorString
            if err ≠ .NoError then
              if isAuthError reply err then
                [.emit (.authenticationRequired
                  "Jira authentication failed while updating the sprint. Please configure your API token.")]
              else [.emit (.operationFailed "UpdateSprint" errStr)]
            else [.emit (.operationSucceeded "Sprint updated")]))

/-- The method `JiraClient::updateStoryPoints` when the handlers of other operations run
while its catalog read is in flight: `atReply` is the client when the reply of that read
arrives. -/
def updateStoryPoints.interleaved (qt : Qt) (c atReply : JiraClient) (issueKey : QString)
    (storyPoints : Option Rat) (net : List QNetworkReply) : JiraClient × List Effect :=
  if (QString.trimmed issueKey).isEmpty then (c, [])
  else
    ensureFieldMetadata.interleaved qt c atReply net (fun c net =>
      if c.m_storyPointsFieldId.isEmpty then (c, [])
      else
        let url : QUrl :=
          ⟨c.m_basePlatform ++ ("/issue/" : QString) ++ qt.toPercentEncoding issueKey, []⟩
        let fields :=
          match storyPoints with
          | some p => QJsonObject.insert [] c.m_storyPointsFieldId (.Double p)
          | none => QJsonObject.insert [] c.m_storyPointsFieldId .Null
        let payload := QJsonObject.insert [] "fields" (.Object fields)
        (c, Effect.send ⟨.PUT, url, .Object payload⟩ ::
          match net with
          | [] => []
          | reply :: _ =>
            let err := reply.error
            let errStr := reply.errorString
            if err ≠ .NoError then
              if isAuthError reply err then
                [.emit (.authenticationRequired
                  "Jira authentication failed while updating story points. Please configure your API token.")]
              else [.emit (.operationFailed "UpdateStoryPoints" errStr)]
            else [.emit (.operationSucceeded "Story points updated")]))

/-- The method `JiraClient::updateSprint` when the handlers of other operations run while
its catalog read is in flight: `atReply` is the client when the reply of that read
arrives. -/
def updateSprint.interleaved (qt : Qt) (c atReply : JiraClient) (issueKey : QString)
    (sprintId : Option Int) (net : List QNetworkReply) : JiraClient × List Effect :=
  if (QString.trimmed issueKey).isEmpty then (c, [])
  else
    ensureFieldMetadata.interleaved qt c atReply net (fun c net =>
      if c.m_sprintFieldId.isEmpty then (c, [])
      else
        let url : QUrl :=
          ⟨c.m_basePlatform ++ ("/issue/" : QString) ++ qt.toPercentEncoding issueKey, []⟩
        let fields :=
          match sprintId with
          | some i => QJsonObject.insert [] c.m_sprintFieldId (.Array ([] ++ [QJsonValue.Double i]))
          | none => QJsonObject.insert [] c.m_sprintFieldId .Null
        let payload := QJsonObject.insert [] "fields" (.Object fields)
        (c, Effect.send ⟨.PUT, url, .Object payload⟩ ::
          match net with
          | [] => []
          | reply :: _ =>
            let err := reply.error
            let errStr := reply.errorString
            if err ≠ .NoError then
              if isAuthError reply err then
                [.emit (.authenticationRequired
                  "Jira authentication failed while updating the sprint. Please configure your API token.")]
              else [.emit (.operationFailed "UpdateSprint" errStr)]
            else [.emit (.operationSucceeded "Sprint updated")]))

/-- The method `JiraClient::resolveUserAccountId(query, cont)`; the continuation receives the
resolved account id and the rest of the reply script. -/
def resolveUserAccountId (c : JiraClient) (query : QString) (net : List QNetworkReply)
    (cont : QString → List QNetworkReply → List Effect) : List Effect :=
  if (QString.trimmed query).isEmpty then cont [] net
  else
    let url : QUrl := ⟨c.m_basePlatform ++ ("/user/search/query" : QString), []⟩
    let payload := QJsonObject.insert [] "query" (.String query)
    let payload := QJsonObject.insert payload "maxResults" (.Double 1)
    Effect.send ⟨.POST, url, .Object payload⟩ ::
      match net with
      | [] => []
      | reply :: net =>
        let data := reply.body
        let err := reply.error
        let errStr := reply.errorString
        if err ≠ .NoError then
          if isAuthError reply err then
            .emit (.authenticationRequired
              "Jira authentication failed while resolving an account id. Please configure your API token.")
              :: cont [] net
          else .emit (.operationFailed "ResolveUserAccountId" errStr) :: cont [] net
        else if !data.isArray || data.toArray.isEmpty then cont [] net
        else
          let first := (data.toArray.headD .Undefined).toObject
          cont (QJsonObject.value first "accountId").toString net

/-- The method `JiraClient::updateAssignee`: account-id lookup, then the PUT and its
`finished` handler. -/
def updateAssignee (qt : Qt) (c : JiraClient) (issueKey assigneeInput : QString)
    (net : List QNetworkReply) : List Effect :=
  if (QString.trimmed issueKey).isEmpty then []
  else
    let trimmed := QString.trimmed assigneeInput
    resolveUserAccountId c trimmed net (fun resolved net =>
      let accountId : QString :=
        if !trimmed.isEmpty then (if resolved.isEmpty then trimmed else resolved) else []
      let url : QUrl :=
        ⟨c.m_basePlatform ++ ("/issue/" : QString) ++ qt.toPercentEncoding issueKey
          ++ ("/assignee" : QString), []⟩
      let payload :=
        if !accountId.isEmpty then QJsonObject.insert [] "accountId" (.String accountId)
        else QJsonObject.insert [] "accountId" .Null
      Effect.send ⟨.PUT, url, .Object payload⟩ ::
        match net with
        | [] => []
        | reply :: _ =>
          let err := reply.error
          let errStr := reply.errorString
          if err ≠ .NoError then
            if isAuthError reply err then
              [.emit (.authenticationRequired
                "Jira authentication failed while updating the assignee. Please configure your API token.")]
            else [.emit (.operationFailed "UpdateAssignee" errStr)]
          else [.emit (.operationSucceeded "Assignee updated")])

/-! ## Boards, sprints and the most recent active sprint -/

/-- The request of one page of `getAllBoards`. -/
def boardsRequest (c : JiraClient) (type : QString) (startAt : Int) : Request :=
  let max : Int := 50
  let q : List (QString × QString) :=
    [(("startAt" : QString), QString.number startAt)] ++
    [(("maxResults" : QString), QString.number max)]
  let q := if !type.isEmpty then q ++ [(("type" : QString), type)] else q
  ⟨.GET, ⟨c.m_baseAgile ++ ("/board" : QString), q⟩, .Undefined⟩

/-- The lambda `fetch` of `JiraClient::getAllBoards` with its `finished` handler: the log of
the fetch and, once the fetch has ended, the list with which `cont` is invoked (every
path of the handler that ends the fetch invokes `cont` once); `none` while a request is
unanswered.  `all` is the accumulator, which lives on the heap, `startAt` the offset of the
next request.  The handler reaches the next page through its copy of the `std::function`:
that call issues the next request and then copies the local `fetch` of the method, which
is destroyed by then (`fromHandler`).  The handler of the first page is the only one that
is connected within defined behaviour.  The sum `startAt + values.size()` is taken in
`qsizetype`; a parsed array has fewer than 2^31 values. -/
def getAllBoards.fetch (c : JiraClient) (type : QString) :
    List QJsonObject → Int → List QNetworkReply → List Effect × Option (List QJsonObject)
  | _, startAt, [] => ([.send (boardsRequest c type startAt)], none)
  | all, startAt, reply :: net =>
    let data := reply.body
    let err := reply.error
    let errStr := reply.errorString
    let req := Effect.send (boardsRequest c type startAt)
    if err ≠ .NoError then
      if isAuthError reply err then
        ([req, .emit (.authenticationRequired
          "Jira authentication failed while loading boards. Please configure your API token.")],
          some [])
      else ([req, .emit (.operationFailed "GetAllBoards" errStr)], some all)
    else if !data.isObject then
      ([req, .emit (.operationFailed "GetAllBoards" "Unexpected JSON (expected object)")],
        some all)
    else
      let root := data.toObject
      let values := (QJsonObject.value root "values").toArray
      let all := values.foldl (fun all v => all ++ [v.toObject]) all
      let isLast := (QJsonObject.value root "isLast").toBool false
      if isLast || values.isEmpty then ([req], some all)
      else
        let r := getAllBoards.fetch c type all (startAt + values.length) net
        (req :: fromHandler r.1, r.2)

/-- The method `JiraClient::getAllBoards(type, cont)`. -/
def getAllBoards (c : JiraClient) (type : QString) (net : List QNetworkReply) :
    List Effect × Option (List QJsonObject) :=
  getAllBoards.fetch c type [] 0 net

/-- The request of one page of `getBoardSprints`. -/
def boardSprintsRequest (c : JiraClient) (boardId : Int) (state : QString) (startAt : Int) :
    Request :=
  let max : Int := 50
  let q : List (QString × QString) :=
    [(("startAt" : QString), QString.number startAt)] ++
    [(("maxResults" : QString), QString.number max)]
  let q := if !state.isEmpty then q ++ [(("state" : QString), state)] else q
  ⟨.GET, ⟨c.m_baseAgile ++ ("/board/" : QString) ++ QString.number boardId
    ++ ("/sprint" : QString), q⟩, .Undefined⟩

/-- The lambda `fetch` of `JiraClient::getBoardSprints` with its `finished` handler, read
like `getAllBoards.fetch`. -/
def getBoardSprints.fetch (c : JiraClient) (boardId : Int) (state : QString) :
    List QJsonObject → Int → List QNetworkReply → List Effect × Option (List QJsonObject)
  | _, startAt, [] => ([.send (boardSprintsRequest c boardId state startAt)], none)
  | all, startAt, reply :: net =>
    let data := reply.body
    let err := reply.error
    let errStr := reply.errorString
    let req := Effect.send (boardSprintsRequest c boardId state startAt)
    if err ≠ .NoError then
      if isAuthError reply err then
        ([req, .emit (.authenticationRequired
          "Jira authentication failed while loading sprints. Please configure your API token.")],
          some [])
      else ([req, .emit (.operationFailed "GetBoardSprints" errStr)], some all)
    else if !data.isObject then
      ([req, .emit (.operationFailed "GetBoardSprints" "Unexpected JSON (expected object)")],
        some all)
    else
      let root := data.toObject
      let values := (QJsonObject.value root "values").toArray
      let all := values.foldl (fun all v => all ++ [v.toObject]) all
      let isLast := (QJsonObject.value root "isLast").toBool false
      if isLast || values.isEmpty then ([req], some all)
      else
        let r := getBoardSprints.fetch c boardId state all (startAt + values.length) net
        (req :: fromHandler r.1, r.2)

/-- The method `JiraClient::getBoardSprints(boardId, state, cont)`. -/
def getBoardSprints (c : JiraClient) (boardId : Int) (state : QString)
    (net : List QNetworkReply) : List Effect × Option (List QJsonObject) :=
  getBoardSprints.fetch c boardId state [] 0 net

/-- The local `struct Best` of `getMostRecentActiveSprint`. -/
structure Best where
  has : Bool
  id : Int
  name : QString
  start : QDateTime
  hasStart : Bool

/-- The value of `new Best()`. -/
def Best.new : Best := ⟨false, 0, [], none, false⟩

/-- The start timestamp the reducer parses from a sprint: `Qt::ISODateWithMs` first, then
`Qt::ISODate`. -/
def sprintStart (qt : Qt) (s : QJsonObject) : QDateTime :=
  let startStr := (QJsonObject.value s "startDate").toString
  let start := qt.fromStringISODateWithMs startStr
  let start := if !start.isValid then qt.fromStringISODate startStr else start
  start

/-- One turn of the loop `for (const auto& s : sprints)` in the callback of
`getMostRecentActiveSprint`: the reducer step. -/
def reduceSprint (qt : Qt) (best : Best) (s : QJsonObject) : Best :=
  let id := (QJsonObject.value s "id").toInt 0
  let name := (QJsonObject.value s "name").toString
  let start := sprintStart qt s
  let hasStart := start.isValid
  if !best.has then
    { has := true, id := id, name := name, start := start, hasStart := hasStart }
  else if hasStart && (!best.hasStart || QDateTime.gt start best.start) then
    { best with id := id, name := name, start := start, hasStart := true }
  else best

/-- The heap objects `best` and `remaining` shared by the callbacks. -/
structure Aggregation where
  best : Best
  remaining : Int

/-- The signal emitted when the countdown reaches zero. -/
def Best.ready (best : Best) : Signal :=
  if !best.has then .mostRecentActiveSprintReady none [] none
  else .mostRecentActiveSprintReady (some best.id) best.name
    (if best.hasStart then some best.start else none)

/-- The callback that `getMostRecentActiveSprint` hands to `getBoardSprints`, run when one
board's sprint fetch ends and delivers `sprints`. -/
def getMostRecentActiveSprint.onSprints (qt : Qt) (agg : Aggregation)
    (sprints : List QJsonObject) : Aggregation × List Effect :=
  let best := sprints.foldl (reduceSprint qt) agg.best
  let remaining := agg.remaining - 1
  if remaining = 0 then (⟨best, remaining⟩, [.emit best.ready])
  else (⟨best, remaining⟩, [])

/-- The callback run for each sprint fetch that ends, in order of completion: `arrivals`
lists what the fetches deliver, first completed first. -/
def getMostRecentActiveSprint.completions (qt : Qt) :
    Aggregation → List (List QJsonObject) → Aggregation × List Effect
  | agg, [] => (agg, [])
  | agg, sprints :: arrivals =>
    let r := getMostRecentActiveSprint.onSprints qt agg sprints
    let r2 := getMostRecentActiveSprint.completions qt r.1 arrivals
    (r2.1, r.2 ++ r2.2)

/-- The callback that `getMostRecentActiveSprint` hands to `getAllBoards`: with no board it
emits the empty result; otherwise it allocates `best` and `remaining` and starts one
sprint fetch per board, each of which issues its first request at once. -/
def getMostRecentActiveSprint.onBoards (c : JiraClient) (boards : List QJsonObject) :
    List Effect × Option Aggregation :=
  if boards.isEmpty then ([.emit (.mostRecentActiveSprintReady none [] none)], none)
  else
    (boards.map (fun b =>
        let boardId := (QJsonObject.value b "id").toInt 0
        Effect.send (boardSprintsRequest c boardId "active" 0)),
      some ⟨Best.new, boards.length⟩)

/-- The method `JiraClient::getMostRecentActiveSprint`: the board fetch (answered by the
script `net`), its callback, and the callbacks of the sprint fetches that have ended, in
their order of completion.  The log holds the requests of the board fetch, the first
request of every sprint fetch and the signals of the callbacks; the further pages and the
failure signals of a sprint fetch are in the log of `getBoardSprints`. -/
def getMostRecentActiveSprint (qt : Qt) (c : JiraClient) (net : List QNetworkReply)
    (arrivals : List (List QJsonObject)) : List Effect :=
  match getAllBoards c "scrum" net with
  | (log, none) => log
  | (log, some boards) =>
    match getMostRecentActiveSprint.onBoards c boards with
    | (started, none) => log ++ started
    | (started, some agg) =>
      log ++ started ++ (getMostRecentActiveSprint.completions qt agg arrivals).2

/-! ## Paginated reads: tickets, comments, sprint issues -/

/-- The request of one page of the ticket search of `getMyTickets`. -/
def searchRequest (c : JiraClient) (nextPageToken : QString) : Request :=
  let jql : QString :=
    "assignee = currentUser() and status NOT IN (Closed, Done) ORDER BY updated DESC"
  let maxResults : Int := 1000
  let body := QJsonObject.insert [] "jql" (.String jql)
  let body := QJsonObject.insert body "maxResults" (.Double maxResults)
  let fields : QJsonArray :=
    [] ++ [QJsonValue.String "key"] ++ [QJsonValue.String "summary"]
      ++ [QJsonValue.String "status"] ++ [QJsonValue.String "updated"]
  let fields :=
    if !c.m_sprintFieldId.isEmpty then fields ++ [QJsonValue.String c.m_sprintFieldId]
    else fields
  let body := QJsonObject.insert body "fields" (.Array fields)
  let body :=
    if !nextPageToken.isEmpty then QJsonObject.insert body "nextPageToken" (.String nextPageToken)
    else body
  ⟨.POST, ⟨c.m_basePlatform ++ ("/search/jql" : QString), []⟩, .Object body⟩

/-- One turn of the loop over `issues` in the handler of `getMyTickets`: the ticket of an
issue. -/
def getMyTickets.ticket (c : JiraClient) (v : QJsonValue) : JiraTicket :=
  let issue := v.toObject
  let key := (QJsonObject.value issue "key").toString
  let fields := (QJsonObject.value issue "fields").toObject
  let summary := (QJsonObject.value fields "summary").toString
  let statusObj := (QJsonObject.value fields "status").toObject
  let status := (QJsonObject.value statusObj "name").toString
  let sprintName : QString := "No Sprint"
  let sprintName :=
    if !c.m_sprintFieldId.isEmpty && QJsonObject.contains fields c.m_sprintFieldId then
      let sprintVal := QJsonObject.value fields c.m_sprintFieldId
      if sprintVal.isArray && !sprintVal.toArray.isEmpty then
        let first := sprintVal.toArray.headD .Undefined
        if first.isObject then (QJsonObject.value first.toObject "name").toStringOr "Sprint"
        else if first.isString then first.toString
        else sprintName
      else if sprintVal.isObject then
        (QJsonObject.value sprintVal.toObject "name").toStringOr "Sprint"
      else if sprintVal.isString then sprintVal.toString
      else sprintName
    else sprintName
  ⟨key, summary, status, sprintName⟩

/-- The lambda `fetchPage` of `JiraClient::getMyTickets` with its `finished` handler.
`all` is the accumulator and `fetchPage` the recursive `std::function`: both are locals of
the continuation that `getMyTickets` hands to `ensureFieldMetadata`, held by reference,
and destroyed when that continuation returns, before any reply arrives.  Every statement
of the handler that uses `all` (the loop that appends to it when there is an issue, the
two `emit myTicketsReady(all)`) is preceded by the mark `undefined accumulator`, and the
call `fetchPage(token)` is read through `fromHandler`. -/
def getMyTickets.fetchPage (c : JiraClient) :
    List JiraTicket → QString → List QNetworkReply → List Effect
  | _, nextPageToken, [] => [.send (searchRequest c nextPageToken)]
  | all, nextPageToken, reply :: net =>
    let data := reply.body
    let err := reply.error
    let errStr := reply.errorString
    Effect.send (searchRequest c nextPageToken) ::
      if err ≠ .NoError then
        if isAuthError reply err then
          [.emit (.authenticationRequired
            "Jira authentication failed while loading tickets. Please configure your API token."),
            .emit (.myTicketsReady [])]
        else
          [.emit (.operationFailed "GetMyTickets" errStr), .undefined .accumulator,
            .emit (.myTicketsReady all)]
      else if !data.isObject then
        [.emit (.operationFailed "GetMyTickets" "Unexpected JSON (expected object)"),
          .undefined .accumulator, .emit (.myTicketsReady all)]
      else
        let root := data.toObject
        let issues := (QJsonObject.value root "issues").toArray
        let appended : List Effect := if issues.isEmpty then [] else [.undefined .accumulator]
        let all := issues.foldl (fun all v => all ++ [getMyTickets.ticket c v]) all
        let token := (QJsonObject.value root "nextPageToken").toString
        appended ++
          if !token.isEmpty then fromHandler (getMyTickets.fetchPage c all token net)
          else [.undefined .accumulator, .emit (.myTicketsReady all)]

/-- The method `JiraClient::getMyTickets`: field-metadata resolution, then the ticket
search from its first page. -/
def getMyTickets (qt : Qt) (c : JiraClient) (net : List QNetworkReply) :
    JiraClient × List Effect :=
  ensureFieldMetadata qt c net (fun c net => (c, getMyTickets.fetchPage c [] [] net))

/-- The two-step parse of a timestamp used throughout the client: `Qt::ISODateWithMs`
first, then `Qt::ISODate`. -/
def parseDateTime (qt : Qt) (s : QString) : QDateTime :=
  let d := qt.fromStringISODateWithMs s
  if !d.isValid then qt.fromStringISODate s else d

/-- The request of one page of `getIssueComments`. -/
def commentsRequest (qt : Qt) (c : JiraClient) (issueKey : QString) (startAt : Int) :
    Request :=
  let maxResults : Int := 50
  let q : List (QString × QString) :=
    [(("startAt" : QString), QString.number startAt)] ++
    [(("maxResults" : QString), QString.number maxResults)]
  ⟨.GET, ⟨c.m_basePlatform ++ ("/issue/" : QString) ++ qt.toPercentEncoding issueKey
    ++ ("/comment" : QString), q⟩, .Undefined⟩

/-- One turn of the loop over `comments` in the handler of `getIssueComments`. -/
def getIssueComments.comment (qt : Qt) (v : QJsonValue) : JiraComment :=
  let c := v.toObject
  let id := (QJsonObject.value c "id").toString
  let authorObj := (QJsonObject.value c "author").toObject
  let author := (QJsonObject.value authorObj "displayName").toString
  let createdStr := (QJsonObject.value c "created").toString
  let created := parseDateTime qt createdStr
  let body := QJsonObject.value c "body"
  let bodyText := if body.isString then body.toString else adfToPlainText body
  ⟨id, author, created, bodyText⟩

/-- The lambda `fetch` of `JiraClient::getIssueComments` with its `finished` handler.  The
accumulator `all` and the `std::function` `fetch` are locals of the method, held by
reference by the handler and destroyed when the method returns: every statement of the
handler that uses `all` is preceded by the mark `undefined accumulator`, and the call
`fetch(nextStart)` is read through `fromHandler`. -/
def getIssueComments.fetch (qt : Qt) (c : JiraClient) (issueKey : QString) :
    List JiraComment → Int → List QNetworkReply → List Effect
  | _, startAt, [] => [.send (commentsRequest qt c issueKey startAt)]
  | all, startAt, reply :: net =>
    let data := reply.body
    let err := reply.error
    let errStr := reply.errorString
    Effect.send (commentsRequest qt c issueKey startAt) ::
      if err ≠ .NoError then
        if isAuthError reply err then
          [.emit (.authenticationRequired
            "Jira authentication failed while loading comments. Please configure your API token."),
            .emit (.issueCommentsReady [])]
        else
          [.emit (.operationFailed "GetIssueComments" errStr), .undefined .accumulator,
            .emit (.issueCommentsReady all)]
      else if !data.isObject then
        [.emit (.operationFailed "GetIssueComments" "Unexpected JSON (expected object)"),
          .undefined .accumulator, .emit (.issueCommentsReady all)]
      else
        let root := data.toObject
        let comments := (QJsonObject.value root "comments").toArray
        if comments.isEmpty then [.undefined .accumulator, .emit (.issueCommentsReady all)]
        else
          let all := comments.foldl (fun all v => all ++ [getIssueComments.comment qt v]) all
          let total := (QJsonObject.value root "total").toInt (startAt + comments.length)
          let nextStart := startAt + comments.length
          .undefined .accumulator ::
            if nextStart ≥ total then [.undefined .accumulator, .emit (.issueCommentsReady all)]
            else fromHandler (getIssueComments.fetch qt c issueKey all nextStart net)

/-- The method `JiraClient::getIssueComments`. -/
def getIssueComments (qt : Qt) (c : JiraClient) (issueKey : QString)
    (net : List QNetworkReply) : List Effect :=
  if (QString.trimmed issueKey).isEmpty then [.emit (.issueCommentsReady [])]
  else getIssueComments.fetch qt c issueKey [] 0 net

/-- The request of one page of `getIssuesForSprint`. -/
def sprintIssuesRequest (c : JiraClient) (sprintId : Int) (startAt : Int) : Request :=
  let maxResults : Int := 50
  let q : List (QString × QString) :=
    [(("startAt" : QString), QString.number startAt)] ++
    [(("maxResults" : QString), QString.number maxResults)]
  ⟨.GET, ⟨c.m_baseAgile ++ ("/sprint/" : QString) ++ QString.number sprintId
    ++ ("/issue" : QString), q⟩, .Undefined⟩

/-- One turn of the loop over `issues` in the handler of `getIssuesForSprint`. -/
def getIssuesForSprint.ticket (v : QJsonValue) : JiraTicket :=
  let issue := v.toObject
  let fields := (QJsonObject.value issue "fields").toObject
  let sprintName : QString := "This Sprint"
  let sprintVal := QJsonObject.value fields "sprint"
  let sprintName :=
    if sprintVal.isObject then (QJsonObject.value sprintVal.toObject "name").toStringOr sprintName
    else sprintName
  { key := (QJsonObject.value issue "key").toString
    summary := (QJsonObject.value fields "summary").toString
    status := (QJsonObject.value (QJsonObject.value fields "status").toObject "name").toString
    sprint := sprintName }

/-- The lambda `fetch` of `JiraClient::getIssuesForSprint` with its `finished` handler.  The
accumulator `all` and the `std::function` `fetch` are locals of the method, held by
reference by the handler and destroyed when the method returns: every statement of the
handler that uses `all` is preceded by the mark `undefined accumulator`, and the call
`fetch(nextStart)` is read through `fromHandler`.  The next offset is the sum of two
`int`s, `startAt` and the declared `maxResults`: when it leaves the range of `int` the
log holds the mark `undefined overflow` and goes on with the sum on 32 bits. -/
def getIssuesForSprint.fetch (c : JiraClient) (sprintId : Int) :
    List JiraTicket → Int → List QNetworkReply → List Effect
  | _, startAt, [] => [.send (sprintIssuesRequest c sprintId startAt)]
  | all, startAt, reply :: net =>
    let data := reply.body
    let err := reply.error
    let errStr := reply.errorString
    Effect.send (sprintIssuesRequest c sprintId startAt) ::
      if err ≠ .NoError then
        if isAuthError reply err then
          [.emit (.authenticationRequired
            "Jira authentication failed while loading sprint issues. Please configure your API token."),
            .emit (.sprintIssuesReady [])]
        else
          [.emit (.operationFailed "GetIssuesForSprint" errStr), .undefined .accumulator,
            .emit (.sprintIssuesReady all)]
      else if !data.isObject then
        [.emit (.operationFailed "GetIssuesForSprint" "Unexpected JSON (expected object)"),
          .undefined .accumulator, .emit (.sprintIssuesReady all)]
      else
        let root := data.toObject
        let issues := (QJsonObject.value root "issues").toArray
        if issues.isEmpty then [.undefined .accumulator, .emit (.sprintIssuesReady all)]
        else
          let all := issues.foldl (fun all v => all ++ [getIssuesForSprint.ticket v]) all
          let total := (QJsonObject.value root "total").toInt (startAt + issues.length)
          let sum := startAt + (QJsonObject.value root "maxResults").toInt issues.length
          let overflow : List Effect := if fitsInt sum then [] else [.undefined .overflow]
          let nextStart := toCInt sum
          .undefined .accumulator :: overflow ++
            if nextStart ≥ total then [.undefined .accumulator, .emit (.sprintIssuesReady all)]
            else fromHandler (getIssuesForSprint.fetch c sprintId all nextStart net)

/-- The method `JiraClient::getIssuesForSprint`. -/
def getIssuesForSprint (c : JiraClient) (sprintId : Int) (net : List QNetworkReply) :
    List Effect :=
  if sprintId ≤ 0 then [.emit (.sprintIssuesReady [])]
  else getIssuesForSprint.fetch c sprintId [] 0 net

/-! ## Single-request reads: snapshot, history, transitions -/

/-- The method `JiraClient::parseSprintNameFromLegacyString`. -/
def parseSprintNameFromLegacyString (qt : Qt) (raw : QString) : QString :=
  let sprintString : QString := "Sprint"
  if (QString.trimmed raw).isEmpty then sprintString
  else
    let idx := QString.indexOfCaseInsensitive qt raw "name="
    if idx < 0 then sprintString
    else
      let after := QString.mid raw (idx + 5)
      let stop := QString.indexOf after ','
      QString.trimmed (if stop > 0 then QString.left after stop else after)

/-- The method `JiraClient::extractSprint`: the values it leaves in `id` and `name`. -/
def extractSprint (element : QJsonValue) : Option Int × QString :=
  if !element.isObject then (none, [])
  else
    let o := element.toObject
    let id :=
      if (QJsonObject.value o "id").isDouble then some ((QJsonObject.value o "id").toInt 0)
      else none
    (id, (QJsonObject.value o "name").toString)

/-- The request of `getIssueFieldSnapshot`. -/
def snapshotRequest (qt : Qt) (c : JiraClient) (issueKey : QString) : Request :=
  let fields : QStringList :=
    [] ++ [("description" : QString)] ++ [("assignee" : QString)] ++ [("duedate" : QString)]
  let fields :=
    if !c.m_storyPointsFieldId.isEmpty then fields ++ [c.m_storyPointsFieldId] else fields
  let fields := if !c.m_sprintFieldId.isEmpty then fields ++ [c.m_sprintFieldId] else fields
  let fieldsParam := QStringList.join fields ","
  ⟨.GET, ⟨c.m_basePlatform ++ ("/issue/" : QString) ++ qt.toPercentEncoding issueKey,
    [(("fields" : QString), fieldsParam)]⟩, .Undefined⟩

/-- The snapshot that the handler of `getIssueFieldSnapshot` builds from the object `root`
of a response. -/
def getIssueFieldSnapshot.snapshot (qt : Qt) (c : JiraClient) (root : QJsonObject) :
    JiraIssueFieldSnapshot :=
  let fieldsObj := (QJsonObject.value root "fields").toObject
  let snap := JiraIssueFieldSnapshot.new
  let desc := QJsonObject.value fieldsObj "description"
  let snap :=
    if !desc.isNull && !desc.isUndefined then { snap with description := adfToPlainText desc }
    else snap
  let snap :=
    if !c.m_storyPointsFieldId.isEmpty then
      let sp := QJsonObject.value fieldsObj c.m_storyPointsFieldId
      if sp.isDouble then { snap with storyPoints := some sp.toDouble } else snap
    else snap
  let assignee := QJsonObject.value fieldsObj "assignee"
  let snap :=
    if assignee.isObject then
      let ao := assignee.toObject
      { snap with
        assigneeDisplayName := (QJsonObject.value ao "displayName").toString
        assigneeAccountId := (QJsonObject.value ao "accountId").toString }
    else snap
  let due := (QJsonObject.value fieldsObj "duedate").toString
  let snap :=
    if !due.isEmpty then
      match qt.dateFromStringISODate due with
      | some d => { snap with dueDate := some d }
      | none => snap
    else snap
  let snap :=
    if !c.m_sprintFieldId.isEmpty then
      let sprintVal := QJsonObject.value fieldsObj c.m_sprintFieldId
      if sprintVal.isArray && !sprintVal.toArray.isEmpty then
        let first := sprintVal.toArray.headD .Undefined
        let snap :=
          { snap with sprintId := (extractSprint first).1, sprintName := (extractSprint first).2 }
        if snap.sprintName.isEmpty && first.isString then
          { snap with sprintName := parseSprintNameFromLegacyString qt first.toString }
        else snap
      else if sprintVal.isObject then
        { snap with
          sprintId := (extractSprint sprintVal).1, sprintName := (extractSprint sprintVal).2 }
      else if sprintVal.isString then
        { snap with sprintName := parseSprintNameFromLegacyString qt sprintVal.toString }
      else snap
    else snap
  snap

/-- The method `JiraClient::getIssueFieldSnapshot`: field-metadata resolution, then the GET
and its `finished` handler. -/
def getIssueFieldSnapshot (qt : Qt) (c : JiraClient) (issueKey : QString)
    (net : List QNetworkReply) : JiraClient × List Effect :=
  if (QString.trimmed issueKey).isEmpty then
    (c, [.emit (.issueFieldSnapshotReady JiraIssueFieldSnapshot.new)])
  else
    ensureFieldMetadata qt c net (fun c net =>
      (c, Effect.send (snapshotRequest qt c issueKey) ::
        match net with
        | [] => []
        | reply :: _ =>
          let data := reply.body
          let err := reply.error
          let errStr := reply.errorString
          if err ≠ .NoError then
            if isAuthError reply err then
              [.emit (.authenticationRequired
                "Jira authentication failed while loading issue details. Please configure your API token."),
                .emit (.issueFieldSnapshotReady JiraIssueFieldSnapshot.new)]
            else
              [.emit (.operationFailed "GetIssueFieldSnapshot" errStr),
                .emit (.issueFieldSnapshotReady JiraIssueFieldSnapshot.new)]
          else if !data.isObject then
            [.emit (.operationFailed "GetIssueFieldSnapshot" "Unexpected JSON (expected object)"),
              .emit (.issueFieldSnapshotReady JiraIssueFieldSnapshot.new)]
          else
            [.emit (.issueFieldSnapshotReady
              (getIssueFieldSnapshot.snapshot qt c data.toObject))]))

/-- The request of `getIssueHistory`. -/
def historyRequest (qt : Qt) (c : JiraClient) (issueKey : QString) : Request :=
  ⟨.GET, ⟨c.m_basePlatform ++ ("/issue/" : QString) ++ qt.toPercentEncoding issueKey,
    [(("expand" : QString), ("changelog" : QString)),
      (("fields" : QString), ("summary" : QString))]⟩, .Undefined⟩

/-- One turn of the outer loop over `histories` in the handler of `getIssueHistory`: the
entries of one history record, one per item. -/
def getIssueHistory.entries (qt : Qt) (hv : QJsonValue) : List JiraHistoryEntry :=
  let entry := hv.toObject
  let createdStr := (QJsonObject.value entry "created").toString
  let when := parseDateTime qt createdStr
  let authorObj := (QJsonObject.value entry "author").toObject
  let author := (QJsonObject.value authorObj "displayName").toString
  let items := (QJsonObject.value entry "items").toArray
  items.foldl (fun history iv =>
    let item := iv.toObject
    history ++ [{ when := when
                  author := author
                  field := (QJsonObject.value item "field").toString
                  fromValue := (QJsonObject.value item "fromString").toString
                  toValue := (QJsonObject.value item "toString").toString }]) []

/-- The comparison lambda passed to `std::sort` in `getIssueHistory`. -/
def getIssueHistory.compare (qt : Qt) (a b : JiraHistoryEntry) : Bool :=
  if a.when ≠ b.when then QDateTime.after a.when b.when
  else QString.gt (qt.toLower a.author) (qt.toLower b.author)

/-- The method `JiraClient::getIssueHistory` with the `finished` handler of its GET. -/
def getIssueHistory (qt : Qt) (std : StdLib) (c : JiraClient) (issueKey : QString)
    (net : List QNetworkReply) : List Effect :=
  if (QString.trimmed issueKey).isEmpty then [.emit (.issueHistoryReady [])]
  else
    Effect.send (historyRequest qt c issueKey) ::
      match net with
      | [] => []
      | reply :: _ =>
        let data := reply.body
        let err := reply.error
        let errStr := reply.errorString
        if err ≠ .NoError then
          if isAuthError reply err then
            [.emit (.authenticationRequired
              "Jira authentication failed while loading history. Please configure your API token."),
              .emit (.issueHistoryReady [])]
          else [.emit (.operationFailed "GetIssueHistory" errStr), .emit (.issueHistoryReady [])]
        else if !data.isObject then
          [.emit (.operationFailed "GetIssueHistory" "Unexpected JSON (expected object)"),
            .emit (.issueHistoryReady [])]
        else
          let root := data.toObject
          let changelog := (QJsonObject.value root "changelog").toObject
          let histories := (QJsonObject.value changelog "histories").toArray
          let history :=
            histories.foldl (fun history hv => history ++ getIssueHistory.entries qt hv) []
          let history := std.sort (getIssueHistory.compare qt) history
          [.emit (.issueHistoryReady history)]

/-- The request of `getTransitions`. -/
def transitionsRequest (qt : Qt) (c : JiraClient) (issueKey : QString) : Request :=
  ⟨.GET, ⟨c.m_basePlatform ++ ("/issue/" : QString) ++ qt.toPercentEncoding issueKey
    ++ ("/transitions" : QString), []⟩, .Undefined⟩

/-- The method `JiraClient::getTransitions` with the `finished` handler of its GET. -/
def getTransitions (qt : Qt) (c : JiraClient) (issueKey : QString)
    (net : List QNetworkReply) : List Effect :=
  if (QString.trimmed issueKey).isEmpty then [.emit (.transitionsReady [])]
  else
    Effect.send (transitionsRequest qt c issueKey) ::
      match net with
      | [] => []
      | reply :: _ =>
        let data := reply.body
        let err := reply.error
        let errStr := reply.errorString
        if err ≠ .NoError then
          if isAuthError reply err then
            [.emit (.authenticationRequired
              "Jira authentication failed while loading transitions. Please configure your API token."),
              .emit (.transitionsReady [])]
          else [.emit (.operationFailed "GetTransitions" errStr), .emit (.transitionsReady [])]
        else if !data.isObject then
          [.emit (.operationFailed "GetTransitions" "Unexpected JSON (expected object)"),
            .emit (.transitionsReady [])]
        else
          let root := data.toObject
          let arr := (QJsonObject.value root "transitions").toArray
          let list := arr.foldl (fun (list : List JiraTransition) v =>
            let o := v.toObject
            let id := (QJsonObject.value o "id").toString
            if id.isEmpty then list
            else list ++ [{ id := id, name := (QJsonObject.value o "name").toString }]) []
          [.emit (.transitionsReady list)]

/-! ## A concrete instance of the library tables

Used to evaluate the operations on concrete inputs.  It agrees with Qt on ASCII text, on
keys made of unreserved URL characters, on UTC timestamps written
`yyyy-MM-ddTHH:mm:ss[.zzz]Z` and on dates written `yyyy-MM-dd`; every other string is an
invalid date-time or date. -/

/-- A non-empty string of decimal digits as a number. -/
def decimal (cs : List Char) : Option Nat :=
  if cs ≠ [] ∧ cs.all Char.isDigit = true then
    some (cs.foldl (fun n ch => 10 * n + (ch.toNat - 48)) 0)
  else none

/-- Days of the month `m` of the year `y`. -/
def daysInMonth (y m : Nat) : Nat :=
  if m = 2 then (if (y % 4 = 0 ∧ y % 100 ≠ 0) ∨ y % 400 = 0 then 29 else 28)
  else if m = 4 ∨ m = 6 ∨ m = 9 ∨ m = 11 then 30
  else 31

/-- Days from 1970-01-01 to the given day of the proleptic Gregorian calendar. -/
def daysFromCivil (y m d : Nat) : Int :=
  let y1 : Int := if m ≤ 2 then (y : Int) - 1 else y
  let era : Int := y1 / 400
  let yoe : Int := y1 - era * 400
  let mp : Int := if m > 2 then (m : Int) - 3 else (m : Int) + 9
  let doy : Int := (153 * mp + 2) / 5 + (d : Int) - 1
  let doe : Int := yoe * 365 + yoe / 4 - yoe / 100 + doy
  era * 146097 + doe - 719468

/-- UTC timestamps `yyyy-MM-ddTHH:mm:ss[.zzz]Z` as milliseconds since the epoch. -/
def isoUtc (s : QString) : QDateTime :=
  let field (i n : Nat) : Option Nat := decimal ((s.drop i).take n)
  let tail := s.drop 19
  let ms : Option Nat :=
    if tail = ['Z'] then some 0
    else if tail.length = 5 ∧ tail.head? = some '.' ∧ tail.getLast? = some 'Z' then
      decimal ((tail.drop 1).take 3)
    else none
  if s[4]? = some '-' ∧ s[7]? = some '-' ∧ s[10]? = some 'T' ∧ s[13]? = some ':'
      ∧ s[16]? = some ':' then
    match field 0 4, field 5 2, field 8 2, field 11 2, field 14 2, field 17 2, ms with
    | some y, some mo, some d, some h, some mi, some sec, some z =>
      if 1 ≤ mo ∧ mo ≤ 12 ∧ 1 ≤ d ∧ d ≤ daysInMonth y mo ∧ h < 24 ∧ mi < 60 ∧ sec < 60 then
        some ((((daysFromCivil y mo d * 24 + h) * 60 + mi) * 60 + sec) * 1000 + z)
      else none
    | _, _, _, _, _, _, _ => none
  else none

/-- Calendar dates written `yyyy-MM-dd`. -/
def isoDate (s : QString) : Option QDate :=
  if s.length = 10 ∧ s[4]? = some '-' ∧ s[7]? = some '-' then
    match decimal (s.take 4), decimal ((s.drop 5).take 2), decimal ((s.drop 8).take 2) with
    | some y, some m, some d =>
      if 1 ≤ y ∧ 1 ≤ m ∧ m ≤ 12 ∧ 1 ≤ d ∧ d ≤ daysInMonth y m then some ⟨y, m, d⟩ else none
    | _, _, _ => none
  else none

/-- The instance. -/
def Qt.sample : Qt where
  toCaseFolded := Char.toLower
  fromStringISODateWithMs := isoUtc
  fromStringISODate := isoUtc
  toPercentEncoding := fun s => s
  dateFromStringISODate := isoDate
  toLower := fun s => s.map Char.toLower

/-- Insertion of `x` into a list sorted by `lt`, before the first element it precedes. -/
def insertSorted (lt : JiraHistoryEntry → JiraHistoryEntry → Bool) (x : JiraHistoryEntry) :
    List JiraHistoryEntry → List JiraHistoryEntry
  | [] => [x]
  | y :: ys => if lt x y then x :: y :: ys else y :: insertSorted lt x ys

/-- An instance of `std::sort`: insertion sort. -/
def StdLib.sample : StdLib where
  sort := fun lt l => l.foldr (insertSorted lt) []

/-! ## Vocabulary of the statements -/

/-- The text node `{"type":"text","text":t}`. -/
def textNode (t : QString) : QJsonValue :=
  .Object [(("type" : QString), .String "text"), (("text" : QString), .String t)]

/-- The paragraph node holding the single text node `t`. -/
def paragraphNode (t : QString) : QJsonValue :=
  .Object [(("type" : QString), .String "paragraph"),
    (("content" : QString), .Array [textNode t])]

/-- The doc node `{"version":1,"type":"doc","content":content}`. -/
def docNode (content : QJsonArray) : QJsonObject :=
  [(("version" : QString), .Double 1), (("type" : QString), .String "doc"),
    (("content" : QString), .Array content)]

/-- Any object of type `text` whose text is `t` (further keys are allowed). -/
def IsTextNode (v : QJsonValue) (t : QString) : Prop :=
  ∃ o, v = .Object o ∧ QJsonObject.value o "type" = .String "text"
    ∧ QJsonObject.value o "text" = .String t

/-- Any object of type `paragraph` whose content is one text node with text `t`. -/
def IsParagraphOf (v : QJsonValue) (t : QString) : Prop :=
  ∃ o child, v = .Object o ∧ QJsonObject.value o "type" = .String "paragraph"
    ∧ QJsonObject.value o "content" = .Array [child] ∧ IsTextNode child t

/-- A line is blank when it is empty or whitespace-only. -/
def QString.isBlank (l : QString) : Bool := (QString.trimmed l).isEmpty

/-- The best that a sprint becomes when it replaces the current one. -/
def Best.ofSprint (qt : Qt) (s : QJsonObject) : Best :=
  { has := true
    id := (QJsonObject.value s "id").toInt 0
    name := (QJsonObject.value s "name").toString
    start := sprintStart qt s
    hasStart := (sprintStart qt s).isValid }

/-- The best so far is no later than `T`: it has no valid start, or one strictly before `T`. -/
def Best.Before (best : Best) (T : Int) : Prop :=
  best.hasStart = true → ∃ b, best.start = some b ∧ b < T

/-- The `mostRecentActiveSprintReady` signals of a log. -/
def readySignals (log : List Effect) : List Signal :=
  (signals log).filter Signal.isMostRecentActiveSprintReady

/-- The request of the field catalog. -/
def fieldCatalogRequest (c : JiraClient) : Request :=
  ⟨.GET, ⟨c.m_basePlatform ++ ("/field" : QString), []⟩, .Undefined⟩

/-- The catalog entry `v` has the display name `name`, ignoring case. -/
def isNamed (qt : Qt) (name : QString) (v : QJsonValue) : Bool :=
  QString.equalsIgnoreCase qt (QJsonObject.value v.toObject "name").toString name

/-- The id of a catalog entry. -/
def fieldId (v : QJsonValue) : QString := (QJsonObject.value v.toObject "id").toString

/-- The id of the last entry of the catalog named `name`, `previous` when there is none. -/
def lastFieldId (qt : Qt) (name : QString) (arr : QJsonArray) (previous : QString) : QString :=
  (((arr.filter (isNamed qt name)).getLast?).map fieldId).getD previous

/-- The id of the first entry of the catalog named `name`, `previous` when there is none. -/
def firstFieldId (qt : Qt) (name : QString) (arr : QJsonArray) (previous : QString) : QString :=
  (((arr.filter (isNamed qt name)).head?).map fieldId).getD previous

/-- The cache invariant: while the metadata is not loaded both field ids are empty. -/
def JiraClient.wf (c : JiraClient) : Prop :=
  c.m_fieldMetadataLoaded = false → c.m_sprintFieldId = [] ∧ c.m_storyPointsFieldId = []

/-- An AuthFailure as the handlers decide it: a transport error that `isAuthError` accepts. -/
def QNetworkReply.isAuthFailure (r : QNetworkReply) : Bool :=
  r.error != .NoError && isAuthError r r.error

/-- A call of one of the write operations of the facade. -/
inductive WriteOp where
  | updateIssueDescription (issueKey plainText : QString)
  | addComment (issueKey plainText : QString)
  | updateComment (issueKey commentId plainText : QString)
  | updateStoryPoints (issueKey : QString) (storyPoints : Option Rat)
  | updateAssignee (issueKey assigneeInput : QString)
  | updateDueDate (issueKey : QString) (dueDate : Option QDate)
  | updateSprint (issueKey : QString) (sprintId : Option Int)
  | transitionIssue (issueKey transitionId : QString)

/-- The log of a write operation run against the reply script `net`. -/
def runWrite (qt : Qt) (c : JiraClient) : WriteOp → List QNetworkReply → List Effect
  | .updateIssueDescription k t, net => updateIssueDescription qt c k t net
  | .addComment k t, net => addComment qt c k t net
  | .updateComment k i t, net => updateComment qt c k i t net
  | .updateStoryPoints k p, net => (updateStoryPoints qt c k p net).2
  | .updateAssignee k a, net => updateAssignee qt c k a net
  | .updateDueDate k d, net => updateDueDate qt c k d net
  | .updateSprint k s, net => (updateSprint qt c k s net).2
  | .transitionIssue k t, net => transitionIssue qt c k t net

/-- The replies that answered the requests of a log: the i-th request is answered by the
i-th reply of the script. -/
def received (log : List Effect) (net : List QNetworkReply) : List QNetworkReply :=
  net.take (requests log).length

/-- The signal of a failed account lookup in `resolveUserAccountId`. -/
def lookupFailureSignal (r : QNetworkReply) : Signal :=
  if isAuthError r r.error then
    .authenticationRequired
      "Jira authentication failed while resolving an account id. Please configure your API token."
  else .operationFailed "ResolveUserAccountId" r.errorString

/-- The signal of the `finished` handler of the assignee PUT. -/
def assigneeWriteSignal (r : QNetworkReply) : Signal :=
  if r.error ≠ .NoError then
    if isAuthError r r.error then
      .authenticationRequired
        "Jira authentication failed while updating the assignee. Please configure your API token."
    else .operationFailed "UpdateAssignee" r.errorString
  else .operationSucceeded "Assignee updated"

/-- The account lookup of `updateAssignee` was made and answered with a transport error. -/
def lookupFails : WriteOp → List QNetworkReply → Bool
  | .updateAssignee k a, r :: _ =>
    !(QString.trimmed k).isEmpty && !(QString.trimmed a).isEmpty && r.error != .NoError
  | _, _ => false

/-- The three properties of a log of a write operation: at most one signal; an AuthFailure
among the replies received gives exactly one `authenticationRequired` and nothing else; a
write request (the last request, not a GET) answered without error gives exactly one
`operationSucceeded` and nothing else. -/
def WriteLog (log : List Effect) (net : List QNetworkReply) : Prop :=
  (signals log).length ≤ 1
    ∧ ((∃ r ∈ received log net, r.isAuthFailure = true) →
        ∃ m, signals log = [.authenticationRequired m])
    ∧ (∀ req r, (requests log).getLast? = some req → req.verb ≠ .GET →
        net[(requests log).length - 1]? = some r → r.error = .NoError →
        ∃ m, signals log = [.operationSucceeded m])

/-- A GenericFailure of a read that expects a JSON object: a transport error that is no
auth error, or a reply without error whose body is no JSON object. -/
def QNetworkReply.FailsGeneric (f : QNetworkReply) : Prop :=
  (f.error ≠ .NoError ∧ isAuthError f f.error = false)
    ∨ (f.error = .NoError ∧ f.body.isObject = false)

/-- The account lookup request of `resolveUserAccountId`. -/
def lookupRequest (c : JiraClient) (query : QString) : Request :=
  ⟨.POST, ⟨c.m_basePlatform ++ ("/user/search/query" : QString), []⟩,
    .Object (QJsonObject.insert (QJsonObject.insert [] "query" (.String query))
      "maxResults" (.Double 1))⟩

/-- The assignee write of `updateAssignee` with `accountId` in its payload. -/
def assigneeRequest (qt : Qt) (c : JiraClient) (issueKey : QString) (accountId : QJsonValue) :
    Request :=
  ⟨.PUT, ⟨c.m_basePlatform ++ ("/issue/" : QString) ++ qt.toPercentEncoding issueKey
    ++ ("/assignee" : QString), []⟩, .Object (QJsonObject.insert [] "accountId" accountId)⟩

/-- The account id that a lookup reply returns: the string under `accountId` of the first
element of the response array; empty when the lookup fails or returns nothing. -/
def lookupAccountId (r : QNetworkReply) : QString :=
  if r.error = .NoError then
    match r.body with
    | .Array (first :: _) => (QJsonObject.value first.toObject "accountId").toString
    | _ => []
  else []

/-- The cache writes of the `finished` handler of `ensureFieldMetadata`: the state in which
the handler leaves the client for a reply, whenever the reply arrives. -/
def ensureFieldMetadata.finished (qt : Qt) (c : JiraClient) (reply : QNetworkReply) :
    JiraClient :=
  if reply.error ≠ .NoError then c
  else if !reply.body.isArray then c
  else { reply.body.toArray.foldl (scanField qt) c with m_fieldMetadataLoaded := true }

/-- A call of one of the operations that go through `ensureFieldMetadata`. -/
inductive CacheOp where
  | getMyTickets
  | getIssueFieldSnapshot (issueKey : QString)
  | updateStoryPoints (issueKey : QString) (storyPoints : Option Rat)
  | updateSprint (issueKey : QString) (sprintId : Option Int)

/-- The state and the log of such an operation run against the reply script `net`. -/
def CacheOp.run (qt : Qt) (c : JiraClient) : CacheOp → List QNetworkReply →
    JiraClient × List Effect
  | .getMyTickets, net => JiraExplorer.getMyTickets qt c net
  | .getIssueFieldSnapshot k, net => JiraExplorer.getIssueFieldSnapshot qt c k net
  | .updateStoryPoints k p, net => JiraExplorer.updateStoryPoints qt c k p net
  | .updateSprint k s, net => JiraExplorer.updateSprint qt c k s net

/-- The operation gets past its guard on the issue key and calls `ensureFieldMetadata`. -/
def CacheOp.resolves : CacheOp → Bool
  | .getMyTickets => true
  | .getIssueFieldSnapshot k => !(QString.trimmed k).isEmpty
  | .updateStoryPoints k _ => !(QString.trimmed k).isEmpty
  | .updateSprint k _ => !(QString.trimmed k).isEmpty

/-- A sequence of operations run one after the other, each against the script of the
replies it receives (an empty script leaves its request in flight). -/
def runOps (qt : Qt) : JiraClient → List (CacheOp × List QNetworkReply) →
    JiraClient × List Effect
  | c, [] => (c, [])
  | c, (op, net) :: rest =>
    let r := op.run qt c net
    let s := runOps qt r.1 rest
    (s.1, r.2 ++ s.2)

/-- The request reads the field catalog of the client `c`. -/
def Request.isCatalogRead (c : JiraClient) (r : Request) : Bool :=
  r.verb == .GET && r.url.path == c.m_basePlatform ++ ("/field" : QString)

/-- The number of reads of the field catalog in a log. -/
def catalogReads (c : JiraClient) (log : List Effect) : Nat :=
  ((requests log).filter (Request.isCatalogRead c)).length

/-- The number of operations of a sequence that call `ensureFieldMetadata` while the loaded
flag is false. -/
def unloadedCalls (qt : Qt) : JiraClient → List (CacheOp × List QNetworkReply) → Nat
  | _, [] => 0
  | c, (op, net) :: rest =>
    (if op.resolves && !c.m_fieldMetadataLoaded then 1 else 0)
      + unloadedCalls qt (op.run qt c net).1 rest

/-- The states of the cache that the client can be in: the fresh client, and every state
that follows a reachable one by `configure`, by a completion of the catalog read (whatever
the reply and whenever it arrives), or by one of the operations. -/
inductive Reachable (qt : Qt) : JiraClient → Prop
  | new : Reachable qt JiraClient.new
  | configure (c : JiraClient) (instanceUrl username apiToken : QString) :
      Reachable qt c → Reachable qt (c.configure instanceUrl username apiToken)
  | finished (c : JiraClient) (reply : QNetworkReply) :
      Reachable qt c → Reachable qt (ensureFieldMetadata.finished qt c reply)
  | run (c : JiraClient) (op : CacheOp) (net : List QNetworkReply) :
      Reachable qt c → Reachable qt (op.run qt c net).1

/-- The three outcomes of a completed reply. -/
inductive Outcome where
  | Success
  | AuthFailure
  | GenericFailure
  deriving DecidableEq

/-- The decision on the transport result with which every `finished` handler opens:
`if (err != NoError) { if (isAuthError(reply, err)) ... else ... }`. -/
def QNetworkReply.outcome (r : QNetworkReply) : Outcome :=
  if r.error ≠ .NoError then
    if isAuthError r r.error then .AuthFailure else .GenericFailure
  else .Success

/-- What Qt guarantees of a finished HTTP reply: a response with the status 401 or 403
carries a transport error (`AuthenticationRequiredError`, `ContentAccessDenied`). -/
def QNetworkReply.StatusReported (r : QNetworkReply) : Prop :=
  r.status = 401 ∨ r.status = 403 → r.error ≠ .NoError

/-- A call of one of the read operations, and of the two paginated helpers behind
`getMostRecentActiveSprint`. -/
inductive ReadOp where
  | getMyTickets
  | getIssueFieldSnapshot (issueKey : QString)
  | getIssueComments (issueKey : QString)
  | getIssueHistory (issueKey : QString)
  | getTransitions (issueKey : QString)
  | getIssuesForSprint (sprintId : Int)
  | getAllBoards (type : QString)
  | getBoardSprints (boardId : Int) (state : QString)

/-- The log of a read operation run against the reply script `net`. -/
def runRead (qt : Qt) (std : StdLib) (c : JiraClient) : ReadOp → List QNetworkReply →
    List Effect
  | .getMyTickets, net => (getMyTickets qt c net).2
  | .getIssueFieldSnapshot k, net => (getIssueFieldSnapshot qt c k net).2
  | .getIssueComments k, net => getIssueComments qt c k net
  | .getIssueHistory k, net => getIssueHistory qt std c k net
  | .getTransitions k, net => getTransitions qt c k net
  | .getIssuesForSprint s, net => getIssuesForSprint c s net
  | .getAllBoards t, net => (getAllBoards c t net).1
  | .getBoardSprints b s, net => (getBoardSprints c b s net).1

/-- The number of `authenticationRequired` signals of a log. -/
def authRequired (log : List Effect) : Nat :=
  (signals log).countP Signal.isAuthenticationRequired

/-- The number of `operationFailed` signals of a log. -/
def operationFailures (log : List Effect) : Nat :=
  (signals log).countP Signal.isOperationFailed

/-- The number of AuthFailures among replies. -/
def authFailures (rs : List QNetworkReply) : Nat := rs.countP QNetworkReply.isAuthFailure

/-- The number of replies that are no AuthFailure. -/
def otherReplies (rs : List QNetworkReply) : Nat := rs.countP (fun r => !r.isAuthFailure)

/-- Every failure signal of the log is accounted for by a reply received: there is one
`authenticationRequired` per AuthFailure received, and there are at most as many
`operationFailed` as replies received that are no AuthFailure. -/
def Attributed (log : List Effect) (net : List QNetworkReply) : Prop :=
  authRequired log = authFailures (received log net)
    ∧ operationFailures log ≤ otherReplies (received log net)

/-- The rest of a log after an AuthFailure has been received. -/
def AuthTail (log : List Effect) (net : List QNetworkReply) : Prop :=
  authRequired log = 1 + authFailures (received log net)
    ∧ operationFailures log ≤ otherReplies (received log net)

/-- The rest of a log after a reply that is no AuthFailure has been received. -/
def OtherTail (log : List Effect) (net : List QNetworkReply) : Prop :=
  authRequired log = authFailures (received log net)
    ∧ operationFailures log ≤ 1 + otherReplies (received log net)

/-- A signal that reports no failure. -/
def Signal.isQuiet (s : Signal) : Bool := !s.isAuthenticationRequired && !s.isOperationFailed

/-- The issue key of a write operation. -/
def WriteOp.issueKey : WriteOp → QString
  | .updateIssueDescription k _ => k
  | .addComment k _ => k
  | .updateComment k _ _ => k
  | .updateStoryPoints k _ => k
  | .updateAssignee k _ => k
  | .updateDueDate k _ => k
  | .updateSprint k _ => k
  | .transitionIssue k _ => k

/-- The type of the object is none of the four that the walk knows. -/
def IsUnknownNode (o : QJsonObject) : Prop :=
  (QJsonObject.value o "type").toString ≠ ("doc" : QString)
    ∧ (QJsonObject.value o "type").toString ≠ ("paragraph" : QString)
    ∧ (QJsonObject.value o "type").toString ≠ ("hardBreak" : QString)
    ∧ (QJsonObject.value o "type").toString ≠ ("text" : QString)

/-- A GenericFailure of the catalog read: a transport error that is no auth error, or a
reply without error whose body is no JSON array. -/
def QNetworkReply.FailsCatalog (r : QNetworkReply) : Prop :=
  (r.error ≠ .NoError ∧ isAuthError r r.error = false)
    ∨ (r.error = .NoError ∧ r.body.isArray = false)

/-- The node `{"type":"hardBreak"}`. -/
def hardBreakNode : QJsonValue := .Object [(("type" : QString), .String "hardBreak")]

/-- The doc whose single paragraph holds the text `a`, a hardBreak and the text `b`. -/
def hardBreakDoc (a b : QString) : QJsonObject :=
  docNode [.Object [(("type" : QString), .String "paragraph"),
    (("content" : QString), .Array [textNode a, hardBreakNode, textNode b])]]

/-- The doc of the two paragraphs with the texts `a` and `b`. -/
def twoParagraphDoc (a b : QString) : QJsonObject :=
  docNode [paragraphNode a, paragraphNode b]

/-- A strict weak ordering, what `std::sort` requires of its comparison. -/
def StrictWeakOrdering (lt : JiraHistoryEntry → JiraHistoryEntry → Bool) : Prop :=
  (∀ a, lt a a = false)
    ∧ (∀ a b c, lt a b = true → lt b c = true → lt a c = true)
    ∧ ∀ a b c, lt a b = false → lt b a = false → lt b c = false → lt c b = false →
        lt a c = false ∧ lt c a = false

/-- The contract of `std::sort`: for a comparison that is a strict weak ordering the
result is a permutation of the input in which no element precedes, by the comparison, an
element placed before it. -/
def StdLib.Sorts (std : StdLib) : Prop :=
  ∀ lt l, StrictWeakOrdering lt →
    (std.sort lt l).Perm l ∧ (std.sort lt l).Pairwise (fun a b => lt b a = false)

/-- The entries of a changelog response `root`: one per item of every history record, with
the author and the timestamp of the record, in the order of the response. -/
def historyEntries (qt : Qt) (root : QJsonObject) : List JiraHistoryEntry :=
  (QJsonObject.value (QJsonObject.value root "changelog").toObject "histories").toArray.flatMap
    (fun hv =>
      (QJsonObject.value hv.toObject "items").toArray.map (fun iv =>
        { author := (QJsonObject.value (QJsonObject.value hv.toObject "author").toObject
            "displayName").toString
          when := parseDateTime qt (QJsonObject.value hv.toObject "created").toString
          field := (QJsonObject.value iv.toObject "field").toString
          fromValue := (QJsonObject.value iv.toObject "fromString").toString
          toValue := (QJsonObject.value iv.toObject "toString").toString }))

/-- The place of a timestamp in the order of `QDateTime`: an invalid one is below every
valid one. -/
def QDateTime.rank : QDateTime → WithBot Int
  | none => ⊥
  | some t => (t : WithBot Int)

/-- The sort key of a history entry: the timestamp, then the lower-cased author. -/
def historyKey (qt : Qt) (e : JiraHistoryEntry) : WithBot Int ×ₗ List Char :=
  toLex (e.when.rank, qt.toLower e.author)

/-- The part of a log that is defined behaviour: the effects before the first mark of
undefined behaviour. -/
def defined (log : List Effect) : List Effect := log.takeWhile (fun e => !e.isUndefined)

/-- The log holds no mark of undefined behaviour: the run stays within what C++ defines. -/
def Defined (log : List Effect) : Prop := ∀ e ∈ log, e.isUndefined = false

/-- The log of a write operation when the handlers of other operations run while its
catalog read is in flight: `atReply` is the client when the reply of that read arrives.
The two operations that read the catalog are `updateStoryPoints` and `updateSprint`. -/
def runWrite.interleaved (qt : Qt) (c atReply : JiraClient) :
    WriteOp → List QNetworkReply → List Effect
  | .updateStoryPoints k p, net => (updateStoryPoints.interleaved qt c atReply k p net).2
  | .updateSprint k s, net => (updateSprint.interleaved qt c atReply k s net).2
  | op, net => runWrite qt c op net

/-- A GenericFailure of the catalog read, as the handler decides it. -/
def QNetworkReply.failsCatalog (r : QNetworkReply) : Bool :=
  (r.error != .NoError && !isAuthError r r.error) || (r.error == .NoError && !r.body.isArray)

/-- The catalog read of `updateStoryPoints` or `updateSprint` was made and answered with a
GenericFailure. -/
def catalogFails (c : JiraClient) : WriteOp → List QNetworkReply → Bool
  | .updateStoryPoints k _, r :: _ =>
    !(QString.trimmed k).isEmpty && !c.m_fieldMetadataLoaded && r.failsCatalog
  | .updateSprint k _, r :: _ =>
    !(QString.trimmed k).isEmpty && !c.m_fieldMetadataLoaded && r.failsCatalog
  | _, _ => false

/-- The signal of a GenericFailure of the catalog read. -/
def catalogFailureSignal (r : QNetworkReply) : Signal :=
  if r.error ≠ .NoError then .operationFailed "Load field metadata" r.errorString
  else .operationFailed "Load field metadata" "Unexpected JSON (expected array)"

/-- The signal of the `finished` handler of the story-points PUT. -/
def storyPointsWriteSignal (r : QNetworkReply) : Signal :=
  if r.error ≠ .NoError then
    if isAuthError r r.error then
      .authenticationRequired
        "Jira authentication failed while updating story points. Please configure your API token."
    else .operationFailed "UpdateStoryPoints" r.errorString
  else .operationSucceeded "Story points updated"

/-- The signal of the `finished` handler of the sprint PUT. -/
def sprintWriteSignal (r : QNetworkReply) : Signal :=
  if r.error ≠ .NoError then
    if isAuthError r r.error then
      .authenticationRequired
        "Jira authentication failed while updating the sprint. Please configure your API token."
    else .operationFailed "UpdateSprint" r.errorString
  else .operationSucceeded "Sprint updated"

/-! ## Concrete inputs -/

/-- A client configured for an instance. -/
def sampleClient : JiraClient :=
  JiraClient.configure JiraClient.new "https://example.atlassian.net/" "user" "token"

/-- A successful reply with the given JSON body. -/
def okReply (body : QJsonValue) : QNetworkReply := ⟨.NoError, 200, [], body⟩

/-- An HTTP 500 reply. -/
def serverError : QNetworkReply := ⟨.OtherError, 500, "Internal Server Error", .Null⟩

/-- An HTTP 401 reply. -/
def unauthorized : QNetworkReply :=
  ⟨.AuthenticationRequiredError, 401, "Host requires authentication", .Null⟩

/-- The single page listing the scrum boards 1 and 2. -/
def twoBoards : QNetworkReply :=
  okReply (.Object [(("values" : QString),
      .Array [.Object [(("id" : QString), .Double 1)], .Object [(("id" : QString), .Double 2)]]),
    (("isLast" : QString), .Boolean true)])

/-- A page of the board list without any board. -/
def noBoards : QNetworkReply :=
  okReply (.Object [(("values" : QString), .Array []), (("isLast" : QString), .Boolean true)])

/-- A sprint started on 1 January 2024. -/
def sprint1 : QJsonObject :=
  [(("id" : QString), .Double 1), (("name" : QString), .String "Sprint 1"),
    (("startDate" : QString), .String "2024-01-01T09:00:00.000Z")]

/-- A sprint started on 15 January 2024. -/
def sprint2 : QJsonObject :=
  [(("id" : QString), .Double 2), (("name" : QString), .String "Sprint 2"),
    (("startDate" : QString), .String "2024-01-15T09:00:00.000Z")]

/-- A sprint without a start date. -/
def sprint7 : QJsonObject :=
  [(("id" : QString), .Double 7), (("name" : QString), .String "Sprint 7")]

/-- An HTTP 403 reply. -/
def forbidden : QNetworkReply := ⟨.ContentAccessDenied, 403, "Forbidden", .Null⟩

/-- A catalog with two fields called Sprint. -/
def duplicateCatalog : QJsonArray :=
  [.Object [(("id" : QString), .String "customfield_10020"), (("name" : QString), .String "Sprint")],
   .Object [(("id" : QString), .String "customfield_10016"),
     (("name" : QString), .String "Story Points")],
   .Object [(("id" : QString), .String "customfield_10999"), (("name" : QString), .String "sprint")]]

/-- A page of one sprint issue that declares `maxResults` 2 and `total` 3. -/
def sparsePage : QNetworkReply :=
  ⟨.NoError, 200, [], .Object [(("issues" : QString),
      .Array [.Object [(("key" : QString), .String "PROJ-1")]]),
    (("maxResults" : QString), .Double 2), (("total" : QString), .Double 3)]⟩

/-- A successful page with one board that declares a total of 1 and no `isLast`. -/
def boardPageWithTotal : QNetworkReply :=
  ⟨.NoError, 200, [], .Object [(("values" : QString),
      .Array [.Object [(("id" : QString), .Double 1)]]), (("total" : QString), .Double 1)]⟩

/-- A successful page with one board that declares neither a total nor `isLast`. -/
def boardPageBare : QNetworkReply :=
  ⟨.NoError, 200, [], .Object [(("values" : QString),
      .Array [.Object [(("id" : QString), .Double 1)]])]⟩

/-- A successful page of sprint issues with one issue that carries no sprint value. -/
def bareIssuePage : QNetworkReply :=
  ⟨.NoError, 200, [], .Object [(("issues" : QString),
      .Array [.Object [(("key" : QString), .String "PROJ-1"),
        (("fields" : QString), .Object [(("summary" : QString), .String "Fix login")])]])]⟩

/-- A client whose field metadata is loaded, with both field ids resolved. -/
def loadedClient : JiraClient :=
  { sampleClient with
    m_fieldMetadataLoaded := true
    m_sprintFieldId := ("customfield_10020" : QString)
    m_storyPointsFieldId := ("customfield_10016" : QString) }

/-- An issue whose fields hold a summary and no sprint value. -/
def bareIssue : QJsonValue :=
  .Object [(("key" : QString), .String "PROJ-1"),
    (("fields" : QString), .Object [(("summary" : QString), .String "Fix login")])]

/-- A successful first page of the ticket search: one issue and the token `abc`. -/
def firstTicketPage : QNetworkReply :=
  okReply (.Object [(("issues" : QString), .Array [.Object [(("key" : QString), .String "PROJ-1")]]),
    (("nextPageToken" : QString), .String "abc")])

/-- A successful last page of the ticket search: one issue and no token. -/
def lastTicketPage : QNetworkReply :=
  okReply (.Object [(("issues" : QString), .Array [.Object [(("key" : QString), .String "PROJ-2")]])])

/-- A successful page of `n` comments that declares the total 107. -/
def commentPage (n : Nat) : QNetworkReply :=
  okReply (.Object [(("comments" : QString), .Array (List.replicate n (.Object []))),
    (("total" : QString), .Double 107)])

/-- A successful page of `n` sprint issues that declares the total 107 and no page size. -/
def issuePage (n : Nat) : QNetworkReply :=
  okReply (.Object [(("issues" : QString), .Array (List.replicate n (.Object []))),
    (("total" : QString), .Double 107)])

/-- A successful answer of the account lookup with one user. -/
def lookupHit : QNetworkReply :=
  okReply (.Array [.Object [(("accountId" : QString), .String "5b10ac8d82e05b22cc7d4ef5")]])

/-- A catalog whose only field is called Sprint. -/
def sprintOnlyCatalog : QJsonArray :=
  [.Object [(("id" : QString), .String "customfield_10020"), (("name" : QString), .String "Sprint")]]

/-- A sprint started on 15 January 2024, like `sprint2`, on another board. -/
def sprint3 : QJsonObject :=
  [(("id" : QString), .Double 3), (("name" : QString), .String "Sprint 3"),
    (("startDate" : QString), .String "2024-01-15T09:00:00.000Z")]

/-- A changelog response with two history records: one by alice with two items on
1 January 2024, one by bob with one item on 15 January 2024. -/
def changelogReply : QNetworkReply :=
  okReply (.Object [(("changelog" : QString), .Object [(("histories" : QString), .Array [
    .Object [(("created" : QString), .String "2024-01-01T09:00:00.000Z"),
      (("author" : QString), .Object [(("displayName" : QString), .String "alice")]),
      (("items" : QString), .Array [
        .Object [(("field" : QString), .String "status"),
          (("fromString" : QString), .String "Open"), (("toString" : QString), .String "Done")],
        .Object [(("field" : QString), .String "assignee"),
          (("toString" : QString), .String "bob")]])],
    .Object [(("created" : QString), .String "2024-01-15T09:00:00.000Z"),
      (("author" : QString), .Object [(("displayName" : QString), .String "bob")]),
      (("items" : QString), .Array [
        .Object [(("field" : QString), .String "summary"),
          (("toString" : QString), .String "New")]])]])])])

/-! # Properties -/

/-- The concrete instance on a few values. -/
theorem sample_values :
    isoUtc "1970-01-02T00:00:01.005Z" = some 86401005
      ∧ isoUtc "2024-02-29T10:00:00Z" = some 1709200800000
      ∧ isoUtc "2023-02-29T10:00:00Z" = none
      ∧ isoUtc "" = none
      ∧ sprintStart Qt.sample sprint1 = some 1704099600000
      ∧ sprintStart Qt.sample sprint2 = some 1705309200000
      ∧ sprintStart Qt.sample sprint7 = none
      ∧ QDate.toString ⟨2024, 3, 7⟩ = ("2024-03-07" : QString)
      ∧ QString.number 50 = ("50" : QString) := by
  decide

theorem foldl_append_singleton {α β : Type} (f : α → β) (l : List α) (init : List β) :
    l.foldl (fun acc p => acc ++ [f p]) init = init ++ l.map f := by
  induction l generalizing init with
  | nil => simp
  | cons a l ih => simp [ih]

theorem buildAdfDocument_eq (x : QString) :
    buildAdfDocument x = docNode ((QString.split x '\n').map paragraphNode) := by
  unfold buildAdfDocument
  simp only []
  rw [foldl_append_singleton]
  rfl

theorem split_eq_splitOn (x : QString) (sep : Char) : QString.split x sep = x.splitOn sep := by
  induction x with
  | nil => rfl
  | cons c cs ih =>
    simp only [QString.split, List.splitOn, List.splitOnP_cons, ih]
    by_cases h : c = sep
    · simp [h]
    · have hne := List.splitOnP_ne_nil (fun x => x == sep) cs
      simp only [h, if_false, beq_iff_eq]
      cases hs : List.splitOnP (fun x => x == sep) cs with
      | nil => exact absurd hs hne
      | cons p ps => simp [List.modifyHead]

theorem split_length (x : QString) (sep : Char) :
    (QString.split x sep).length = x.count sep + 1 := by
  induction x with
  | nil => rfl
  | cons c cs ih =>
    simp only [QString.split]
    by_cases h : c = sep
    · subst h; simp [ih]
    · have hc : (c == sep) = false := by simpa using h
      simp only [h, if_false, List.count_cons, hc]
      cases hs : QString.split cs sep with
      | nil => rw [hs] at ih; simp at ih
      | cons p ps => rw [hs] at ih; simpa using ih

theorem join_eq_intercalate (ls : QStringList) (sep : QString) :
    QStringList.join ls sep = List.intercalate sep ls := by
  induction ls with
  | nil => rfl
  | cons l ls ih =>
    cases ls with
    | nil => simp [QStringList.join, List.intercalate]
    | cons m ms =>
      rw [QStringList.join, ih]
      simp [List.intercalate, List.intersperse]
      · intro h; cases h

theorem walkContentSeparated_eq (o : QJsonObject) (lines : QStringList) :
    walkContentSeparated o lines
      = walkSeparated (QJsonObject.value o "content").toArray true lines := by
  induction o with
  | nil => rfl
  | cons kv rest ih =>
    obtain ⟨k, v⟩ := kv
    by_cases h : k = ("content" : QString)
    · cases v <;> rw [walkContentSeparated, QJsonObject.value, if_pos h, if_pos h] <;>
        first
        | rfl
        | (intro a ha; cases ha)
    · cases v <;> rw [walkContentSeparated, QJsonObject.value, if_neg h, if_neg h, ih] <;>
        (intro a ha; cases ha)

theorem walkContent_eq (o : QJsonObject) (lines : QStringList) :
    walkContent o lines = walkChildren (QJsonObject.value o "content").toArray lines := by
  induction o with
  | nil => rfl
  | cons kv rest ih =>
    obtain ⟨k, v⟩ := kv
    by_cases h : k = ("content" : QString)
    · cases v <;> rw [walkContent, QJsonObject.value, if_pos h, if_pos h] <;>
        first
        | rfl
        | (intro a ha; cases ha)
    · cases v <;> rw [walkContent, QJsonObject.value, if_neg h, if_neg h, ih] <;>
        (intro a ha; cases ha)

/-- The object case of the walk in the shape of the source. -/
theorem walk_object (o : QJsonObject) (lines : QStringList) :
    walk (.Object o) lines =
      (let type := (QJsonObject.value o "type").toString
       if type = ("doc" : QString) then
         walkSeparated (QJsonObject.value o "content").toArray true lines
       else if type = ("paragraph" : QString) then
         walkChildren (QJsonObject.value o "content").toArray
           (if lines.isEmpty then lines ++ [[]] else lines)
       else if type = ("hardBreak" : QString) then lines ++ [[]]
       else if type = ("text" : QString) then
         appendText lines (QJsonObject.value o "text").toString
       else
         (let content := QJsonObject.value o "content"
          if content.isArray then walkChildren content.toArray lines else lines)) := by
  rw [walk]
  simp only [walkContentSeparated_eq, walkContent_eq]
  have : (if (QJsonObject.value o "content").isArray then
        walkChildren (QJsonObject.value o "content").toArray lines else lines)
      = walkChildren (QJsonObject.value o "content").toArray lines := by
    cases QJsonObject.value o "content" <;> rfl
  simp only [this]

theorem walk_text {v : QJsonValue} {t : QString} (h : IsTextNode v t) (lines : QStringList) :
    walk v lines = appendText lines t := by
  obtain ⟨o, rfl, h1, h2⟩ := h
  rw [walk_object]
  dsimp only
  rw [h1, h2]
  rfl

theorem appendText_snoc (lines : QStringList) (l t : QString) :
    appendText (lines ++ [l]) t = lines ++ [l ++ t] := by
  simp [appendText]

theorem walk_paragraph {v : QJsonValue} {t : QString} (h : IsParagraphOf v t)
    (lines : QStringList) :
    walk v lines = appendText (if lines.isEmpty then lines ++ [[]] else lines) t := by
  obtain ⟨o, child, rfl, h1, h2, h3⟩ := h
  rw [walk_object]
  dsimp only
  rw [h1, h2]
  show walkChildren [child] _ = _
  simp only [walkChildren, walk_text h3]

theorem walkSeparated_paragraphs {ps : List QJsonValue} {ts : QStringList}
    (h : List.Forall₂ IsParagraphOf ps ts) (lines : QStringList) :
    walkSeparated ps false lines = lines ++ ts := by
  induction h generalizing lines with
  | nil => simp [walkSeparated]
  | cons hp _ ih =>
    rw [walkSeparated, ih]
    simp [walk_paragraph hp, appendText_snoc]

theorem walk_doc_paragraphs {doc : QJsonObject} {ps : List QJsonValue} {ts : QStringList}
    (htype : QJsonObject.value doc "type" = .String "doc")
    (hcontent : QJsonObject.value doc "content" = .Array ps)
    (h : List.Forall₂ IsParagraphOf ps ts) :
    walk (.Object doc) [] = ts := by
  rw [walk_object]
  dsimp only
  rw [htype, hcontent]
  show walkSeparated ps true [] = ts
  cases h with
  | nil => simp [walkSeparated]
  | cons hp hrest =>
    rw [walkSeparated, walkSeparated_paragraphs hrest]
    simp [walk_paragraph hp, appendText]

theorem isParagraphOf_paragraphNode (t : QString) : IsParagraphOf (paragraphNode t) t :=
  ⟨_, textNode t, rfl, rfl, rfl, ⟨_, rfl, rfl, rfl⟩⟩

theorem forall₂_paragraphNode (ts : QStringList) :
    List.Forall₂ IsParagraphOf (ts.map paragraphNode) ts := by
  induction ts with
  | nil => exact List.Forall₂.nil
  | cons t ts ih => exact List.Forall₂.cons (isParagraphOf_paragraphNode t) ih

theorem join_split (x : QString) : QStringList.join (QString.split x '\n') "\n" = x := by
  rw [join_eq_intercalate, split_eq_splitOn]
  exact List.intercalate_splitOn x '\n'

theorem split_ne_nil (x : QString) (sep : Char) : QString.split x sep ≠ [] := by
  intro h
  have := split_length x sep
  rw [h] at this
  simp at this

theorem trimmed_eq_self_iff (x : QString) :
    QString.trimmed x = x ↔
      (∀ ch, x.head? = some ch → QChar.isSpace ch = false)
        ∧ (∀ ch, x.getLast? = some ch → QChar.isSpace ch = false) := by
  unfold QString.trimmed
  constructor
  · intro h
    have h1 : (x.dropWhile QChar.isSpace).length ≤ x.length :=
      (List.dropWhile_suffix _).length_le
    have h2 : ((x.dropWhile QChar.isSpace).rdropWhile QChar.isSpace).length
        ≤ (x.dropWhile QChar.isSpace).length := ( List.rdropWhile_prefix _ _).length_le
    have h3 : x.dropWhile QChar.isSpace = x := by
      apply (List.dropWhile_suffix _).eq_of_length
      rw [h] at h2
      omega
    rw [h3] at h
    constructor
    · intro ch hch
      cases x with
      | nil => simp at hch
      | cons a l =>
        simp only [List.head?_cons, Option.some.injEq] at hch
        subst hch
        by_contra hsp
        simp only [Bool.not_eq_false] at hsp
        have : (List.dropWhile QChar.isSpace (a :: l)).length ≤ l.length := by
          rw [List.dropWhile_cons_of_pos hsp]
          exact (List.dropWhile_suffix _).length_le
        rw [h3] at this
        simp at this
    · intro ch hch
      rw [List.rdropWhile_eq_self_iff] at h
      by_cases hx : x = []
      · subst hx; simp at hch
      · have := h hx
        rw [List.getLast?_eq_getLast _ hx] at hch
        simp only [Option.some.injEq] at hch
        rw [hch] at this
        simpa using this
  · rintro ⟨hh, hl⟩
    have h3 : x.dropWhile QChar.isSpace = x := by
      cases x with
      | nil => rfl
      | cons a l =>
        have := hh a rfl
        rw [List.dropWhile_cons_of_neg (by simp [this])]
    rw [h3, List.rdropWhile_eq_self_iff]
    intro hx
    have := hl _ (List.getLast?_eq_getLast _ hx)
    simp [this]

/-- Claim C3.  For every list of strings `ts`, a doc node whose content is one paragraph per
element of `ts`, each holding a single text node with that text (further keys on the nodes
are allowed), decodes to the elements joined with exactly one newline between consecutive
paragraphs, after the trailing blank lines are stripped and the result is trimmed. -/
theorem adfToPlainText_paragraphs (doc : QJsonObject) (ps : List QJsonValue) (ts : QStringList)
    (htype : QJsonObject.value doc "type" = .String "doc")
    (hcontent : QJsonObject.value doc "content" = .Array ps)
    (h : List.Forall₂ IsParagraphOf ps ts) :
    adfToPlainText (.Object doc)
      = QString.trimmed (List.intercalate ("\n" : QString) (ts.rdropWhile QString.isBlank)) := by
  unfold adfToPlainText
  simp only [walk_doc_paragraphs htype hcontent h, join_eq_intercalate]
  rfl

/-- The doc with the paragraphs `A` and `B` decodes to `"A\nB"`. -/
theorem adfToPlainText_paragraphs_witness :
    adfToPlainText (.Object (docNode [paragraphNode "A", paragraphNode "B"]))
      = ("A\nB" : QString) :=
  (adfToPlainText_paragraphs (docNode [paragraphNode "A", paragraphNode "B"])
    [paragraphNode "A", paragraphNode "B"] ["A", "B"] rfl rfl
    (forall₂_paragraphNode ["A", "B"])).trans (by decide)

/-- Claim C1 fails on the one-line input `" a"`: it has no blank line, and decoding its
encoding gives `"a"`. -/
theorem roundtrip_counterexample :
    (∀ l ∈ QString.split (" a" : QString) '\n', QString.isBlank l = false)
      ∧ adfToPlainText (.Object (buildAdfDocument " a")) = ("a" : QString)
      ∧ adfToPlainText (.Object (buildAdfDocument " a")) ≠ (" a" : QString) := by
  decide

/-- Claim C1, amended.  For every string `x` none of whose lines (pieces between newline
characters) is blank, decoding the encoding of `x` returns `x` with its leading and
trailing whitespace removed; it returns `x` itself exactly when `x` neither starts nor ends
with a whitespace character. -/
theorem roundtrip_trimmed (x : QString)
    (hlines : ∀ l ∈ QString.split x '\n', QString.isBlank l = false) :
    adfToPlainText (.Object (buildAdfDocument x)) = QString.trimmed x
      ∧ (adfToPlainText (.Object (buildAdfDocument x)) = x ↔
          (∀ ch, x.head? = some ch → QChar.isSpace ch = false)
            ∧ (∀ ch, x.getLast? = some ch → QChar.isSpace ch = false)) := by
  have key : adfToPlainText (.Object (buildAdfDocument x)) = QString.trimmed x := by
    have hwalk : walk (.Object (buildAdfDocument x)) [] = QString.split x '\n' := by
      rw [buildAdfDocument_eq]
      exact walk_doc_paragraphs rfl rfl (forall₂_paragraphNode _)
    have hkeep : removeTrailingBlank (QString.split x '\n') = QString.split x '\n' := by
      unfold removeTrailingBlank
      rw [List.rdropWhile_eq_self_iff]
      intro hl
      have := hlines _ (List.getLast_mem hl)
      unfold QString.isBlank at this
      simp [this]
    unfold adfToPlainText
    simp only [hwalk, hkeep, join_split]
  exact ⟨key, by rw [key]; exact trimmed_eq_self_iff x⟩

/-- The round trip on `"A\nB"`. -/
theorem roundtrip_trimmed_witness :
    adfToPlainText (.Object (buildAdfDocument "A\nB")) = ("A\nB" : QString) :=
  ((roundtrip_trimmed "A\nB" (by decide)).2).2 (by decide)

/-- Claim C2.  For every string `x`, `buildAdfDocument x` is the object with `version` 1, type
`doc` and a content array holding, in line order, one paragraph per piece of `x` split on
the newline character, the paragraph's content being exactly one text node with that
piece as text; there are as many paragraphs as newline characters in `x` plus one. -/
theorem buildAdfDocument_paragraphs (x : QString) :
    buildAdfDocument x = docNode ((x.splitOn '\n').map paragraphNode)
      ∧ QJsonObject.value (buildAdfDocument x) "version" = .Double 1
      ∧ QJsonObject.value (buildAdfDocument x) "type" = .String "doc"
      ∧ QJsonObject.value (buildAdfDocument x) "content"
          = .Array ((x.splitOn '\n').map paragraphNode)
      ∧ ((x.splitOn '\n').map paragraphNode).length = x.count '\n' + 1 := by
  have h := buildAdfDocument_eq x
  rw [split_eq_splitOn] at h
  refine ⟨h, ?_, ?_, ?_, ?_⟩
  · rw [h]; rfl
  · rw [h]; rfl
  · rw [h]; rfl
  · rw [List.length_map, ← split_eq_splitOn, split_length]

theorem reduceSprint_eq (qt : Qt) (best : Best) (s : QJsonObject) :
    reduceSprint qt best s =
      if best.has = false ∨ ((sprintStart qt s).isValid = true
          ∧ (best.hasStart = false ∨ QDateTime.gt (sprintStart qt s) best.start = true))
      then Best.ofSprint qt s else best := by
  obtain ⟨has, id, name, start, hasStart⟩ := best
  unfold reduceSprint Best.ofSprint
  cases has <;> cases hasStart <;> cases hv : (sprintStart qt s).isValid <;>
    cases hg : QDateTime.gt (sprintStart qt s) start <;> simp [hv, hg]

theorem gt_iff (a b : QDateTime) :
    QDateTime.gt a b = true ↔ ∃ t u, a = some t ∧ b = some u ∧ u < t := by
  cases a <;> cases b <;> simp [QDateTime.gt]

theorem isValid_iff (a : QDateTime) : a.isValid = true ↔ ∃ t, a = some t := by
  cases a <;> simp [QDateTime.isValid]

/-- Claim C5.  The reducer step replaces the best by the candidate sprint when the best is
unset, or when the candidate has a valid start and the best has none or a strictly smaller
one; in every other case the best is left unchanged; so a candidate without a valid start
never displaces an existing best. -/
theorem reduceSprint_replaces_iff (qt : Qt) (best : Best) (s : QJsonObject) :
    ((best.has = false ∨ ∃ t, sprintStart qt s = some t
        ∧ (best.hasStart = false ∨ ∃ b, best.start = some b ∧ b < t))
      → reduceSprint qt best s = Best.ofSprint qt s)
    ∧ (¬(best.has = false ∨ ∃ t, sprintStart qt s = some t
        ∧ (best.hasStart = false ∨ ∃ b, best.start = some b ∧ b < t))
      → reduceSprint qt best s = best)
    ∧ (best.has = true → sprintStart qt s = none → reduceSprint qt best s = best) := by
  have hcond : (best.has = false ∨ ((sprintStart qt s).isValid = true
        ∧ (best.hasStart = false ∨ QDateTime.gt (sprintStart qt s) best.start = true)))
      ↔ (best.has = false ∨ ∃ t, sprintStart qt s = some t
        ∧ (best.hasStart = false ∨ ∃ b, best.start = some b ∧ b < t)) := by
    rw [isValid_iff, gt_iff]
    constructor
    · rintro (h | ⟨⟨t, ht⟩, h⟩)
      · exact Or.inl h
      · refine Or.inr ⟨t, ht, ?_⟩
        rcases h with h | ⟨t', u, h1, h2, h3⟩
        · exact Or.inl h
        · rw [ht] at h1
          cases h1
          exact Or.inr ⟨u, h2, h3⟩
    · rintro (h | ⟨t, ht, h⟩)
      · exact Or.inl h
      · refine Or.inr ⟨⟨t, ht⟩, ?_⟩
        rcases h with h | ⟨u, h2, h3⟩
        · exact Or.inl h
        · exact Or.inr ⟨t, u, ht, h2, h3⟩
  rw [reduceSprint_eq]
  refine ⟨fun h => if_pos (hcond.mpr h), fun h => if_neg (fun h' => h (hcond.mp h')), ?_⟩
  intro hhas hnone
  apply if_neg
  rw [hcond]
  rintro (h | ⟨t, ht, _⟩)
  · rw [hhas] at h; cases h
  · rw [hnone] at ht; cases ht

/-! ### The reducer over a list of sprints -/

theorem before_new (T : Int) : Best.new.Before T := by
  intro h; cases h

theorem reduceSprint_before (qt : Qt) (T : Int) (best : Best) (s : QJsonObject)
    (hb : best.Before T) (hs : ∀ u, sprintStart qt s = some u → u < T) :
    (reduceSprint qt best s).Before T := by
  rw [reduceSprint_eq]
  split
  · intro h
    simp only [Best.ofSprint] at h ⊢
    obtain ⟨t, ht⟩ := (isValid_iff _).mp h
    exact ⟨t, ht, hs t ht⟩
  · exact hb

theorem foldl_before (qt : Qt) (T : Int) (l : List QJsonObject) (best : Best)
    (hb : best.Before T) (hl : ∀ s ∈ l, ∀ u, sprintStart qt s = some u → u < T) :
    (l.foldl (reduceSprint qt) best).Before T := by
  induction l generalizing best with
  | nil => exact hb
  | cons s l ih =>
    simp only [List.foldl_cons]
    exact ih _ (reduceSprint_before qt T best s hb (hl s (List.mem_cons_self _ _)))
      (fun s' hs' => hl s' (List.mem_cons_of_mem _ hs'))

theorem reduceSprint_latest (qt : Qt) (T : Int) (best : Best) (S : QJsonObject)
    (hb : best.Before T) (hS : sprintStart qt S = some T) :
    reduceSprint qt best S = Best.ofSprint qt S := by
  rw [reduceSprint_eq]
  apply if_pos
  by_cases hh : best.has = false
  · exact Or.inl hh
  · refine Or.inr ⟨by rw [hS]; rfl, ?_⟩
    by_cases hst : best.hasStart = false
    · exact Or.inl hst
    · obtain ⟨b, hb1, hb2⟩ := hb (by simpa using hst)
      refine Or.inr ?_
      rw [hS, hb1]
      simpa [QDateTime.gt] using hb2

theorem reduceSprint_keeps_latest (qt : Qt) (T : Int) (S s : QJsonObject)
    (hS : sprintStart qt S = some T) (hs : ∀ u, sprintStart qt s = some u → u < T) :
    reduceSprint qt (Best.ofSprint qt S) s = Best.ofSprint qt S := by
  rw [reduceSprint_eq]
  apply if_neg
  rintro (h | ⟨_, h | h⟩)
  · cases h
  · simp only [Best.ofSprint, hS] at h
    cases h
  · simp only [Best.ofSprint, hS] at h
    cases hu : sprintStart qt s with
    | none => rw [hu] at h; cases h
    | some u =>
      rw [hu] at h
      have := hs u hu
      simp only [QDateTime.gt, decide_eq_true_eq] at h
      omega

theorem foldl_keeps_latest (qt : Qt) (T : Int) (S : QJsonObject) (l : List QJsonObject)
    (hS : sprintStart qt S = some T)
    (hl : ∀ s ∈ l, ∀ u, sprintStart qt s = some u → u < T) :
    l.foldl (reduceSprint qt) (Best.ofSprint qt S) = Best.ofSprint qt S := by
  induction l with
  | nil => rfl
  | cons s l ih =>
    simp only [List.foldl_cons]
    rw [reduceSprint_keeps_latest qt T S s hS (hl s (List.mem_cons_self _ _))]
    exact ih (fun s' hs' => hl s' (List.mem_cons_of_mem _ hs'))

/-- Folding the reducer over any arrangement of sprints in which `S` has the strictly
greatest valid start gives `S`. -/
theorem foldl_latest (qt : Qt) (T : Int) (S : QJsonObject) (others all : List QJsonObject)
    (hperm : all.Perm (S :: others)) (hS : sprintStart qt S = some T)
    (hmax : ∀ s ∈ others, ∀ u, sprintStart qt s = some u → u < T) :
    all.foldl (reduceSprint qt) Best.new = Best.ofSprint qt S := by
  have hmem : S ∈ all := hperm.symm.subset (List.mem_cons_self _ _)
  obtain ⟨pre, post, rfl⟩ := List.append_of_mem hmem
  have hrest : (pre ++ post).Perm others := (List.perm_middle.symm.trans hperm).cons_inv
  have hpre : ∀ s ∈ pre, ∀ u, sprintStart qt s = some u → u < T :=
    fun s hs => hmax s (hrest.subset (List.mem_append_left _ hs))
  have hpost : ∀ s ∈ post, ∀ u, sprintStart qt s = some u → u < T :=
    fun s hs => hmax s (hrest.subset (List.mem_append_right _ hs))
  rw [List.foldl_append, List.foldl_cons,
    reduceSprint_latest qt T _ S (foldl_before qt T pre _ (before_new T) hpre) hS]
  exact foldl_keeps_latest qt T S post hS hpost

theorem reduceSprint_has (qt : Qt) (best : Best) (s : QJsonObject) :
    (reduceSprint qt best s).has = true := by
  rw [reduceSprint_eq]
  split
  · rfl
  · rename_i h
    simp only [not_or] at h
    simpa using h.1

theorem foldl_has (qt : Qt) (l : List QJsonObject) (best : Best) :
    (l.foldl (reduceSprint qt) best).has = (best.has || !l.isEmpty) := by
  induction l generalizing best with
  | nil => simp
  | cons s l ih => simp [ih, reduceSprint_has]

theorem ready_eq_none_iff (best : Best) :
    best.ready = .mostRecentActiveSprintReady none [] none ↔ best.has = false := by
  unfold Best.ready
  cases best.has <;> simp

/-! ### The countdown -/

theorem completions_best (qt : Qt) (arrivals : List (List QJsonObject)) (agg : Aggregation) :
    (getMostRecentActiveSprint.completions qt agg arrivals).1.best
      = arrivals.flatten.foldl (reduceSprint qt) agg.best := by
  induction arrivals generalizing agg with
  | nil => rfl
  | cons a as ih =>
    have hb : (getMostRecentActiveSprint.onSprints qt agg a).1.best
        = a.foldl (reduceSprint qt) agg.best := by
      unfold getMostRecentActiveSprint.onSprints
      by_cases h0 : agg.remaining - 1 = 0
      · simp only [if_pos h0]
      · simp only [if_neg h0]
    simp only [getMostRecentActiveSprint.completions, ih, List.flatten_cons, List.foldl_append,
      hb]

theorem completions_silent (qt : Qt) (arrivals : List (List QJsonObject)) (agg : Aggregation)
    (h : (arrivals.length : Int) < agg.remaining) :
    (getMostRecentActiveSprint.completions qt agg arrivals).2 = [] := by
  induction arrivals generalizing agg with
  | nil => rfl
  | cons a as ih =>
    simp only [List.length_cons, Nat.cast_add, Nat.cast_one] at h
    have hne : ¬ (agg.remaining - 1 = 0) := by omega
    simp only [getMostRecentActiveSprint.completions]
    have hstep : getMostRecentActiveSprint.onSprints qt agg a
        = (⟨a.foldl (reduceSprint qt) agg.best, agg.remaining - 1⟩, []) := by
      simp only [getMostRecentActiveSprint.onSprints, if_neg hne]
    rw [hstep]
    simp only [List.nil_append]
    exact ih _ (by simp only []; omega)

theorem completions_emit (qt : Qt) (arrivals : List (List QJsonObject)) (agg : Aggregation)
    (hne : arrivals ≠ []) (h : (arrivals.length : Int) = agg.remaining) :
    (getMostRecentActiveSprint.completions qt agg arrivals).2
      = [.emit (arrivals.flatten.foldl (reduceSprint qt) agg.best).ready] := by
  induction arrivals generalizing agg with
  | nil => exact absurd rfl hne
  | cons a as ih =>
    simp only [List.length_cons, Nat.cast_add, Nat.cast_one] at h
    simp only [getMostRecentActiveSprint.completions]
    cases as with
    | nil =>
      simp only [List.length_nil, Nat.cast_zero, zero_add] at h
      have h0 : agg.remaining - 1 = 0 := by omega
      simp [getMostRecentActiveSprint.onSprints, if_pos h0,
        getMostRecentActiveSprint.completions]
    | cons b bs =>
      have hn : ¬ (agg.remaining - 1 = 0) := by
        simp only [List.length_cons, Nat.cast_add, Nat.cast_one] at h
        omega
      have hstep : getMostRecentActiveSprint.onSprints qt agg a
          = (⟨a.foldl (reduceSprint qt) agg.best, agg.remaining - 1⟩, []) := by
        simp only [getMostRecentActiveSprint.onSprints, if_neg hn]
      rw [hstep]
      simp only [List.nil_append]
      rw [ih _ (by simp) (by simp only []; omega)]
      simp [List.foldl_append]

/-! ### Logs -/

theorem signals_append (a b : List Effect) : signals (a ++ b) = signals a ++ signals b := by
  induction a with
  | nil => rfl
  | cons e a ih => cases e <;> simp [signals, ih]

theorem requests_append (a b : List Effect) : requests (a ++ b) = requests a ++ requests b := by
  induction a with
  | nil => rfl
  | cons e a ih => cases e <;> simp [requests, ih]

theorem signals_fromHandler (log : List Effect) : signals (fromHandler log) = signals log := by
  cases log with
  | nil => rfl
  | cons e log => cases e <;> rfl

theorem requests_fromHandler (log : List Effect) :
    requests (fromHandler log) = requests log := by
  cases log with
  | nil => rfl
  | cons e log => cases e <;> rfl

theorem mem_fromHandler (e : Effect) (log : List Effect) (h : e ∈ fromHandler log) :
    e = .undefined .handler ∨ e ∈ log := by
  cases log with
  | nil => cases h
  | cons a log =>
    simp only [fromHandler, List.mem_cons] at h ⊢
    tauto

theorem signals_map_send {α : Type} (f : α → Request) (l : List α) :
    signals (l.map (fun a => Effect.send (f a))) = [] := by
  induction l with
  | nil => rfl
  | cons a l ih => simpa [signals] using ih

theorem foldl_toObject (vs : QJsonArray) (all : List QJsonObject) :
    vs.foldl (fun all v => all ++ [QJsonValue.toObject v]) all
      = all ++ vs.map QJsonValue.toObject :=
  by
  induction vs generalizing all with
  | nil => simp
  | cons a l ih => simp [ih]

/-! ### The board fetch -/

theorem getAllBoards_fetch_log (c : JiraClient) (type : QString) (net : List QNetworkReply)
    (all : List QJsonObject) (startAt : Int) :
    ∀ e ∈ (getAllBoards.fetch c type all startAt net).1,
      (∃ k, e = .send (boardsRequest c type k))
        ∨ (∃ s, e = .emit s ∧ s.isMostRecentActiveSprintReady = false)
        ∨ ∃ u, e = .undefined u := by
  induction net generalizing all startAt with
  | nil =>
    intro e he
    simp only [getAllBoards.fetch, List.mem_singleton] at he
    exact Or.inl ⟨startAt, he⟩
  | cons reply net ih =>
    intro e he
    unfold getAllBoards.fetch at he
    simp only [] at he
    split at he
    · split at he
      · simp only [List.mem_cons, List.mem_singleton, List.not_mem_nil, or_false] at he
        rcases he with rfl | rfl
        · exact Or.inl ⟨startAt, rfl⟩
        · exact Or.inr (Or.inl ⟨_, rfl, rfl⟩)
      · simp only [List.mem_cons, List.mem_singleton, List.not_mem_nil, or_false] at he
        rcases he with rfl | rfl
        · exact Or.inl ⟨startAt, rfl⟩
        · exact Or.inr (Or.inl ⟨_, rfl, rfl⟩)
    · split at he
      · simp only [List.mem_cons, List.mem_singleton, List.not_mem_nil, or_false] at he
        rcases he with rfl | rfl
        · exact Or.inl ⟨startAt, rfl⟩
        · exact Or.inr (Or.inl ⟨_, rfl, rfl⟩)
      · split at he
        · simp only [List.mem_singleton] at he
          exact Or.inl ⟨startAt, he⟩
        · simp only [List.mem_cons] at he
          rcases he with rfl | he
          · exact Or.inl ⟨startAt, rfl⟩
          · rcases mem_fromHandler _ _ he with rfl | he
            · exact Or.inr (Or.inr ⟨_, rfl⟩)
            · exact ih _ _ e he

theorem signals_filter_nil (log : List Effect)
    (h : ∀ e ∈ log, (∃ r, e = .send r)
      ∨ (∃ s, e = .emit s ∧ s.isMostRecentActiveSprintReady = false) ∨ ∃ u, e = .undefined u) :
    (signals log).filter Signal.isMostRecentActiveSprintReady = [] := by
  induction log with
  | nil => rfl
  | cons e log ih =>
    have ht := ih (fun e' he' => h e' (List.mem_cons_of_mem _ he'))
    rcases h e (List.mem_cons_self _ _) with ⟨r, rfl⟩ | ⟨s, rfl, hs⟩ | ⟨u, rfl⟩
    · simpa [signals] using ht
    · simp [signals, hs, ht]
    · simpa [signals] using ht

theorem requests_of_log (log : List Effect) (P : Request → Prop)
    (h : ∀ e ∈ log, (∃ r, e = .send r ∧ P r) ∨ (∃ s, e = .emit s) ∨ ∃ u, e = .undefined u) :
    ∀ r ∈ requests log, P r := by
  induction log with
  | nil => intro r hr; simp [requests] at hr
  | cons e log ih =>
    have ht := ih (fun e' he' => h e' (List.mem_cons_of_mem _ he'))
    rcases h e (List.mem_cons_self _ _) with ⟨r, rfl, hp⟩ | ⟨s, rfl⟩ | ⟨u, rfl⟩
    · intro r' hr'
      simp only [requests, List.mem_cons] at hr'
      rcases hr' with rfl | hr'
      · exact hp
      · exact ht r' hr'
    · intro r' hr'
      exact ht r' (by simpa [requests] using hr')
    · intro r' hr'
      exact ht r' (by simpa [requests] using hr')

theorem boardsRequest_ne (c : JiraClient) (type state : QString) (k k' boardId : Int) :
    boardsRequest c type k ≠ boardSprintsRequest c boardId state k' := by
  intro h
  have hp := congrArg (fun r => r.url.path.length) h
  simp [boardsRequest, boardSprintsRequest] at hp

/-! ### The sprint fetch -/

/-! ### The method as a whole -/

theorem getMostRecentActiveSprint_of_boards (qt : Qt) (c : JiraClient)
    (net : List QNetworkReply) (arrivals : List (List QJsonObject)) (log : List Effect)
    (boards : List QJsonObject) (hboards : getAllBoards c "scrum" net = (log, some boards))
    (hne : boards ≠ []) :
    getMostRecentActiveSprint qt c net arrivals
      = log ++ boards.map (fun b =>
          Effect.send (boardSprintsRequest c ((QJsonObject.value b "id").toInt 0) "active" 0))
        ++ (getMostRecentActiveSprint.completions qt ⟨Best.new, boards.length⟩ arrivals).2 := by
  unfold getMostRecentActiveSprint
  rw [hboards]
  cases boards with
  | nil => exact absurd rfl hne
  | cons b bs => rfl

theorem getMostRecentActiveSprint_no_boards (qt : Qt) (c : JiraClient)
    (net : List QNetworkReply) (arrivals : List (List QJsonObject)) (log : List Effect)
    (hboards : getAllBoards c "scrum" net = (log, some [])) :
    getMostRecentActiveSprint qt c net arrivals
      = log ++ [.emit (.mostRecentActiveSprintReady none [] none)] := by
  unfold getMostRecentActiveSprint
  rw [hboards]
  rfl

theorem readySignals_boards_log (c : JiraClient) (net : List QNetworkReply)
    (log : List Effect) (boards : Option (List QJsonObject))
    (hboards : getAllBoards c "scrum" net = (log, boards)) :
    (signals log).filter Signal.isMostRecentActiveSprintReady = [] := by
  apply signals_filter_nil
  intro e he
  have hlog : log = (getAllBoards.fetch c "scrum" [] 0 net).1 := by
    unfold getAllBoards at hboards
    rw [hboards]
  rw [hlog] at he
  rcases getAllBoards_fetch_log c "scrum" net [] 0 e he with ⟨k, hk⟩ | h
  · exact Or.inl ⟨_, hk⟩
  · exact Or.inr h

theorem readySignals_of_boards (qt : Qt) (c : JiraClient)
    (net : List QNetworkReply) (arrivals : List (List QJsonObject)) (log : List Effect)
    (boards : List QJsonObject) (hboards : getAllBoards c "scrum" net = (log, some boards))
    (hne : boards ≠ []) :
    readySignals (getMostRecentActiveSprint qt c net arrivals)
      = readySignals
        (getMostRecentActiveSprint.completions qt ⟨Best.new, boards.length⟩ arrivals).2 := by
  rw [getMostRecentActiveSprint_of_boards qt c net arrivals log boards hboards hne]
  unfold readySignals
  rw [signals_append, signals_append, List.filter_append, List.filter_append,
    readySignals_boards_log c net log _ hboards, signals_map_send]
  rfl

theorem readySignals_ready (best : Best) : readySignals [.emit best.ready] = [best.ready] := by
  unfold readySignals Best.ready
  cases best.has <;> rfl

/-- A later sprint replaces an earlier best, and a sprint without a start date does not. -/
theorem reduceSprint_replaces_iff_witness :
    reduceSprint Qt.sample (Best.ofSprint Qt.sample sprint1) sprint2
        = Best.ofSprint Qt.sample sprint2
      ∧ reduceSprint Qt.sample (Best.ofSprint Qt.sample sprint2) sprint7
        = Best.ofSprint Qt.sample sprint2 :=
  ⟨(reduceSprint_replaces_iff Qt.sample (Best.ofSprint Qt.sample sprint1) sprint2).1
      (Or.inr ⟨1705309200000, by decide, Or.inr ⟨1704099600000, by decide, by decide⟩⟩),
    (reduceSprint_replaces_iff Qt.sample (Best.ofSprint Qt.sample sprint2) sprint7).2.2
      rfl (by decide)⟩

/-- Claim C4.  When one sprint `S` among those delivered for the boards has a valid start `T`
and every other delivered sprint has no valid start or one strictly before `T`, then for
every order `arrivals` in which the sprint fetches complete the method emits exactly one
`mostRecentActiveSprintReady`, carrying the id, the name and the start of `S`. -/
theorem mostRecent_order_independent (qt : Qt) (c : JiraClient) (net : List QNetworkReply)
    (log : List Effect) (boards : List QJsonObject)
    (deliveries arrivals : List (List QJsonObject)) (S : QJsonObject)
    (others : List QJsonObject) (T : Int)
    (hboards : getAllBoards c "scrum" net = (log, some boards))
    (hlen : deliveries.length = boards.length)
    (horder : arrivals.Perm deliveries)
    (hS : deliveries.flatten.Perm (S :: others))
    (hT : sprintStart qt S = some T)
    (hmax : ∀ s ∈ others, ∀ u, sprintStart qt s = some u → u < T) :
    readySignals (getMostRecentActiveSprint qt c net arrivals)
      = [.mostRecentActiveSprintReady (some ((QJsonObject.value S "id").toInt 0))
          (QJsonObject.value S "name").toString (some (some T))] := by
  have hdne : deliveries ≠ [] := by
    intro h
    rw [h] at hS
    exact (List.Perm.nil_eq hS) |> fun h' => by cases h'
  have harr : arrivals ≠ [] := by
    intro h
    rw [h] at horder
    exact hdne (List.Perm.nil_eq horder).symm
  have hbne : boards ≠ [] := by
    intro h
    rw [h] at hlen
    exact hdne (List.length_eq_zero.mp hlen)
  have hlen' : (arrivals.length : Int) = (⟨Best.new, boards.length⟩ : Aggregation).remaining := by
    simp only [horder.length_eq, hlen]
  rw [readySignals_of_boards qt c net arrivals log boards hboards hbne,
    completions_emit qt arrivals _ harr hlen', readySignals_ready,
    foldl_latest qt T S others _ (horder.flatten.trans hS) hT hmax]
  simp [Best.ready, Best.ofSprint, hT, QDateTime.isValid]

/-- Boards 1 and 2 with the sprints of 1 January and 15 January 2024: the later sprint is
the result in both orders of completion. -/
theorem mostRecent_order_independent_witness :
    readySignals (getMostRecentActiveSprint Qt.sample sampleClient [twoBoards]
        [[sprint1], [sprint2]])
      = [.mostRecentActiveSprintReady (some 2) "Sprint 2" (some (some 1705309200000))]
    ∧ readySignals (getMostRecentActiveSprint Qt.sample sampleClient [twoBoards]
        [[sprint2], [sprint1]])
      = [.mostRecentActiveSprintReady (some 2) "Sprint 2" (some (some 1705309200000))] :=
  ⟨(mostRecent_order_independent Qt.sample sampleClient [twoBoards]
      (getAllBoards sampleClient "scrum" [twoBoards]).1
      [[(("id" : QString), .Double 1)], [(("id" : QString), .Double 2)]]
      [[sprint1], [sprint2]] [[sprint1], [sprint2]] sprint2 [sprint1] 1705309200000
      rfl rfl (List.Perm.refl _) (List.Perm.swap _ _ _) (by decide)
      (fun s hs u hu => by
        rw [List.mem_singleton.mp hs, show sprintStart Qt.sample sprint1
          = some 1704099600000 from by decide] at hu
        cases hu
        decide)).trans (by decide),
   (mostRecent_order_independent Qt.sample sampleClient [twoBoards]
      (getAllBoards sampleClient "scrum" [twoBoards]).1
      [[(("id" : QString), .Double 1)], [(("id" : QString), .Double 2)]]
      [[sprint1], [sprint2]] [[sprint2], [sprint1]] sprint2 [sprint1] 1705309200000
      rfl rfl (List.Perm.swap _ _ _) (List.Perm.swap _ _ _) (by decide)
      (fun s hs u hu => by
        rw [List.mem_singleton.mp hs, show sprintStart Qt.sample sprint1
          = some 1704099600000 from by decide] at hu
        cases hu
        decide)).trans (by decide)⟩

/-- Claim C7.  When the board fetch delivers no board, `getMostRecentActiveSprint` emits the
empty result (no id, empty name, no start) right after the log of the board fetch,
exactly once, and every request it has issued is a page of the board list: none is a
board-sprint request. -/
theorem mostRecent_zero_boards (qt : Qt) (c : JiraClient) (net : List QNetworkReply)
    (arrivals : List (List QJsonObject)) (log : List Effect)
    (hboards : getAllBoards c "scrum" net = (log, some [])) :
    getMostRecentActiveSprint qt c net arrivals
        = log ++ [.emit (.mostRecentActiveSprintReady none [] none)]
      ∧ readySignals (getMostRecentActiveSprint qt c net arrivals)
        = [.mostRecentActiveSprintReady none [] none]
      ∧ requests (getMostRecentActiveSprint qt c net arrivals) = requests log
      ∧ ∀ r ∈ requests (getMostRecentActiveSprint qt c net arrivals),
          (∃ k, r = boardsRequest c "scrum" k)
            ∧ ∀ boardId state k, r ≠ boardSprintsRequest c boardId state k := by
  have hrun := getMostRecentActiveSprint_no_boards qt c net arrivals log hboards
  have hreq : requests (getMostRecentActiveSprint qt c net arrivals) = requests log := by
    rw [hrun, requests_append]
    simp [requests]
  refine ⟨hrun, ?_, hreq, ?_⟩
  · rw [hrun]
    unfold readySignals
    rw [signals_append, List.filter_append, readySignals_boards_log c net log _ hboards]
    rfl
  · rw [hreq]
    have hlog : log = (getAllBoards.fetch c "scrum" [] 0 net).1 := by
      unfold getAllBoards at hboards
      rw [hboards]
    have hall : ∀ r ∈ requests log, ∃ k, r = boardsRequest c "scrum" k := by
      apply requests_of_log
      intro e he
      rw [hlog] at he
      rcases getAllBoards_fetch_log c "scrum" net [] 0 e he with ⟨k, hk⟩ | ⟨s, hs, _⟩ | hu
      · exact Or.inl ⟨_, hk, k, rfl⟩
      · exact Or.inr (Or.inl ⟨s, hs⟩)
      · exact Or.inr (Or.inr hu)
    intro r hr
    obtain ⟨k, rfl⟩ := hall r hr
    exact ⟨⟨k, rfl⟩, fun boardId state k' => boardsRequest_ne c "scrum" state k k' boardId⟩

/-- An empty board list: one request, one empty result. -/
theorem mostRecent_zero_boards_witness :
    readySignals (getMostRecentActiveSprint Qt.sample sampleClient [noBoards] [])
        = [.mostRecentActiveSprintReady none [] none]
      ∧ (requests (getMostRecentActiveSprint Qt.sample sampleClient [noBoards] [])).length = 1 :=
  have h := mostRecent_zero_boards Qt.sample sampleClient [noBoards] []
    (getAllBoards sampleClient "scrum" [noBoards]).1 rfl
  ⟨h.2.1, by rw [h.2.2.1]; rfl⟩

theorem scanField_eq (qt : Qt) (c : JiraClient) (v : QJsonValue) :
    scanField qt c v =
      { c with
        m_sprintFieldId := if isNamed qt "Sprint" v then fieldId v else c.m_sprintFieldId
        m_storyPointsFieldId :=
          if isNamed qt "Story Points" v then fieldId v else c.m_storyPointsFieldId } := by
  unfold scanField isNamed fieldId
  dsimp only
  generalize QString.equalsIgnoreCase qt (QJsonObject.value v.toObject "name").toString
    ("Sprint" : QString) = b1
  generalize QString.equalsIgnoreCase qt (QJsonObject.value v.toObject "name").toString
    ("Story Points" : QString) = b2
  cases b1 <;> cases b2 <;> rfl

theorem lastFieldId_cons (qt : Qt) (name : QString) (v : QJsonValue) (arr : QJsonArray)
    (previous : QString) :
    lastFieldId qt name (v :: arr) previous
      = lastFieldId qt name arr (if isNamed qt name v then fieldId v else previous) := by
  unfold lastFieldId
  by_cases h : isNamed qt name v = true
  · rw [List.filter_cons_of_pos h, List.getLast?_cons, if_pos h]
    cases (arr.filter (isNamed qt name)).getLast? <;> rfl
  · rw [List.filter_cons_of_neg h, if_neg h]

theorem foldl_scanField (qt : Qt) (arr : QJsonArray) (c : JiraClient) :
    arr.foldl (scanField qt) c =
      { c with
        m_sprintFieldId := lastFieldId qt "Sprint" arr c.m_sprintFieldId
        m_storyPointsFieldId := lastFieldId qt "Story Points" arr c.m_storyPointsFieldId } := by
  induction arr generalizing c with
  | nil => rfl
  | cons v arr ih =>
    rw [List.foldl_cons, ih, scanField_eq, lastFieldId_cons, lastFieldId_cons]

/-- Claim C8 fails on a catalog with two fields named Sprint: the id captured is that of
the last one, `customfield_10999`, and not that of the first, `customfield_10020`. -/
theorem catalog_counterexample :
    (ensureFieldMetadata Qt.sample sampleClient [okReply (.Array duplicateCatalog)]
        (fun c _ => (c, []))).1.m_sprintFieldId = ("customfield_10999" : QString)
      ∧ firstFieldId Qt.sample "Sprint" duplicateCatalog [] = ("customfield_10020" : QString) := by
  decide

/-- Claim C8, amended.  After a successful catalog load the sprint field id (and likewise the
story-points field id) is the id of the last catalog entry whose name equals `Sprint`
(`Story Points`) ignoring case, the previous value when no entry has that name; the cache is
marked loaded and the continuation runs once on that state. -/
theorem ensureFieldMetadata_captures_last (qt : Qt) (c : JiraClient) (reply : QNetworkReply)
    (net : List QNetworkReply)
    (cont : JiraClient → List QNetworkReply → JiraClient × List Effect) (arr : QJsonArray)
    (hload : c.m_fieldMetadataLoaded = false) (herr : reply.error = .NoError)
    (hbody : reply.body = .Array arr) :
    ∃ loaded : JiraClient,
      ensureFieldMetadata qt c (reply :: net) cont
          = ((cont loaded net).1, .send (fieldCatalogRequest c) :: (cont loaded net).2)
        ∧ loaded.m_fieldMetadataLoaded = true
        ∧ loaded.m_sprintFieldId = lastFieldId qt "Sprint" arr c.m_sprintFieldId
        ∧ loaded.m_storyPointsFieldId
            = lastFieldId qt "Story Points" arr c.m_storyPointsFieldId := by
  refine ⟨{ arr.foldl (scanField qt) c with m_fieldMetadataLoaded := true }, ?_, rfl, ?_, ?_⟩
  · unfold ensureFieldMetadata ensureFieldMetadata.interleaved
    simp only [hload, herr, hbody, QJsonValue.isArray, QJsonValue.toArray]
    rfl
  · rw [foldl_scanField]
  · rw [foldl_scanField]

/-- The load of the catalog with two Sprint fields. -/
theorem ensureFieldMetadata_captures_last_witness :
    ∃ loaded : JiraClient,
      ensureFieldMetadata Qt.sample sampleClient [okReply (.Array duplicateCatalog)]
          (fun c _ => (c, []))
        = (loaded, [.send (fieldCatalogRequest sampleClient)])
      ∧ loaded.m_fieldMetadataLoaded = true
      ∧ loaded.m_sprintFieldId = ("customfield_10999" : QString)
      ∧ loaded.m_storyPointsFieldId = ("customfield_10016" : QString) :=
  (ensureFieldMetadata_captures_last Qt.sample sampleClient (okReply (.Array duplicateCatalog))
    [] (fun c _ => (c, [])) duplicateCatalog rfl rfl rfl).imp
    (fun _ h => ⟨h.1, h.2.1, h.2.2.1.trans (by decide), h.2.2.2.trans (by decide)⟩)

/-- Claim C9.  When the cache is not loaded and the catalog read fails: on an AuthFailure the
log is the request followed by one `authenticationRequired` and nothing of the
continuation, whatever the continuation is; on a GenericFailure (a transport error that is
no auth error, or a body that is no JSON array) the log is the request, one
`operationFailed`, and then the effects of one run of the continuation on the unchanged
state. -/
theorem ensureFieldMetadata_failure (qt : Qt) (c : JiraClient) (reply : QNetworkReply)
    (net : List QNetworkReply)
    (cont : JiraClient → List QNetworkReply → JiraClient × List Effect)
    (hload : c.m_fieldMetadataLoaded = false) :
    (reply.error ≠ .NoError → isAuthError reply reply.error = true →
        ensureFieldMetadata qt c (reply :: net) cont
          = (c, [.send (fieldCatalogRequest c), .emit (.authenticationRequired
              "Jira authentication failed while loading field metadata. Please configure your API token.")]))
      ∧ ((reply.error ≠ .NoError ∧ isAuthError reply reply.error = false)
          ∨ (reply.error = .NoError ∧ reply.body.isArray = false) →
        ∃ e, ensureFieldMetadata qt c (reply :: net) cont
          = ((cont c net).1, .send (fieldCatalogRequest c)
              :: .emit (.operationFailed "Load field metadata" e) :: (cont c net).2)) := by
  constructor
  · intro herr hauth
    unfold ensureFieldMetadata ensureFieldMetadata.interleaved
    simp only [hload, Bool.false_eq_true, if_false]
    rw [if_pos herr, if_pos hauth]
    rfl
  · rintro (⟨herr, hauth⟩ | ⟨herr, hbody⟩)
    · refine ⟨reply.errorString, ?_⟩
      unfold ensureFieldMetadata ensureFieldMetadata.interleaved
      simp only [hload, Bool.false_eq_true, if_false]
      rw [if_pos herr, if_neg (by simp [hauth])]
      rfl
    · refine ⟨("Unexpected JSON (expected array)" : QString), ?_⟩
      unfold ensureFieldMetadata ensureFieldMetadata.interleaved
      simp only [hload, Bool.false_eq_true, if_false]
      rw [if_neg (by simp [herr]), if_pos (by simp [hbody])]
      rfl

/-- An HTTP 401 and an HTTP 500 on the catalog read, with a continuation that leaves a
mark in the log. -/
theorem ensureFieldMetadata_failure_witness :
    ensureFieldMetadata Qt.sample sampleClient [unauthorized]
        (fun c _ => (c, [.emit (.operationSucceeded "continued")]))
      = (sampleClient, [.send (fieldCatalogRequest sampleClient), .emit (.authenticationRequired
          "Jira authentication failed while loading field metadata. Please configure your API token.")])
    ∧ ∃ e, ensureFieldMetadata Qt.sample sampleClient [serverError]
        (fun c _ => (c, [.emit (.operationSucceeded "continued")]))
      = (sampleClient, [.send (fieldCatalogRequest sampleClient),
          .emit (.operationFailed "Load field metadata" e),
          .emit (.operationSucceeded "continued")]) :=
  ⟨(ensureFieldMetadata_failure Qt.sample sampleClient unauthorized []
      (fun c _ => (c, [.emit (.operationSucceeded "continued")])) rfl).1
      (by decide) (by decide),
   (ensureFieldMetadata_failure Qt.sample sampleClient serverError []
      (fun c _ => (c, [.emit (.operationSucceeded "continued")])) rfl).2
      (Or.inl ⟨by decide, by decide⟩)⟩

/-- The log of a `finished` handler of a write request. -/
theorem writeLog_handler (req : Request) (net : List QNetworkReply)
    (a f s : QString) :
    WriteLog (Effect.send req ::
      match net with
      | [] => []
      | reply :: _ =>
        if reply.error ≠ .NoError then
          if isAuthError reply reply.error then [.emit (.authenticationRequired a)]
          else [.emit (.operationFailed f reply.errorString)]
        else [.emit (.operationSucceeded s)]) net := by
  cases net with
  | nil =>
    refine ⟨by simp [signals], ?_, ?_⟩
    · rintro ⟨r, hr, _⟩
      simp [received] at hr
    · intro req' r _ _ hr
      simp at hr
  | cons reply rest =>
    by_cases herr : reply.error = .NoError
    · simp only [herr, ne_eq, not_true_eq_false, if_false]
      refine ⟨by simp [signals], ?_, ?_⟩
      · rintro ⟨r, hr, hauth⟩
        simp [received, requests] at hr
        subst hr
        simp [QNetworkReply.isAuthFailure, herr] at hauth
      · intro _ _ _ _ _ _
        exact ⟨s, rfl⟩
    · by_cases hauth : isAuthError reply reply.error = true
      · simp only [ne_eq, herr, not_false_eq_true, if_true, hauth]
        refine ⟨by simp [signals], ?_, ?_⟩
        · intro _
          exact ⟨a, rfl⟩
        · intro req' r _ _ hr hok
          simp [requests] at hr
          subst hr
          exact absurd hok herr
      · simp only [ne_eq, herr, not_false_eq_true, if_true, hauth, Bool.false_eq_true, if_false]
        refine ⟨by simp [signals], ?_, ?_⟩
        · rintro ⟨r, hr, hauth'⟩
          simp [received, requests] at hr
          subst hr
          simp [QNetworkReply.isAuthFailure, hauth] at hauth'
        · intro req' r _ _ hr hok
          simp [requests] at hr
          subst hr
          exact absurd hok herr

theorem writeLog_nil (net : List QNetworkReply) : WriteLog [] net := by
  refine ⟨by simp [signals], ?_, ?_⟩
  · rintro ⟨r, hr, _⟩
    simp [received, requests] at hr
  · intro req r h
    simp [requests] at h

theorem writeLog_after_request (req : Request) (r : QNetworkReply) (log : List Effect)
    (net : List QNetworkReply) (hr : r.isAuthFailure = false) (h : WriteLog log net)
    (hlast : requests log = [] → req.verb = .GET ∨ r.error ≠ .NoError ∨ False) :
    WriteLog (.send req :: log) (r :: net) := by
  obtain ⟨h1, h2, h3⟩ := h
  refine ⟨by simpa [signals] using h1, ?_, ?_⟩
  · rintro ⟨r', hr', hauth⟩
    simp only [received, requests, List.length_cons, List.take_succ_cons, List.mem_cons] at hr'
    rcases hr' with rfl | hr'
    · rw [hr] at hauth; cases hauth
    · simpa [signals] using h2 ⟨r', hr', hauth⟩
  · intro req' r' hreq hverb hidx hok
    simp only [requests] at hreq hidx
    cases hl : requests log with
    | nil =>
      rw [hl] at hreq hidx
      simp only [List.getLast?_singleton, Option.some.injEq] at hreq
      simp only [List.length_singleton, Nat.sub_self, List.getElem?_cons_zero,
        Option.some.injEq] at hidx
      subst hreq hidx
      rcases hlast hl with hg | hne | hf
      · exact absurd hg hverb
      · exact absurd hok hne
      · exact hf.elim
    | cons q qs =>
      rw [hl] at hreq hidx
      simp only [List.getLast?_cons_cons, List.length_cons, Nat.add_sub_cancel,
        List.getElem?_cons_succ] at hreq hidx
      have := h3 req' r' (by rw [hl]; exact hreq) hverb
        (by rw [hl]; simpa using hidx) hok
      simpa [signals] using this

theorem writeLog_pending (req : Request) : WriteLog [.send req] [] := by
  refine ⟨by simp [signals], ?_, ?_⟩
  · rintro ⟨r, hr, _⟩
    simp [received] at hr
  · intro req' r _ _ hr
    simp at hr

theorem writeLog_ensureFieldMetadata (qt : Qt) (c : JiraClient) (net : List QNetworkReply)
    (cont : JiraClient → List QNetworkReply → JiraClient × List Effect)
    (hcont : ∀ c' net', WriteLog (cont c' net').2 net')
    (hidle : c.m_fieldMetadataLoaded = false → ∀ net', (cont c net').2 = []) :
    WriteLog (ensureFieldMetadata qt c net cont).2 net := by
  unfold ensureFieldMetadata ensureFieldMetadata.interleaved
  by_cases hload : c.m_fieldMetadataLoaded = true
  · simp only [hload, if_true]
    exact hcont c net
  · simp only [hload, Bool.false_eq_true, if_false]
    have hload' : c.m_fieldMetadataLoaded = false := by simpa using hload
    cases net with
    | nil => exact writeLog_pending _
    | cons reply rest =>
      dsimp only
      by_cases herr : reply.error = .NoError
      · rw [if_neg (by simp [herr])]
        by_cases harr : reply.body.isArray = true
        · rw [if_neg (by simp [harr])]
          exact writeLog_after_request _ reply _ rest
            (by simp [QNetworkReply.isAuthFailure, herr]) (hcont _ rest) (fun _ => Or.inl rfl)
        · rw [if_pos (by simpa using harr)]
          dsimp only
          rw [hidle hload' rest]
          refine ⟨by simp [signals], ?_, ?_⟩
          · rintro ⟨r, hr, hauth⟩
            simp [received, requests] at hr
            subst hr
            simp [QNetworkReply.isAuthFailure, herr] at hauth
          · intro req r hreq hverb
            simp [requests] at hreq
            subst hreq
            exact absurd rfl hverb
      · rw [if_pos herr]
        by_cases hauth : isAuthError reply reply.error = true
        · rw [if_pos hauth]
          refine ⟨by simp [signals], fun _ => ⟨_, rfl⟩, ?_⟩
          intro req r hreq hverb
          simp [requests] at hreq
          subst hreq
          exact absurd rfl hverb
        · rw [if_neg hauth]
          dsimp only
          rw [hidle hload' rest]
          refine ⟨by simp [signals], ?_, ?_⟩
          · rintro ⟨r, hr, hauth'⟩
            simp [received, requests] at hr
            subst hr
            simp [QNetworkReply.isAuthFailure, hauth] at hauth'
          · intro req r hreq hverb
            simp [requests] at hreq
            subst hreq
            exact absurd rfl hverb

theorem writeLog_updateIssueDescription (qt : Qt) (c : JiraClient) (k t : QString)
    (net : List QNetworkReply) : WriteLog (updateIssueDescription qt c k t net) net := by
  unfold updateIssueDescription
  split
  · exact writeLog_nil net
  · exact writeLog_handler _ net _ _ _

theorem writeLog_addComment (qt : Qt) (c : JiraClient) (k t : QString)
    (net : List QNetworkReply) : WriteLog (addComment qt c k t net) net := by
  unfold addComment
  split
  · exact writeLog_nil net
  · exact writeLog_handler _ net _ _ _

theorem writeLog_updateComment (qt : Qt) (c : JiraClient) (k i t : QString)
    (net : List QNetworkReply) : WriteLog (updateComment qt c k i t net) net := by
  unfold updateComment
  split
  · exact writeLog_nil net
  · exact writeLog_handler _ net _ _ _

theorem writeLog_updateDueDate (qt : Qt) (c : JiraClient) (k : QString) (d : Option QDate)
    (net : List QNetworkReply) : WriteLog (updateDueDate qt c k d net) net := by
  unfold updateDueDate
  split
  · exact writeLog_nil net
  · exact writeLog_handler _ net _ _ _

theorem writeLog_transitionIssue (qt : Qt) (c : JiraClient) (k t : QString)
    (net : List QNetworkReply) : WriteLog (transitionIssue qt c k t net) net := by
  unfold transitionIssue
  split
  · exact writeLog_nil net
  · exact writeLog_handler _ net _ _ _

theorem trimmed_trimmed (x : QString) : QString.trimmed (QString.trimmed x) = QString.trimmed x := by
  rw [trimmed_eq_self_iff]
  constructor
  · intro ch hch
    have hne : QString.trimmed x ≠ [] := by
      intro h; rw [h] at hch; cases hch
    rw [List.head?_eq_head hne] at hch
    simp only [Option.some.injEq] at hch
    have hpre : QString.trimmed x <+: x.dropWhile QChar.isSpace := List.rdropWhile_prefix _ _
    rw [← hch, hpre.head hne]
    exact List.head_dropWhile_not _ _ _
  · intro ch hch
    have hne : QString.trimmed x ≠ [] := by
      intro h; rw [h] at hch; cases hch
    rw [List.getLast?_eq_getLast _ hne] at hch
    simp only [Option.some.injEq] at hch
    have := List.rdropWhile_last_not (p := QChar.isSpace) (l := x.dropWhile QChar.isSpace) hne
    rw [← hch]
    simpa using this

theorem signals_updateAssignee_put (qt : Qt) (c : JiraClient) (k trimmed resolved : QString)
    (net : List QNetworkReply) :
    WriteLog (let accountId : QString :=
        if !trimmed.isEmpty then (if resolved.isEmpty then trimmed else resolved) else []
      let url : QUrl :=
        ⟨c.m_basePlatform ++ ("/issue/" : QString) ++ qt.toPercentEncoding k
          ++ ("/assignee" : QString), []⟩
      let payload :=
        if !accountId.isEmpty then QJsonObject.insert [] "accountId" (.String accountId)
        else QJsonObject.insert [] "accountId" .Null
      Effect.send ⟨.PUT, url, .Object payload⟩ ::
        match net with
        | [] => []
        | reply :: _ =>
          let err := reply.error
          let errStr := reply.errorString
          if err ≠ .NoError then
            if isAuthError reply err then
              [.emit (.authenticationRequired
                "Jira authentication failed while updating the assignee. Please configure your API token.")]
            else [.emit (.operationFailed "UpdateAssignee" errStr)]
          else [.emit (.operationSucceeded "Assignee updated")]) net :=
  writeLog_handler _ net _ _ _

theorem writeLog_updateAssignee (qt : Qt) (c : JiraClient) (k a : QString)
    (net : List QNetworkReply) (h : lookupFails (.updateAssignee k a) net = false) :
    WriteLog (updateAssignee qt c k a net) net := by
  unfold updateAssignee
  split
  · exact writeLog_nil net
  · rename_i hk
    dsimp only
    unfold resolveUserAccountId
    rw [trimmed_trimmed]
    split
    · exact signals_updateAssignee_put qt c k _ _ net
    · rename_i ha
      cases net with
      | nil => exact writeLog_pending _
      | cons r0 rest =>
        have herr : r0.error = .NoError := by
          by_contra hne
          have hfail : lookupFails (.updateAssignee k a) (r0 :: rest) = true := by
            simp only [lookupFails, Bool.and_eq_true, Bool.not_eq_true', bne_iff_ne, ne_eq]
            exact ⟨⟨by simpa using hk, by simpa using ha⟩, hne⟩
          rw [hfail] at h
          cases h
        dsimp only
        rw [if_neg (by simp [herr])]
        split
        · exact writeLog_after_request _ r0 _ rest
            (by simp [QNetworkReply.isAuthFailure, herr])
            (signals_updateAssignee_put qt c k _ _ rest) (fun h => by simp [requests] at h)
        · exact writeLog_after_request _ r0 _ rest
            (by simp [QNetworkReply.isAuthFailure, herr])
            (signals_updateAssignee_put qt c k _ _ rest) (fun h => by simp [requests] at h)

theorem signals_updateAssignee_lookup_failed (qt : Qt) (c : JiraClient) (k a : QString)
    (r0 : QNetworkReply) (rest : List QNetworkReply)
    (hk : (QString.trimmed k).isEmpty = false) (ha : (QString.trimmed a).isEmpty = false)
    (herr : r0.error ≠ .NoError) :
    signals (updateAssignee qt c k a (r0 :: rest))
      = lookupFailureSignal r0 :: (rest.head?.map assigneeWriteSignal).toList := by
  unfold updateAssignee
  rw [if_neg (by simp [hk])]
  dsimp only
  unfold resolveUserAccountId
  rw [trimmed_trimmed, if_neg (by simp [ha])]
  dsimp only
  rw [if_pos herr]
  unfold lookupFailureSignal assigneeWriteSignal
  by_cases hauth : isAuthError r0 r0.error = true
  · rw [if_pos hauth, if_pos hauth]
    cases rest with
    | nil => rfl
    | cons r1 rest =>
      simp only [signals, List.head?_cons, Option.map_some', Option.toList_some]
      by_cases h1 : r1.error = .NoError
      · simp [h1, signals]
      · by_cases h2 : isAuthError r1 r1.error = true
        · simp [h1, h2, signals]
        · simp [h1, h2, signals]
  · rw [if_neg hauth, if_neg hauth]
    cases rest with
    | nil => rfl
    | cons r1 rest =>
      simp only [signals, List.head?_cons, Option.map_some', Option.toList_some]
      by_cases h1 : r1.error = .NoError
      · simp [h1, signals]
      · by_cases h2 : isAuthError r1 r1.error = true
        · simp [h1, h2, signals]
        · simp [h1, h2, signals]

/-! ## Pagination, the field-metadata cache and reply classification -/

theorem requests_cons_send (r : Request) (log : List Effect) :
    requests (.send r :: log) = r :: requests log := rfl

theorem isAuthFailure_iff (f : QNetworkReply) :
    f.isAuthFailure = true ↔ f.error ≠ .NoError ∧ isAuthError f f.error = true := by
  simp [QNetworkReply.isAuthFailure]

theorem boards_auth (c : JiraClient) (type : QString) (all : List QJsonObject)
    (o : Int) (f : QNetworkReply) (net : List QNetworkReply) (h : f.isAuthFailure = true) :
    getAllBoards.fetch c type all o (f :: net)
      = ([.send (boardsRequest c type o), .emit (.authenticationRequired
          "Jira authentication failed while loading boards. Please configure your API token.")],
        some []) := by
  obtain ⟨herr, hauth⟩ := (isAuthFailure_iff f).mp h
  rw [getAllBoards.fetch]
  simp only [if_pos herr, if_pos hauth]

theorem boards_generic (c : JiraClient) (type : QString) (all : List QJsonObject)
    (o : Int) (f : QNetworkReply) (net : List QNetworkReply) (h : f.FailsGeneric) :
    ∃ e, getAllBoards.fetch c type all o (f :: net)
      = ([.send (boardsRequest c type o), .emit (.operationFailed "GetAllBoards" e)],
        some all) := by
  rw [getAllBoards.fetch]
  rcases h with ⟨herr, hauth⟩ | ⟨herr, hbody⟩
  · exact ⟨f.errorString, by simp only [if_pos herr, hauth, Bool.false_eq_true, if_false]⟩
  · exact ⟨("Unexpected JSON (expected object)" : QString), by
      simp only [herr, ne_eq, not_true_eq_false, if_false, hbody, Bool.not_false, if_true]⟩

theorem boardSprints_auth (c : JiraClient) (boardId : Int) (state : QString)
    (all : List QJsonObject) (o : Int) (f : QNetworkReply) (net : List QNetworkReply)
    (h : f.isAuthFailure = true) :
    getBoardSprints.fetch c boardId state all o (f :: net)
      = ([.send (boardSprintsRequest c boardId state o), .emit (.authenticationRequired
          "Jira authentication failed while loading sprints. Please configure your API token.")],
        some []) := by
  obtain ⟨herr, hauth⟩ := (isAuthFailure_iff f).mp h
  rw [getBoardSprints.fetch]
  simp only [if_pos herr, if_pos hauth]

theorem boardSprints_generic (c : JiraClient) (boardId : Int) (state : QString)
    (all : List QJsonObject) (o : Int) (f : QNetworkReply) (net : List QNetworkReply)
    (h : f.FailsGeneric) :
    ∃ e, getBoardSprints.fetch c boardId state all o (f :: net)
      = ([.send (boardSprintsRequest c boardId state o),
          .emit (.operationFailed "GetBoardSprints" e)], some all) := by
  rw [getBoardSprints.fetch]
  rcases h with ⟨herr, hauth⟩ | ⟨herr, hbody⟩
  · exact ⟨f.errorString, by simp only [if_pos herr, hauth, Bool.false_eq_true, if_false]⟩
  · exact ⟨("Unexpected JSON (expected object)" : QString), by
      simp only [herr, ne_eq, not_true_eq_false, if_false, hbody, Bool.not_false, if_true]⟩

theorem toObject_Object (o : QJsonObject) : (QJsonValue.Object o).toObject = o := rfl

/-- One successful page of boards or of board sprints at offset `o`, in the shape of the
source: the values are appended; the fetch ends when `isLast` is true or the page is
empty, and otherwise goes on at offset `o + n`, by a call that copies the destroyed
`fetch`. -/
theorem boards_page (c : JiraClient) (type : QString) (all : List QJsonObject) (o : Int)
    (r : QNetworkReply) (net : List QNetworkReply) (root : QJsonObject)
    (herr : r.error = .NoError) (hbody : r.body = .Object root) :
    getAllBoards.fetch c type all o (r :: net)
      = (let values := (QJsonObject.value root "values").toArray
         let all' := all ++ values.map QJsonValue.toObject
         if (QJsonObject.value root "isLast").toBool false || values.isEmpty then
           ([.send (boardsRequest c type o)], some all')
         else
           (.send (boardsRequest c type o)
              :: fromHandler (getAllBoards.fetch c type all' (o + values.length) net).1,
            (getAllBoards.fetch c type all' (o + values.length) net).2)) := by
  rw [getAllBoards.fetch]
  simp only [herr, ne_eq, not_true_eq_false, if_false, hbody, QJsonValue.isObject,
    Bool.not_true, Bool.false_eq_true, toObject_Object, foldl_toObject]

theorem boardSprints_page (c : JiraClient) (boardId : Int) (state : QString)
    (all : List QJsonObject) (o : Int)
    (r : QNetworkReply) (net : List QNetworkReply) (root : QJsonObject)
    (herr : r.error = .NoError) (hbody : r.body = .Object root) :
    getBoardSprints.fetch c boardId state all o (r :: net)
      = (let values := (QJsonObject.value root "values").toArray
         let all' := all ++ values.map QJsonValue.toObject
         if (QJsonObject.value root "isLast").toBool false || values.isEmpty then
           ([.send (boardSprintsRequest c boardId state o)], some all')
         else
           (.send (boardSprintsRequest c boardId state o)
              :: fromHandler (getBoardSprints.fetch c boardId state all' (o + values.length) net).1,
            (getBoardSprints.fetch c boardId state all' (o + values.length) net).2)) := by
  rw [getBoardSprints.fetch]
  simp only [herr, ne_eq, not_true_eq_false, if_false, hbody, QJsonValue.isObject,
    Bool.not_true, Bool.false_eq_true, toObject_Object, foldl_toObject]

/-- Claim C20 fails on the sprint-issue fetch: an issue whose response carries no sprint
value is delivered by `getIssuesForSprint` with the sprint name "This Sprint". -/
theorem sprintIssue_default_counterexample :
    signals (getIssuesForSprint JiraClient.new 5 [bareIssuePage])
        = [.sprintIssuesReady [⟨"PROJ-1", "Fix login", [], "This Sprint"⟩]]
      ∧ (getIssuesForSprint.ticket (.Object [(("key" : QString), .String "PROJ-1"),
          (("fields" : QString), .Object [(("sprint" : QString), .Null)])])).sprint
        = ("This Sprint" : QString)
      ∧ (getIssuesForSprint.ticket (.Object [(("key" : QString), .String "PROJ-1"),
          (("fields" : QString), .Object [(("sprint" : QString), .Array [])])])).sprint
        = ("This Sprint" : QString) := by
  refine ⟨?_, ?_, ?_⟩ <;> decide

/-- Claim C20, amended.  A ticket of the ticket search (`getMyTickets`) has the sprint name
"No Sprint" whenever the issue carries no sprint value: the sprint field id is unresolved,
or the issue's fields lack the sprint field, or hold null or an empty array under it.  A
ticket of the sprint-issue fetch (`getIssuesForSprint`) has the sprint name "This Sprint"
whenever the `sprint` field of the issue is absent, null or an array (any value that is no
object). -/
theorem ticket_default_sprint (c : JiraClient) (v : QJsonValue)
    (h : c.m_sprintFieldId = []
      ∨ QJsonObject.contains (QJsonObject.value v.toObject "fields").toObject
          c.m_sprintFieldId = false
      ∨ QJsonObject.value (QJsonObject.value v.toObject "fields").toObject
          c.m_sprintFieldId = .Null
      ∨ QJsonObject.value (QJsonObject.value v.toObject "fields").toObject
          c.m_sprintFieldId = .Array []) :
    (getMyTickets.ticket c v).sprint = ("No Sprint" : QString)
      ∧ ((QJsonObject.value (QJsonObject.value v.toObject "fields").toObject "sprint").isObject
            = false →
          (getIssuesForSprint.ticket v).sprint = ("This Sprint" : QString)) := by
  refine ⟨?_, ?_⟩
  · unfold getMyTickets.ticket
    rcases h with h | h | h | h
    · simp only [h, List.isEmpty_nil, Bool.not_true, Bool.false_and, Bool.false_eq_true,
        if_false]
    · simp only [h, Bool.and_false, Bool.false_eq_true, if_false]
    · simp only [h, QJsonValue.isArray, QJsonValue.isObject, QJsonValue.isString,
        Bool.false_and, Bool.false_eq_true, if_false, ite_self]
    · simp only [h, QJsonValue.isArray, QJsonValue.isObject, QJsonValue.isString,
        QJsonValue.toArray, List.isEmpty_nil, Bool.not_true, Bool.and_false,
        Bool.false_eq_true, if_false, ite_self]
  · intro hno
    unfold getIssuesForSprint.ticket
    simp only [hno, Bool.false_eq_true, if_false]

theorem ticket_default_sprint_witness :
    (getMyTickets.ticket loadedClient bareIssue).sprint = ("No Sprint" : QString)
      ∧ (getIssuesForSprint.ticket bareIssue).sprint = ("This Sprint" : QString) :=
  ⟨(ticket_default_sprint loadedClient bareIssue (Or.inr (Or.inl rfl))).1,
   (ticket_default_sprint loadedClient bareIssue (Or.inr (Or.inl rfl))).2 rfl⟩

/-- Claim C19.  For a non-blank issue key, the account id in the payload of the assignee
write of `updateAssignee` is: null when the trimmed input is empty, and then the write is
the only request (no lookup is made); otherwise the lookup is requested with the trimmed
input and, once it is answered, the write carries the `accountId` of the first element of
the lookup response when that is a non-empty string, and the trimmed input itself when the
lookup fails or returns nothing. -/
theorem updateAssignee_account_id (qt : Qt) (c : JiraClient) (issueKey input : QString)
    (hkey : QString.trimmed issueKey ≠ []) :
    (QString.trimmed input = [] → ∀ net,
        requests (updateAssignee qt c issueKey input net)
          = [assigneeRequest qt c issueKey .Null])
      ∧ (QString.trimmed input ≠ [] →
          requests (updateAssignee qt c issueKey input [])
              = [lookupRequest c (QString.trimmed input)]
            ∧ ∀ r net,
              requests (updateAssignee qt c issueKey input (r :: net))
                = [lookupRequest c (QString.trimmed input),
                    assigneeRequest qt c issueKey (.String
                      (if lookupAccountId r = [] then QString.trimmed input
                       else lookupAccountId r))]) := by
  have hk : (QString.trimmed issueKey).isEmpty = false := by
    cases h : QString.trimmed issueKey with
    | nil => exact absurd h hkey
    | cons a t => rfl
  refine ⟨?_, ?_⟩
  · intro hin net
    unfold updateAssignee resolveUserAccountId
    have ht : QString.trimmed ([] : QString) = [] := rfl
    simp only [hk, Bool.false_eq_true, if_false, hin, ht, List.isEmpty_nil,
      if_true, Bool.not_true, requests_cons_send]
    cases net with
    | nil => rfl
    | cons r2 net2 => simp only []; split_ifs <;> rfl
  · intro hin
    have hi : (QString.trimmed input).isEmpty = false := by
      cases h : QString.trimmed input with
      | nil => exact absurd h hin
      | cons a t => rfl
    refine ⟨?_, ?_⟩
    · unfold updateAssignee resolveUserAccountId
      simp only [hk, Bool.false_eq_true, if_false, trimmed_trimmed, hi]
      rfl
    · intro r net
      unfold updateAssignee resolveUserAccountId lookupAccountId
      simp only [hk, Bool.false_eq_true, if_false, trimmed_trimmed, hi, Bool.not_false,
        if_true, requests_cons_send]
      by_cases herr : r.error = .NoError
      · simp only [herr, ne_eq, not_true_eq_false, if_false, if_true]
        cases hb : r.body with
        | Array arr =>
          cases arr with
          | nil =>
            simp only [QJsonValue.isArray, QJsonValue.toArray, List.isEmpty_nil, Bool.not_true,
              Bool.or_true, if_true, hi, Bool.not_false, requests_cons_send]
            cases net with
            | nil => rfl
            | cons r2 net2 => simp only []; split_ifs <;> rfl
          | cons first rest =>
            simp only [QJsonValue.isArray, QJsonValue.toArray, List.isEmpty_cons, Bool.not_true,
              Bool.or_false, Bool.false_eq_true, if_false, List.headD_cons]
            cases hid : (QJsonObject.value first.toObject "accountId").toString with
            | nil =>
              simp only [List.isEmpty_nil, if_true, hi, Bool.not_false, requests_cons_send]
              cases net with
              | nil => rfl
              | cons r2 net2 => simp only []; split_ifs <;> rfl
            | cons a t =>
              simp only [List.isEmpty_cons, Bool.false_eq_true, if_false, Bool.not_false,
                if_true, reduceCtorEq, requests_cons_send]
              cases net with
              | nil => rfl
              | cons r2 net2 => simp only []; split_ifs <;> rfl
        | _ =>
          simp only [QJsonValue.isArray, Bool.not_false, Bool.true_or, if_true,
            List.isEmpty_nil, hi, requests_cons_send]
          cases net with
          | nil => rfl
          | cons r2 net2 => simp only []; split_ifs <;> rfl
      · simp only [herr, ne_eq, not_false_eq_true, if_true, if_false]
        by_cases hauth : isAuthError r r.error = true
        · simp only [hauth, if_true, requests, List.isEmpty_nil, hi, Bool.not_false]
          cases net with
          | nil => rfl
          | cons r2 net2 => simp only []; split_ifs <;> rfl
        · simp only [hauth, Bool.false_eq_true, if_false, requests, List.isEmpty_nil, if_true, hi,
            Bool.not_false]
          cases net with
          | nil => rfl
          | cons r2 net2 => simp only []; split_ifs <;> rfl

theorem finished_eq (qt : Qt) (c : JiraClient) (reply : QNetworkReply)
    (net : List QNetworkReply) (h : c.m_fieldMetadataLoaded = false) :
    (ensureFieldMetadata qt c (reply :: net) (fun c _ => (c, []))).1
      = ensureFieldMetadata.finished qt c reply := by
  unfold ensureFieldMetadata ensureFieldMetadata.interleaved ensureFieldMetadata.finished
  simp only [h, Bool.false_eq_true, if_false]
  split_ifs <;> rfl

theorem finished_wf (qt : Qt) (c : JiraClient) (reply : QNetworkReply) (h : c.wf) :
    (ensureFieldMetadata.finished qt c reply).wf := by
  unfold ensureFieldMetadata.finished
  split_ifs
  · exact h
  · exact h
  · intro hl
    cases hl

/-- The state after `ensureFieldMetadata` whose continuation leaves the state alone. -/
theorem ensureFieldMetadata_state (qt : Qt) (c : JiraClient) (net : List QNetworkReply)
    (cont : JiraClient → List QNetworkReply → JiraClient × List Effect)
    (hcont : ∀ c net, (cont c net).1 = c) :
    (ensureFieldMetadata qt c net cont).1 = c
      ∨ ∃ reply, (ensureFieldMetadata qt c net cont).1 = ensureFieldMetadata.finished qt c reply := by
  unfold ensureFieldMetadata ensureFieldMetadata.interleaved
  by_cases hl : c.m_fieldMetadataLoaded = true
  · simp only [hl, if_true]
    exact Or.inl (hcont _ _)
  · simp only [hl, Bool.false_eq_true, if_false]
    cases net with
    | nil => exact Or.inl rfl
    | cons reply net =>
      refine Or.inr ⟨reply, ?_⟩
      unfold ensureFieldMetadata.finished
      simp only []
      split_ifs <;> simp only [hcont]

theorem run_state (qt : Qt) (c : JiraClient) (op : CacheOp) (net : List QNetworkReply) :
    (op.run qt c net).1 = c
      ∨ ∃ reply, (op.run qt c net).1 = ensureFieldMetadata.finished qt c reply := by
  cases op with
  | getMyTickets =>
    simp only [CacheOp.run]
    unfold JiraExplorer.getMyTickets
    exact ensureFieldMetadata_state qt c net _ (fun _ _ => rfl)
  | getIssueFieldSnapshot k =>
    simp only [CacheOp.run]
    unfold JiraExplorer.getIssueFieldSnapshot
    by_cases hk : (QString.trimmed k).isEmpty = true
    · rw [if_pos hk]; exact Or.inl rfl
    · rw [if_neg hk]; exact ensureFieldMetadata_state qt c net _ (fun _ _ => rfl)
  | updateStoryPoints k p =>
    simp only [CacheOp.run]
    unfold JiraExplorer.updateStoryPoints
    by_cases hk : (QString.trimmed k).isEmpty = true
    · rw [if_pos hk]; exact Or.inl rfl
    · rw [if_neg hk]
      exact ensureFieldMetadata_state qt c net _ (fun c net => by split_ifs <;> rfl)
  | updateSprint k s =>
    simp only [CacheOp.run]
    unfold JiraExplorer.updateSprint
    by_cases hk : (QString.trimmed k).isEmpty = true
    · rw [if_pos hk]; exact Or.inl rfl
    · rw [if_neg hk]
      exact ensureFieldMetadata_state qt c net _ (fun c net => by split_ifs <;> rfl)

theorem run_wf (qt : Qt) (c : JiraClient) (op : CacheOp) (net : List QNetworkReply)
    (h : c.wf) : (op.run qt c net).1.wf := by
  rcases run_state qt c op net with h1 | ⟨reply, h1⟩
  · rw [h1]; exact h
  · rw [h1]; exact finished_wf qt c reply h

/-- Claim C16.  In every state reachable from the fresh client through `configure`, the
completions of the catalog read of `ensureFieldMetadata` (success, AuthFailure or
GenericFailure, whenever they arrive) and the operations that use the cache: if the loaded
flag is false then the sprint field id and the story-points field id are both empty; so an
id is non-empty only when the flag is set, which only the handler of a successful load
does. -/
theorem cache_invariant (qt : Qt) (c : JiraClient) (h : Reachable qt c) :
    (c.m_fieldMetadataLoaded = false → c.m_sprintFieldId = [] ∧ c.m_storyPointsFieldId = [])
      ∧ (c.m_sprintFieldId ≠ [] ∨ c.m_storyPointsFieldId ≠ [] → c.m_fieldMetadataLoaded = true)
      ∧ ∀ reply,
          ((ensureFieldMetadata.finished qt c reply).m_fieldMetadataLoaded = true ↔
            c.m_fieldMetadataLoaded = true
              ∨ (reply.error = .NoError ∧ reply.body.isArray = true))
          ∧ (c.m_fieldMetadataLoaded = false →
              ∀ net, (ensureFieldMetadata qt c (reply :: net) (fun c _ => (c, []))).1
                = ensureFieldMetadata.finished qt c reply) := by
  have hwf : c.wf := by
    induction h with
    | new => intro _; exact ⟨rfl, rfl⟩
    | configure c u n t _ _ => intro _; exact ⟨rfl, rfl⟩
    | finished c reply _ ih => exact finished_wf qt c reply ih
    | run c op net _ ih => exact run_wf qt c op net ih
  refine ⟨hwf, ?_, ?_⟩
  · intro hne
    by_contra hl
    have hf : c.m_fieldMetadataLoaded = false := by
      cases hc : c.m_fieldMetadataLoaded with
      | true => exact absurd hc hl
      | false => rfl
    obtain ⟨h1, h2⟩ := hwf hf
    rcases hne with hne | hne
    · exact hne h1
    · exact hne h2
  · intro reply
    refine ⟨?_, fun hl net => finished_eq qt c reply net hl⟩
    unfold ensureFieldMetadata.finished
    by_cases herr : reply.error = .NoError
    · cases hb : reply.body.isArray
      · simp [herr, hb]
      · simp [herr, hb]
    · simp [herr]

/-- Claim C17.  When the cache is loaded, `ensureFieldMetadata` is its continuation run once
on the unchanged state and the whole reply script: it adds no request and no signal, and
with a continuation that does nothing the state and the log are untouched.  When the cache
is not loaded and the catalog read succeeds on a catalog that has no entry named Sprint or
Story Points, the continuation runs on the state marked loaded whose two ids are still
empty. -/
theorem ensureFieldMetadata_loaded (qt : Qt) (c : JiraClient) (net : List QNetworkReply)
    (cont : JiraClient → List QNetworkReply → JiraClient × List Effect) :
    (c.m_fieldMetadataLoaded = true →
        ensureFieldMetadata qt c net cont = cont c net
          ∧ ensureFieldMetadata qt c net (fun c _ => (c, [])) = (c, []))
      ∧ (c.m_fieldMetadataLoaded = false → c.wf →
          ∀ reply arr, reply.error = .NoError → reply.body = .Array arr →
            (∀ v ∈ arr, isNamed qt "Sprint" v = false ∧ isNamed qt "Story Points" v = false) →
            ∃ loaded : JiraClient,
              ensureFieldMetadata qt c (reply :: net) cont
                  = ((cont loaded net).1, .send (fieldCatalogRequest c) :: (cont loaded net).2)
                ∧ loaded = { c with m_fieldMetadataLoaded := true }
                ∧ loaded.m_fieldMetadataLoaded = true
                ∧ loaded.m_sprintFieldId = [] ∧ loaded.m_storyPointsFieldId = []) := by
  refine ⟨?_, ?_⟩
  · intro hl
    unfold ensureFieldMetadata ensureFieldMetadata.interleaved
    simp only [hl, if_true, and_self]
  · intro hl hwf reply arr herr hbody hnone
    obtain ⟨hs, hp⟩ := hwf hl
    have hlast : ∀ name, (∀ v ∈ arr, isNamed qt name v = false) → ∀ previous,
        lastFieldId qt name arr previous = previous := by
      intro name hn previous
      unfold lastFieldId
      rw [List.filter_eq_nil_iff.mpr (fun v hv => by simp [hn v hv])]
      rfl
    have hfold : arr.foldl (scanField qt) c = c := by
      rw [foldl_scanField, hlast "Sprint" (fun v hv => (hnone v hv).1),
        hlast "Story Points" (fun v hv => (hnone v hv).2)]
    refine ⟨{ c with m_fieldMetadataLoaded := true }, ?_, rfl, rfl, hs, hp⟩
    unfold ensureFieldMetadata ensureFieldMetadata.interleaved
    simp only [hl, Bool.false_eq_true, if_false, herr, ne_eq, not_true_eq_false, hbody,
      QJsonValue.isArray, Bool.not_true, QJsonValue.toArray, hfold]
    rfl

theorem catalogReads_nil (c : JiraClient) : catalogReads c [] = 0 := rfl

theorem catalogReads_emit (c : JiraClient) (s : Signal) (log : List Effect) :
    catalogReads c (.emit s :: log) = catalogReads c log := rfl

theorem catalogReads_send (c : JiraClient) (r : Request) (log : List Effect) :
    catalogReads c (.send r :: log)
      = (if Request.isCatalogRead c r then 1 else 0) + catalogReads c log := by
  unfold catalogReads
  rw [requests_cons_send, List.filter_cons]
  split_ifs <;> simp [Nat.add_comm]

theorem catalogReads_fromHandler (c : JiraClient) (log : List Effect) :
    catalogReads c (fromHandler log) = catalogReads c log := by
  unfold catalogReads
  rw [requests_fromHandler]

theorem catalogReads_append (c : JiraClient) (l1 l2 : List Effect) :
    catalogReads c (l1 ++ l2) = catalogReads c l1 + catalogReads c l2 := by
  unfold catalogReads
  rw [requests_append, List.filter_append, List.length_append]

theorem isCatalogRead_catalog (c : JiraClient) :
    Request.isCatalogRead c (fieldCatalogRequest c) = true := by
  simp [Request.isCatalogRead, fieldCatalogRequest]

theorem isCatalogRead_verb (c : JiraClient) (r : Request) (h : r.verb ≠ .GET) :
    Request.isCatalogRead c r = false := by
  simp [Request.isCatalogRead, h]

theorem isCatalogRead_issue (c c' : JiraClient) (r : Request) (rest : QString)
    (hb : c'.m_basePlatform = c.m_basePlatform)
    (h : r.url.path = c'.m_basePlatform ++ ("/issue/" : QString) ++ rest) :
    Request.isCatalogRead c r = false := by
  simp only [Request.isCatalogRead, Bool.and_eq_false_iff]
  right
  rw [h, hb, List.append_assoc]
  simp

theorem catalogReads_fetchPage (c c' : JiraClient) (all : List JiraTicket) (token : QString)
    (net : List QNetworkReply) :
    catalogReads c (getMyTickets.fetchPage c' all token net) = 0 := by
  induction net generalizing all token with
  | nil =>
    rw [getMyTickets.fetchPage, catalogReads_send,
      isCatalogRead_verb c _ (by simp [searchRequest])]
    rfl
  | cons r net ih =>
    rw [getMyTickets.fetchPage, catalogReads_send,
      isCatalogRead_verb c _ (by simp [searchRequest])]
    simp only [Bool.false_eq_true, if_false, Nat.zero_add]
    split_ifs
    · rfl
    · rfl
    · rfl
    · rw [catalogReads_append, catalogReads_fromHandler, ih]
      rfl
    · rfl
    · rw [catalogReads_append, catalogReads_fromHandler, ih]
      rfl
    · rfl

theorem scan_base (qt : Qt) (arr : QJsonArray) (c : JiraClient) :
    (arr.foldl (scanField qt) c).m_basePlatform = c.m_basePlatform := by
  rw [foldl_scanField]

theorem catalogReads_ensure (qt : Qt) (c : JiraClient) (net : List QNetworkReply)
    (cont : JiraClient → List QNetworkReply → JiraClient × List Effect)
    (hcont : ∀ c' net', c'.m_basePlatform = c.m_basePlatform →
      catalogReads c (cont c' net').2 = 0) :
    catalogReads c (ensureFieldMetadata qt c net cont).2
      = if c.m_fieldMetadataLoaded then 0 else 1 := by
  unfold ensureFieldMetadata ensureFieldMetadata.interleaved
  by_cases hl : c.m_fieldMetadataLoaded = true
  · simp only [hl, if_true]
    exact hcont c net rfl
  · simp only [hl, Bool.false_eq_true, if_false]
    have hget : ∀ log, catalogReads c (Effect.send
        ⟨.GET, ⟨c.m_basePlatform ++ ("/field" : QString), []⟩, .Undefined⟩ :: log)
        = 1 + catalogReads c log := by
      intro log
      rw [catalogReads_send]
      have := isCatalogRead_catalog c
      unfold fieldCatalogRequest at this
      rw [this]
      rfl
    cases net with
    | nil => exact hget []
    | cons reply net =>
      simp only []
      split_ifs
      · exact hget _
      · rw [hget, catalogReads_emit, hcont c net rfl]
      · rw [hget, catalogReads_emit, hcont c net rfl]
      · rw [hget]
        refine congrArg (fun n => 1 + n) (hcont _ net ?_)
        exact scan_base qt _ c

theorem catalogReads_run (qt : Qt) (c : JiraClient) (op : CacheOp) (net : List QNetworkReply) :
    catalogReads c (op.run qt c net).2
      = if op.resolves && !c.m_fieldMetadataLoaded then 1 else 0 := by
  have hite : ∀ b : Bool, (if b then 0 else 1) = if (true && !b) = true then 1 else 0 := by
    intro b; cases b <;> rfl
  cases op with
  | getMyTickets =>
    simp only [CacheOp.run, CacheOp.resolves]
    unfold JiraExplorer.getMyTickets
    rw [catalogReads_ensure qt c net _ (fun c' net' _ => catalogReads_fetchPage c c' [] [] net')]
    exact hite _
  | getIssueFieldSnapshot k =>
    simp only [CacheOp.run, CacheOp.resolves]
    unfold JiraExplorer.getIssueFieldSnapshot
    by_cases hk : (QString.trimmed k).isEmpty = true
    · simp only [hk, if_true, Bool.not_true, Bool.false_and, Bool.false_eq_true, if_false]
      rfl
    · rw [if_neg hk, catalogReads_ensure qt c net _ (fun c' net' hb => by
        simp only []
        rw [catalogReads_send, isCatalogRead_issue c c' _ (qt.toPercentEncoding k) hb rfl]
        simp only [Bool.false_eq_true, if_false, Nat.zero_add]
        cases net' with
        | nil => rfl
        | cons r n => simp only []; split_ifs <;> rfl)]
      simp only [Bool.not_eq_true] at hk
      simp only [hk, Bool.not_false]
      exact hite _
  | updateStoryPoints k p =>
    simp only [CacheOp.run, CacheOp.resolves]
    unfold JiraExplorer.updateStoryPoints
    by_cases hk : (QString.trimmed k).isEmpty = true
    · simp only [hk, if_true, Bool.not_true, Bool.false_and, Bool.false_eq_true, if_false]
      rfl
    · rw [if_neg hk, catalogReads_ensure qt c net _ (fun c' net' hb => by
        simp only []
        split_ifs
        · rfl
        · rw [catalogReads_send, isCatalogRead_verb c _ (by simp)]
          simp only [Bool.false_eq_true, if_false, Nat.zero_add]
          cases net' with
          | nil => rfl
          | cons r n => simp only []; split_ifs <;> rfl)]
      simp only [Bool.not_eq_true] at hk
      simp only [hk, Bool.not_false]
      exact hite _
  | updateSprint k s =>
    simp only [CacheOp.run, CacheOp.resolves]
    unfold JiraExplorer.updateSprint
    by_cases hk : (QString.trimmed k).isEmpty = true
    · simp only [hk, if_true, Bool.not_true, Bool.false_and, Bool.false_eq_true, if_false]
      rfl
    · rw [if_neg hk, catalogReads_ensure qt c net _ (fun c' net' hb => by
        simp only []
        split_ifs
        · rfl
        · rw [catalogReads_send, isCatalogRead_verb c _ (by simp)]
          simp only [Bool.false_eq_true, if_false, Nat.zero_add]
          cases net' with
          | nil => rfl
          | cons r n => simp only []; split_ifs <;> rfl)]
      simp only [Bool.not_eq_true] at hk
      simp only [hk, Bool.not_false]
      exact hite _

theorem finished_base (qt : Qt) (c : JiraClient) (reply : QNetworkReply) :
    (ensureFieldMetadata.finished qt c reply).m_basePlatform = c.m_basePlatform := by
  unfold ensureFieldMetadata.finished
  split_ifs
  · rfl
  · rfl
  · exact scan_base qt _ c

theorem finished_loaded (qt : Qt) (c : JiraClient) (reply : QNetworkReply)
    (h : c.m_fieldMetadataLoaded = true) :
    (ensureFieldMetadata.finished qt c reply).m_fieldMetadataLoaded = true := by
  unfold ensureFieldMetadata.finished
  split_ifs
  · exact h
  · exact h
  · rfl

theorem run_base (qt : Qt) (c : JiraClient) (op : CacheOp) (net : List QNetworkReply) :
    (op.run qt c net).1.m_basePlatform = c.m_basePlatform := by
  rcases run_state qt c op net with h | ⟨reply, h⟩
  · rw [h]
  · rw [h, finished_base]

theorem run_loaded (qt : Qt) (c : JiraClient) (op : CacheOp) (net : List QNetworkReply)
    (hl : c.m_fieldMetadataLoaded = true) : (op.run qt c net).1.m_fieldMetadataLoaded = true := by
  rcases run_state qt c op net with h | ⟨reply, h⟩
  · rw [h]; exact hl
  · rw [h]; exact finished_loaded qt c reply hl

theorem catalogReads_base (c c' : JiraClient) (h : c'.m_basePlatform = c.m_basePlatform)
    (log : List Effect) : catalogReads c' log = catalogReads c log := by
  unfold catalogReads Request.isCatalogRead
  rw [h]

theorem catalogReads_runOps (qt : Qt) (c : JiraClient)
    (ops : List (CacheOp × List QNetworkReply)) :
    catalogReads c (runOps qt c ops).2 = unloadedCalls qt c ops := by
  induction ops generalizing c with
  | nil => rfl
  | cons o ops ih =>
    obtain ⟨op, net⟩ := o
    simp only [runOps, unloadedCalls]
    rw [catalogReads_append, catalogReads_run,
      ← catalogReads_base c _ (run_base qt c op net), ih]

theorem unloadedCalls_loaded (qt : Qt) (c : JiraClient)
    (ops : List (CacheOp × List QNetworkReply)) (hl : c.m_fieldMetadataLoaded = true) :
    unloadedCalls qt c ops = 0 ∧ (runOps qt c ops).1.m_fieldMetadataLoaded = true := by
  induction ops generalizing c with
  | nil => exact ⟨rfl, hl⟩
  | cons o ops ih =>
    obtain ⟨op, net⟩ := o
    simp only [runOps, unloadedCalls, hl, Bool.not_true, Bool.and_false, Bool.false_eq_true,
      if_false, Nat.zero_add]
    exact ih _ (run_loaded qt c op net hl)

theorem run_success (qt : Qt) (c : JiraClient) (op : CacheOp) (reply : QNetworkReply)
    (net : List QNetworkReply) (hop : op.resolves = true) (herr : reply.error = .NoError)
    (hbody : reply.body.isArray = true) :
    (op.run qt c (reply :: net)).1.m_fieldMetadataLoaded = true := by
  by_cases hl : c.m_fieldMetadataLoaded = true
  · exact run_loaded qt c op _ hl
  · have hstate : ∀ cont : JiraClient → List QNetworkReply → JiraClient × List Effect,
        (∀ c net, (cont c net).1 = c) →
        (ensureFieldMetadata qt c (reply :: net) cont).1.m_fieldMetadataLoaded = true := by
      intro cont hcont
      unfold ensureFieldMetadata ensureFieldMetadata.interleaved
      simp only [hl, Bool.false_eq_true, if_false, herr, ne_eq, not_true_eq_false, hbody,
        Bool.not_true, hcont]
    cases op with
    | getMyTickets =>
      simp only [CacheOp.run]
      unfold JiraExplorer.getMyTickets
      exact hstate _ (fun _ _ => rfl)
    | getIssueFieldSnapshot k =>
      simp only [CacheOp.resolves, Bool.not_eq_true', ] at hop
      simp only [CacheOp.run]
      unfold JiraExplorer.getIssueFieldSnapshot
      simp only [hop, Bool.false_eq_true, if_false]
      exact hstate _ (fun _ _ => rfl)
    | updateStoryPoints k p =>
      simp only [CacheOp.resolves, Bool.not_eq_true'] at hop
      simp only [CacheOp.run]
      unfold JiraExplorer.updateStoryPoints
      simp only [hop, Bool.false_eq_true, if_false]
      exact hstate _ (fun c net => by split_ifs <;> rfl)
    | updateSprint k s =>
      simp only [CacheOp.resolves, Bool.not_eq_true'] at hop
      simp only [CacheOp.run]
      unfold JiraExplorer.updateSprint
      simp only [hop, Bool.false_eq_true, if_false]
      exact hstate _ (fun c net => by split_ifs <;> rfl)

/-- Claim C18 fails: without any `configure` in between, an operation that follows a failed
catalog load requests the catalog again, and so does one called while the catalog read of
an earlier operation is still in flight. -/
theorem catalog_twice_counterexample :
    catalogReads sampleClient (runOps Qt.sample sampleClient
        [(.updateStoryPoints "PROJ-1" (some 3), [serverError]),
          (.updateSprint "PROJ-1" (some 7), [serverError])]).2 = 2
      ∧ catalogReads sampleClient (runOps Qt.sample sampleClient
        [(.getMyTickets, []), (.getMyTickets, [])]).2 = 2 := by
  decide

/-- Claim C18, amended.  Between two calls of `configure`, in every sequence of operations
and replies the number of catalog reads (GET /field) is the number of operations that call
`ensureFieldMetadata` while the loaded flag is false.  The flag is set by a successful
catalog load only, so once the cache is loaded no operation reads the catalog again and
the flag stays set; an operation called after a failed load, or while a first load is in
flight, does read it again.  A sequence that starts with a successful load therefore reads
the catalog exactly once. -/
theorem catalog_reads (qt : Qt) (c : JiraClient) (ops : List (CacheOp × List QNetworkReply)) :
    catalogReads c (runOps qt c ops).2 = unloadedCalls qt c ops
      ∧ (c.m_fieldMetadataLoaded = true →
          catalogReads c (runOps qt c ops).2 = 0
            ∧ (runOps qt c ops).1.m_fieldMetadataLoaded = true)
      ∧ (c.m_fieldMetadataLoaded = false →
          ∀ op reply net, op.resolves = true → reply.error = .NoError →
            reply.body.isArray = true →
            catalogReads c (runOps qt c ((op, reply :: net) :: ops)).2 = 1) := by
  refine ⟨catalogReads_runOps qt c ops, ?_, ?_⟩
  · intro hl
    rw [catalogReads_runOps]
    exact unloadedCalls_loaded qt c ops hl
  · intro hl op reply net hop herr hbody
    rw [catalogReads_runOps]
    simp only [unloadedCalls, hop, hl, Bool.not_false, Bool.and_self, if_true]
    rw [(unloadedCalls_loaded qt _ ops (run_success qt c op reply net hop herr hbody)).1]

theorem catalog_reads_witness :
    catalogReads loadedClient (runOps Qt.sample loadedClient
        [(.updateStoryPoints "PROJ-1" (some 3), [serverError]),
          (.updateSprint "PROJ-1" (some 7), [serverError]), (.getMyTickets, [])]).2 = 0
      ∧ catalogReads sampleClient (runOps Qt.sample sampleClient
        [(.getMyTickets, [okReply (.Array duplicateCatalog)]),
          (.updateSprint "PROJ-1" (some 7), [serverError]), (.getMyTickets, [])]).2 = 1 :=
  ⟨((catalog_reads Qt.sample loadedClient _).2.1 rfl).1,
   (catalog_reads Qt.sample sampleClient _).2.2 rfl .getMyTickets
     (okReply (.Array duplicateCatalog)) [] rfl rfl rfl⟩

theorem received_send_cons (q : Request) (T : List Effect) (r : QNetworkReply)
    (net : List QNetworkReply) : received (.send q :: T) (r :: net) = r :: received T net := rfl

theorem received_emit (s : Signal) (T : List Effect) (net : List QNetworkReply) :
    received (.emit s :: T) net = received T net := rfl

theorem received_nil (net : List QNetworkReply) : received [] net = [] := by
  unfold received
  rfl

theorem received_of_nil (T : List Effect) : received T [] = [] := by
  unfold received
  exact List.take_nil

theorem attributed_nil (net : List QNetworkReply) : Attributed [] net := by
  unfold Attributed
  rw [received_nil]
  exact ⟨rfl, Nat.le_refl _⟩

theorem attributed_send_nil (q : Request) : Attributed [.send q] [] := by
  unfold Attributed
  rw [received_of_nil]
  exact ⟨rfl, Nat.le_refl _⟩

theorem attributed_undefined (u : UndefinedBehaviour) (L : List Effect)
    (net : List QNetworkReply) (h : Attributed L net) : Attributed (.undefined u :: L) net := h

theorem attributed_fromHandler (L : List Effect) (net : List QNetworkReply)
    (h : Attributed L net) : Attributed (fromHandler L) net := by
  unfold Attributed authRequired operationFailures received at *
  rw [signals_fromHandler, requests_fromHandler]
  exact h

theorem attributed_quiet (s : Signal) (L : List Effect) (net : List QNetworkReply)
    (hs : s.isQuiet = true) (h : Attributed L net) : Attributed (.emit s :: L) net := by
  unfold Attributed authRequired operationFailures at *
  unfold Signal.isQuiet at hs
  simp only [Bool.and_eq_true, Bool.not_eq_true'] at hs
  rw [received_emit]
  simp only [signals, List.countP_cons, hs.1, hs.2, Bool.false_eq_true, if_false, Nat.add_zero]
  exact h

theorem authTail_emit (m : QString) (L : List Effect) (net : List QNetworkReply)
    (h : Attributed L net) : AuthTail (.emit (.authenticationRequired m) :: L) net := by
  unfold Attributed at h
  unfold AuthTail authRequired operationFailures at *
  rw [received_emit]
  simp only [signals, List.countP_cons, Signal.isAuthenticationRequired,
    Signal.isOperationFailed, if_true, Bool.false_eq_true, if_false, Nat.add_zero]
  exact ⟨by omega, h.2⟩

theorem otherTail_emit (ctx e : QString) (L : List Effect) (net : List QNetworkReply)
    (h : Attributed L net) : OtherTail (.emit (.operationFailed ctx e) :: L) net := by
  unfold Attributed at h
  unfold OtherTail authRequired operationFailures at *
  rw [received_emit]
  simp only [signals, List.countP_cons, Signal.isAuthenticationRequired,
    Signal.isOperationFailed, if_true, Bool.false_eq_true, if_false, Nat.add_zero]
  exact ⟨h.1, by omega⟩

theorem otherTail_of (L : List Effect) (net : List QNetworkReply) (h : Attributed L net) :
    OtherTail L net :=
  ⟨h.1, Nat.le_trans h.2 (Nat.le_add_left _ _)⟩

theorem attributed_auth (q : Request) (r : QNetworkReply) (net : List QNetworkReply)
    (T : List Effect) (hr : r.isAuthFailure = true) (h : AuthTail T net) :
    Attributed (.send q :: T) (r :: net) := by
  unfold AuthTail at h
  unfold Attributed authRequired operationFailures authFailures otherReplies at *
  rw [received_send_cons]
  simp only [signals, List.countP_cons, hr, if_true, Bool.not_true, Bool.false_eq_true, if_false]
  omega

theorem attributed_other (q : Request) (r : QNetworkReply) (net : List QNetworkReply)
    (T : List Effect) (hr : r.isAuthFailure = false) (h : OtherTail T net) :
    Attributed (.send q :: T) (r :: net) := by
  unfold OtherTail at h
  unfold Attributed authRequired operationFailures authFailures otherReplies at *
  rw [received_send_cons]
  simp only [signals, List.countP_cons, hr, if_true, Bool.not_false, Bool.false_eq_true, if_false]
  omega

/-- The cascade common to all handlers. -/
theorem attributed_cascade (q : Request) (r : QNetworkReply) (net : List QNetworkReply)
    (A F S : List Effect) (hA : AuthTail A net) (hF : OtherTail F net) (hS : OtherTail S net) :
    Attributed (.send q ::
      if r.error ≠ .NoError then (if isAuthError r r.error then A else F) else S)
      (r :: net) := by
  by_cases herr : r.error = .NoError
  · rw [if_neg (by simp [herr])]
    exact attributed_other q r net S (by simp [QNetworkReply.isAuthFailure, herr]) hS
  · rw [if_pos herr]
    by_cases hauth : isAuthError r r.error = true
    · rw [if_pos hauth]
      exact attributed_auth q r net A (by simp [QNetworkReply.isAuthFailure, herr, hauth]) hA
    · rw [if_neg hauth]
      exact attributed_other q r net F (by simp [QNetworkReply.isAuthFailure, hauth]) hF

/-- The handler of a single write request. -/
theorem attributed_write (q : Request) (net : List QNetworkReply) (m ctx ok : QString) :
    Attributed (.send q ::
      match net with
      | [] => []
      | reply :: _ =>
        if reply.error ≠ .NoError then
          if isAuthError reply reply.error then [.emit (.authenticationRequired m)]
          else [.emit (.operationFailed ctx reply.errorString)]
        else [.emit (.operationSucceeded ok)]) net := by
  cases net with
  | nil => exact attributed_send_nil q
  | cons r net =>
    exact attributed_cascade q r net _ _ _ (authTail_emit _ _ _ (attributed_nil _))
      (otherTail_emit _ _ _ _ (attributed_nil _))
      (otherTail_of _ _ (attributed_quiet _ _ _ rfl (attributed_nil _)))

theorem isAuthFailure_ok (r : QNetworkReply) (h : r.error = .NoError) :
    r.isAuthFailure = false := by
  simp [QNetworkReply.isAuthFailure, h]

theorem isAuthFailure_auth (r : QNetworkReply) (h : r.error ≠ .NoError)
    (ha : isAuthError r r.error = true) : r.isAuthFailure = true := by
  simp [QNetworkReply.isAuthFailure, h, ha]

theorem isAuthFailure_other (r : QNetworkReply) (ha : ¬ isAuthError r r.error = true) :
    r.isAuthFailure = false := by
  simp [QNetworkReply.isAuthFailure, ha]

theorem attributed_ensure (qt : Qt) (c : JiraClient) (net : List QNetworkReply)
    (cont : JiraClient → List QNetworkReply → JiraClient × List Effect)
    (hcont : ∀ c' net', Attributed (cont c' net').2 net') :
    Attributed (ensureFieldMetadata qt c net cont).2 net := by
  unfold ensureFieldMetadata ensureFieldMetadata.interleaved
  by_cases hl : c.m_fieldMetadataLoaded = true
  · simp only [hl, if_true]
    exact hcont c net
  · simp only [hl, Bool.false_eq_true, if_false]
    cases net with
    | nil => exact attributed_send_nil _
    | cons r net =>
      simp only []
      by_cases herr : r.error = .NoError
      · rw [if_neg (by simp [herr])]
        by_cases hb : r.body.isArray = true
        · rw [if_neg (by simp [hb])]
          exact attributed_other _ r net _ (isAuthFailure_ok r herr) (otherTail_of _ _ (hcont _ _))
        · rw [if_pos (by simpa using hb)]
          exact attributed_other _ r net _ (isAuthFailure_ok r herr)
            (otherTail_emit _ _ _ _ (hcont _ _))
      · rw [if_pos herr]
        by_cases hauth : isAuthError r r.error = true
        · rw [if_pos hauth]
          exact attributed_auth _ r net _ (isAuthFailure_auth r herr hauth)
            (authTail_emit _ _ _ (attributed_nil _))
        · rw [if_neg hauth]
          exact attributed_other _ r net _ (isAuthFailure_other r hauth)
            (otherTail_emit _ _ _ _ (hcont _ _))

theorem attributed_resolve (c : JiraClient) (query : QString) (net : List QNetworkReply)
    (cont : QString → List QNetworkReply → List Effect)
    (hcont : ∀ s net', Attributed (cont s net') net') :
    Attributed (resolveUserAccountId c query net cont) net := by
  unfold resolveUserAccountId
  by_cases hq : (QString.trimmed query).isEmpty = true
  · rw [if_pos hq]
    exact hcont _ _
  · rw [if_neg hq]
    cases net with
    | nil => exact attributed_send_nil _
    | cons r net =>
      exact attributed_cascade _ r net _ _ _ (authTail_emit _ _ _ (hcont _ _))
        (otherTail_emit _ _ _ _ (hcont _ _))
        (otherTail_of _ _ (by
          simp only []
          split_ifs
          · exact hcont _ _
          · exact hcont _ _))

theorem attributed_tickets (c : JiraClient) (all : List JiraTicket) (token : QString)
    (net : List QNetworkReply) : Attributed (getMyTickets.fetchPage c all token net) net := by
  induction net generalizing all token with
  | nil => exact attributed_send_nil _
  | cons r net ih =>
    rw [getMyTickets.fetchPage]
    exact attributed_cascade _ r net _ _ _
      (authTail_emit _ _ _ (attributed_quiet _ _ _ rfl (attributed_nil _)))
      (otherTail_emit _ _ _ _
        (attributed_undefined _ _ _ (attributed_quiet _ _ _ rfl (attributed_nil _))))
      (by
        simp only []
        split_ifs
        · exact otherTail_emit _ _ _ _
            (attributed_undefined _ _ _ (attributed_quiet _ _ _ rfl (attributed_nil _)))
        · exact otherTail_of _ _ (attributed_fromHandler _ _ (ih _ _))
        · exact otherTail_of _ _
            (attributed_undefined _ _ _ (attributed_quiet _ _ _ rfl (attributed_nil _)))
        · exact otherTail_of _ _
            (attributed_undefined _ _ _ (attributed_fromHandler _ _ (ih _ _)))
        · exact otherTail_of _ _ (attributed_undefined _ _ _
            (attributed_undefined _ _ _ (attributed_quiet _ _ _ rfl (attributed_nil _)))))

theorem attributed_comments (qt : Qt) (c : JiraClient) (key : QString)
    (all : List JiraComment) (o : Int) (net : List QNetworkReply) :
    Attributed (getIssueComments.fetch qt c key all o net) net := by
  induction net generalizing all o with
  | nil => exact attributed_send_nil _
  | cons r net ih =>
    rw [getIssueComments.fetch]
    exact attributed_cascade _ r net _ _ _
      (authTail_emit _ _ _ (attributed_quiet _ _ _ rfl (attributed_nil _)))
      (otherTail_emit _ _ _ _
        (attributed_undefined _ _ _ (attributed_quiet _ _ _ rfl (attributed_nil _))))
      (by
        simp only []
        split_ifs
        · exact otherTail_emit _ _ _ _
            (attributed_undefined _ _ _ (attributed_quiet _ _ _ rfl (attributed_nil _)))
        · exact otherTail_of _ _
            (attributed_undefined _ _ _ (attributed_quiet _ _ _ rfl (attributed_nil _)))
        · exact otherTail_of _ _ (attributed_undefined _ _ _
            (attributed_undefined _ _ _ (attributed_quiet _ _ _ rfl (attributed_nil _))))
        · exact otherTail_of _ _
            (attributed_undefined _ _ _ (attributed_fromHandler _ _ (ih _ _))))

theorem attributed_issues (c : JiraClient) (sprintId : Int)
    (all : List JiraTicket) (o : Int) (net : List QNetworkReply) :
    Attributed (getIssuesForSprint.fetch c sprintId all o net) net := by
  induction net generalizing all o with
  | nil => exact attributed_send_nil _
  | cons r net ih =>
    rw [getIssuesForSprint.fetch]
    exact attributed_cascade _ r net _ _ _
      (authTail_emit _ _ _ (attributed_quiet _ _ _ rfl (attributed_nil _)))
      (otherTail_emit _ _ _ _
        (attributed_undefined _ _ _ (attributed_quiet _ _ _ rfl (attributed_nil _))))
      (by
        simp only []
        split_ifs
        · exact otherTail_emit _ _ _ _
            (attributed_undefined _ _ _ (attributed_quiet _ _ _ rfl (attributed_nil _)))
        · exact otherTail_of _ _
            (attributed_undefined _ _ _ (attributed_quiet _ _ _ rfl (attributed_nil _)))
        · exact otherTail_of _ _ (attributed_undefined _ _ _
            (attributed_undefined _ _ _ (attributed_quiet _ _ _ rfl (attributed_nil _))))
        · exact otherTail_of _ _
            (attributed_undefined _ _ _ (attributed_fromHandler _ _ (ih _ _)))
        · exact otherTail_of _ _ (attributed_undefined _ _ _ (attributed_undefined _ _ _
            (attributed_undefined _ _ _ (attributed_quiet _ _ _ rfl (attributed_nil _)))))
        · exact otherTail_of _ _ (attributed_undefined _ _ _
            (attributed_undefined _ _ _ (attributed_fromHandler _ _ (ih _ _)))))

theorem attributed_boards (c : JiraClient) (type : QString)
    (all : List QJsonObject) (o : Int) (net : List QNetworkReply) :
    Attributed (getAllBoards.fetch c type all o net).1 net := by
  induction net generalizing all o with
  | nil => exact attributed_send_nil _
  | cons r net ih =>
    by_cases herr : r.error = .NoError
    · cases hb : r.body with
      | Object root =>
        rw [boards_page _ _ _ _ _ _ _ herr hb]
        simp only []
        split_ifs
        · exact attributed_other _ r net _ (isAuthFailure_ok r herr)
            (otherTail_of _ _ (attributed_nil _))
        · exact attributed_other _ r net _ (isAuthFailure_ok r herr)
            (otherTail_of _ _ (attributed_fromHandler _ _ (ih _ _)))
      | _ =>
        obtain ⟨e, he⟩ := boards_generic _ _ all o r net (Or.inr ⟨herr, by rw [hb]; rfl⟩)
        rw [he]
        exact attributed_other _ r net _ (isAuthFailure_ok r herr)
          (otherTail_emit _ _ _ _ (attributed_nil _))
    · by_cases hauth : isAuthError r r.error = true
      · rw [boards_auth _ _ all o r net (isAuthFailure_auth r herr hauth)]
        exact attributed_auth _ r net _ (isAuthFailure_auth r herr hauth)
          (authTail_emit _ _ _ (attributed_nil _))
      · obtain ⟨e, he⟩ := boards_generic _ _ all o r net
          (Or.inl ⟨herr, by simpa using hauth⟩)
        rw [he]
        exact attributed_other _ r net _ (isAuthFailure_other r hauth)
          (otherTail_emit _ _ _ _ (attributed_nil _))

theorem attributed_boardSprints (c : JiraClient) (boardId : Int) (state : QString)
    (all : List QJsonObject) (o : Int) (net : List QNetworkReply) :
    Attributed (getBoardSprints.fetch c boardId state all o net).1 net := by
  induction net generalizing all o with
  | nil => exact attributed_send_nil _
  | cons r net ih =>
    by_cases herr : r.error = .NoError
    · cases hb : r.body with
      | Object root =>
        rw [boardSprints_page _ _ _ _ _ _ _ _ herr hb]
        simp only []
        split_ifs
        · exact attributed_other _ r net _ (isAuthFailure_ok r herr)
            (otherTail_of _ _ (attributed_nil _))
        · exact attributed_other _ r net _ (isAuthFailure_ok r herr)
            (otherTail_of _ _ (attributed_fromHandler _ _ (ih _ _)))
      | _ =>
        obtain ⟨e, he⟩ := boardSprints_generic _ _ _ all o r net (Or.inr ⟨herr, by rw [hb]; rfl⟩)
        rw [he]
        exact attributed_other _ r net _ (isAuthFailure_ok r herr)
          (otherTail_emit _ _ _ _ (attributed_nil _))
    · by_cases hauth : isAuthError r r.error = true
      · rw [boardSprints_auth _ _ _ all o r net (isAuthFailure_auth r herr hauth)]
        exact attributed_auth _ r net _ (isAuthFailure_auth r herr hauth)
          (authTail_emit _ _ _ (attributed_nil _))
      · obtain ⟨e, he⟩ := boardSprints_generic _ _ _ all o r net
          (Or.inl ⟨herr, by simpa using hauth⟩)
        rw [he]
        exact attributed_other _ r net _ (isAuthFailure_other r hauth)
          (otherTail_emit _ _ _ _ (attributed_nil _))

/-- The handler of a single read request that expects a JSON object. -/
theorem attributed_read (q : Request) (net : List QNetworkReply) (m ctx e : QString)
    (s1 s2 s3 : Signal) (s4 : QJsonValue → Signal) (h1 : s1.isQuiet = true)
    (h2 : s2.isQuiet = true) (h3 : s3.isQuiet = true) (h4 : ∀ v, (s4 v).isQuiet = true) :
    Attributed (.send q ::
      match net with
      | [] => []
      | reply :: _ =>
        if reply.error ≠ .NoError then
          if isAuthError reply reply.error then [.emit (.authenticationRequired m), .emit s1]
          else [.emit (.operationFailed ctx reply.errorString), .emit s2]
        else if !reply.body.isObject then [.emit (.operationFailed ctx e), .emit s3]
        else [.emit (s4 reply.body)]) net := by
  cases net with
  | nil => exact attributed_send_nil q
  | cons r net =>
    exact attributed_cascade q r net _ _ _
      (authTail_emit _ _ _ (attributed_quiet _ _ _ h1 (attributed_nil _)))
      (otherTail_emit _ _ _ _ (attributed_quiet _ _ _ h2 (attributed_nil _)))
      (by
        split_ifs
        · exact otherTail_emit _ _ _ _ (attributed_quiet _ _ _ h3 (attributed_nil _))
        · exact otherTail_of _ _ (attributed_quiet _ _ _ (h4 _) (attributed_nil _)))

theorem attributed_runWrite (qt : Qt) (c : JiraClient) (op : WriteOp)
    (net : List QNetworkReply) : Attributed (runWrite qt c op net) net := by
  cases op with
  | updateIssueDescription k t =>
    simp only [runWrite]
    unfold updateIssueDescription
    split_ifs
    · exact attributed_nil _
    · exact attributed_write _ net _ _ _
  | addComment k t =>
    simp only [runWrite]
    unfold addComment
    split_ifs
    · exact attributed_nil _
    · exact attributed_write _ net _ _ _
  | updateComment k i t =>
    simp only [runWrite]
    unfold updateComment
    split_ifs
    · exact attributed_nil _
    · exact attributed_write _ net _ _ _
  | updateStoryPoints k p =>
    simp only [runWrite]
    unfold updateStoryPoints
    by_cases hk : (QString.trimmed k).isEmpty = true
    · rw [if_pos hk]; exact attributed_nil _
    · rw [if_neg hk]
      refine attributed_ensure qt c net _ (fun c' net' => ?_)
      simp only []
      split_ifs
      · exact attributed_nil _
      · exact attributed_write _ net' _ _ _
  | updateAssignee k a =>
    simp only [runWrite]
    unfold updateAssignee
    split_ifs
    · exact attributed_nil _
    · exact attributed_resolve c _ net _ (fun s net' => attributed_write _ net' _ _ _)
  | updateDueDate k d =>
    simp only [runWrite]
    unfold updateDueDate
    split_ifs
    · exact attributed_nil _
    · exact attributed_write _ net _ _ _
  | updateSprint k s =>
    simp only [runWrite]
    unfold updateSprint
    by_cases hk : (QString.trimmed k).isEmpty = true
    · rw [if_pos hk]; exact attributed_nil _
    · rw [if_neg hk]
      refine attributed_ensure qt c net _ (fun c' net' => ?_)
      simp only []
      split_ifs
      · exact attributed_nil _
      · exact attributed_write _ net' _ _ _
  | transitionIssue k t =>
    simp only [runWrite]
    unfold transitionIssue
    split_ifs
    · exact attributed_nil _
    · exact attributed_write _ net _ _ _

theorem attributed_runRead (qt : Qt) (std : StdLib) (c : JiraClient) (op : ReadOp)
    (net : List QNetworkReply) : Attributed (runRead qt std c op net) net := by
  cases op with
  | getMyTickets =>
    simp only [runRead]
    unfold getMyTickets
    exact attributed_ensure qt c net _ (fun c' net' => attributed_tickets c' [] [] net')
  | getIssueFieldSnapshot k =>
    simp only [runRead]
    unfold getIssueFieldSnapshot
    by_cases hk : (QString.trimmed k).isEmpty = true
    · rw [if_pos hk]; exact attributed_quiet _ _ _ rfl (attributed_nil _)
    · rw [if_neg hk]
      refine attributed_ensure qt c net _ (fun c' net' => ?_)
      exact attributed_read _ net' _ _ _ _ _ _
        (fun v => .issueFieldSnapshotReady (getIssueFieldSnapshot.snapshot qt c' v.toObject))
        rfl rfl rfl (fun _ => rfl)
  | getIssueComments k =>
    simp only [runRead]
    unfold getIssueComments
    split_ifs
    · exact attributed_quiet _ _ _ rfl (attributed_nil _)
    · exact attributed_comments qt c k [] 0 net
  | getIssueHistory k =>
    simp only [runRead]
    unfold getIssueHistory
    split_ifs
    · exact attributed_quiet _ _ _ rfl (attributed_nil _)
    · exact attributed_read _ net _ _ _ _ _ _
        (fun v => .issueHistoryReady (std.sort (getIssueHistory.compare qt)
          ((QJsonObject.value (QJsonObject.value v.toObject "changelog").toObject
            "histories").toArray.foldl
            (fun history hv => history ++ getIssueHistory.entries qt hv) [])))
        rfl rfl rfl (fun _ => rfl)
  | getTransitions k =>
    simp only [runRead]
    unfold getTransitions
    split_ifs
    · exact attributed_quiet _ _ _ rfl (attributed_nil _)
    · exact attributed_read _ net _ _ _ _ _ _
        (fun v => .transitionsReady
          ((QJsonObject.value v.toObject "transitions").toArray.foldl
            (fun (list : List JiraTransition) (t : QJsonValue) =>
              if (QJsonObject.value t.toObject "id").toString.isEmpty then list
              else list ++ [JiraTransition.mk (QJsonObject.value t.toObject "id").toString
                (QJsonObject.value t.toObject "name").toString]) []))
        rfl rfl rfl (fun _ => rfl)
  | getIssuesForSprint s =>
    simp only [runRead]
    unfold getIssuesForSprint
    split_ifs
    · exact attributed_quiet _ _ _ rfl (attributed_nil _)
    · exact attributed_issues c s [] 0 net
  | getAllBoards t =>
    simp only [runRead]
    exact attributed_boards c t [] 0 net
  | getBoardSprints b s =>
    simp only [runRead]
    exact attributed_boardSprints c b s [] 0 net

theorem outcome_auth_iff (r : QNetworkReply) :
    r.outcome = .AuthFailure ↔ r.error ≠ .NoError ∧ isAuthError r r.error = true := by
  unfold QNetworkReply.outcome
  split_ifs with h1 h2
  · simp [h1, h2]
  · simp [h2]
  · simp [h1]

theorem isAuthError_iff (r : QNetworkReply) :
    isAuthError r r.error = true ↔
      r.status = 401 ∨ r.status = 403 ∨ r.error = .AuthenticationRequiredError
        ∨ r.error = .ContentAccessDenied := by
  unfold isAuthError
  simp only [Bool.or_eq_true, beq_iff_eq, decide_eq_true_eq]
  tauto

/-- Claim C15.  Every handler decides on a completed reply by one function with the three
values Success, AuthFailure and GenericFailure.  A reply is an AuthFailure exactly when it
carries a transport error and its status is 401 or 403 or its error is
authentication-required or content-access-denied; Qt reports a status 401 or 403 as a
transport error, and then the reply is an AuthFailure exactly when its status is 401 or 403
or its error is one of the two, whatever the status.  In the log of every write and every
read operation there is exactly one `authenticationRequired` per AuthFailure received and
at most one `operationFailed` per reply received that is no AuthFailure: replies that are
no AuthFailure produce no `authenticationRequired`, and AuthFailures produce no
`operationFailed`. -/
theorem reply_classification (qt : Qt) (std : StdLib) (c : JiraClient) (r : QNetworkReply)
    (hqt : r.StatusReported) :
    (r.outcome = .AuthFailure ↔
        r.status = 401 ∨ r.status = 403 ∨ r.error = .AuthenticationRequiredError
          ∨ r.error = .ContentAccessDenied)
      ∧ (r.outcome = .AuthFailure ↔
          r.error ≠ .NoError ∧ (r.status = 401 ∨ r.status = 403
            ∨ r.error = .AuthenticationRequiredError ∨ r.error = .ContentAccessDenied))
      ∧ (r.outcome = .Success ↔ r.error = .NoError)
      ∧ (r.outcome = .GenericFailure ↔ r.outcome ≠ .Success ∧ r.outcome ≠ .AuthFailure)
      ∧ (r.isAuthFailure = true ↔ r.outcome = .AuthFailure)
      ∧ ∀ net log, ((∃ op, log = runWrite qt c op net) ∨ ∃ op, log = runRead qt std c op net) →
          authRequired log = authFailures (received log net)
            ∧ operationFailures log ≤ otherReplies (received log net)
            ∧ ((∀ x ∈ received log net, x.outcome ≠ .AuthFailure) →
                ∀ s ∈ signals log, s.isAuthenticationRequired = false)
            ∧ ((∀ x ∈ received log net, x.outcome = .AuthFailure) →
                ∀ s ∈ signals log, s.isOperationFailed = false) := by
  have hiff : ∀ x : QNetworkReply, x.isAuthFailure = true ↔ x.outcome = .AuthFailure := by
    intro x
    rw [outcome_auth_iff, isAuthFailure_iff]
  refine ⟨?_, ?_, ?_, ?_, hiff r, ?_⟩
  · rw [outcome_auth_iff, isAuthError_iff]
    constructor
    · exact fun h => h.2
    · intro h
      refine ⟨?_, h⟩
      rcases h with h | h | h | h
      · exact hqt (Or.inl h)
      · exact hqt (Or.inr h)
      · rw [h]; decide
      · rw [h]; decide
  · rw [outcome_auth_iff, isAuthError_iff]
  · unfold QNetworkReply.outcome
    by_cases h : r.error = .NoError
    · simp [h]
    · simp only [ne_eq, h, not_false_eq_true, if_true, iff_false]
      split_ifs <;> simp
  · cases r.outcome <;> decide
  · intro net log hlog
    have hatt : Attributed log net := by
      rcases hlog with ⟨op, rfl⟩ | ⟨op, rfl⟩
      · exact attributed_runWrite qt c op net
      · exact attributed_runRead qt std c op net
    obtain ⟨h1, h2⟩ := hatt
    refine ⟨h1, h2, ?_, ?_⟩
    · intro hno
      have h0 : authFailures (received log net) = 0 := by
        unfold authFailures
        rw [List.countP_eq_zero]
        intro x hx
        rw [hiff]
        exact hno x hx
      rw [h0] at h1
      unfold authRequired at h1
      rw [List.countP_eq_zero] at h1
      intro s hs
      simpa using h1 s hs
    · intro hall
      have h0 : otherReplies (received log net) = 0 := by
        unfold otherReplies
        rw [List.countP_eq_zero]
        intro x hx
        simp [(hiff x).mpr (hall x hx)]
      rw [h0] at h2
      unfold operationFailures at h2
      rw [Nat.le_zero, List.countP_eq_zero] at h2
      intro s hs
      simpa using h2 s hs

theorem reply_classification_witness :
    forbidden.outcome = .AuthFailure
      ∧ authRequired (runWrite Qt.sample sampleClient (.transitionIssue "PROJ-1" "31") [forbidden])
        = authFailures (received
            (runWrite Qt.sample sampleClient (.transitionIssue "PROJ-1" "31") [forbidden])
            [forbidden])
      ∧ ∀ s ∈ signals (runRead Qt.sample StdLib.sample sampleClient (.getTransitions "PROJ-1")
          [forbidden]), s.isOperationFailed = false :=
  have h := reply_classification Qt.sample StdLib.sample sampleClient forbidden
    (fun _ => by decide)
  ⟨h.1.mpr (Or.inr (Or.inl rfl)),
   (h.2.2.2.2.2 [forbidden] _ (Or.inl ⟨.transitionIssue "PROJ-1" "31", rfl⟩)).1,
   (h.2.2.2.2.2 [forbidden] _ (Or.inr ⟨.getTransitions "PROJ-1", rfl⟩)).2.2.2 (by decide)⟩

theorem cache_invariant_witness :
    Reachable Qt.sample (ensureFieldMetadata.finished Qt.sample sampleClient serverError)
      ∧ ((ensureFieldMetadata.finished Qt.sample sampleClient serverError).m_fieldMetadataLoaded
          = false →
        (ensureFieldMetadata.finished Qt.sample sampleClient serverError).m_sprintFieldId = []
          ∧ (ensureFieldMetadata.finished Qt.sample sampleClient serverError).m_storyPointsFieldId
            = []) :=
  have hr : Reachable Qt.sample (ensureFieldMetadata.finished Qt.sample sampleClient serverError) :=
    Reachable.finished _ _ (Reachable.configure _ _ _ _ Reachable.new)
  ⟨hr, (cache_invariant Qt.sample _ hr).1⟩

theorem ensureFieldMetadata_loaded_witness :
    ensureFieldMetadata Qt.sample loadedClient [serverError]
        (fun c net => (c, getMyTickets.fetchPage c [] [] net))
        = (loadedClient, getMyTickets.fetchPage loadedClient [] [] [serverError])
      ∧ ensureFieldMetadata Qt.sample loadedClient [serverError] (fun c _ => (c, []))
        = (loadedClient, []) :=
  (ensureFieldMetadata_loaded Qt.sample loadedClient [serverError]
    (fun c net => (c, getMyTickets.fetchPage c [] [] net))).1 rfl

theorem updateAssignee_account_id_witness :
    requests (updateAssignee Qt.sample sampleClient "PROJ-1" "  " [okReply .Null])
        = [assigneeRequest Qt.sample sampleClient "PROJ-1" .Null]
      ∧ requests (updateAssignee Qt.sample sampleClient "PROJ-1" " bob " [lookupHit, okReply .Null])
        = [lookupRequest sampleClient "bob",
            assigneeRequest Qt.sample sampleClient "PROJ-1" (.String "5b10ac8d82e05b22cc7d4ef5")]
      ∧ requests (updateAssignee Qt.sample sampleClient "PROJ-1" " bob " [serverError, okReply .Null])
        = [lookupRequest sampleClient "bob",
            assigneeRequest Qt.sample sampleClient "PROJ-1" (.String "bob")] :=
  ⟨(updateAssignee_account_id Qt.sample sampleClient "PROJ-1" "  " (by decide)).1 rfl _,
   (((updateAssignee_account_id Qt.sample sampleClient "PROJ-1" " bob " (by decide)).2
      (by decide)).2 lookupHit [okReply .Null]).trans rfl,
   (((updateAssignee_account_id Qt.sample sampleClient "PROJ-1" " bob " (by decide)).2
      (by decide)).2 serverError [okReply .Null]).trans rfl⟩

/-! ## Degraded replies, the document codec on arbitrary text, offsets and orderings -/

/-- Claim C29.  For an issue key that is empty or whitespace-only every write operation
leaves an empty log (no request, no signal) and the client state unchanged, and each of the
reads by issue key (snapshot, comments, history, transitions) leaves a log that is exactly
one ready signal with the empty result; `addComment` with a blank text leaves an empty log
whatever the key. -/
theorem blank_key_guard (qt : Qt) (std : StdLib) (c : JiraClient) (key : QString)
    (net : List QNetworkReply) (hkey : (QString.trimmed key).isEmpty = true) :
    (∀ op : WriteOp, op.issueKey = key → runWrite qt c op net = [])
      ∧ (∀ p, updateStoryPoints qt c key p net = (c, []))
      ∧ (∀ s, updateSprint qt c key s net = (c, []))
      ∧ getIssueFieldSnapshot qt c key net
          = (c, [.emit (.issueFieldSnapshotReady ⟨[], none, [], [], [], none, none⟩)])
      ∧ getIssueComments qt c key net = [.emit (.issueCommentsReady [])]
      ∧ getIssueHistory qt std c key net = [.emit (.issueHistoryReady [])]
      ∧ getTransitions qt c key net = [.emit (.transitionsReady [])]
      ∧ (∀ k text, (QString.trimmed text).isEmpty = true → addComment qt c k text net = []) := by
  refine ⟨?_, ?_, ?_, ?_, ?_, ?_, ?_, ?_⟩
  · intro op hop
    cases op <;> simp only [WriteOp.issueKey] at hop <;> subst hop <;> simp only [runWrite]
    · unfold updateIssueDescription; rw [if_pos hkey]
    · unfold addComment; simp only [hkey, Bool.true_or, if_true]
    · unfold updateComment; simp only [hkey, Bool.true_or, if_true]
    · unfold updateStoryPoints; rw [if_pos hkey]
    · unfold updateAssignee; rw [if_pos hkey]
    · unfold updateDueDate; rw [if_pos hkey]
    · unfold updateSprint; rw [if_pos hkey]
    · unfold transitionIssue; simp only [hkey, Bool.true_or, if_true]
  · intro p; unfold updateStoryPoints; rw [if_pos hkey]
  · intro s; unfold updateSprint; rw [if_pos hkey]
  · unfold getIssueFieldSnapshot; rw [if_pos hkey]; rfl
  · unfold getIssueComments; rw [if_pos hkey]
  · unfold getIssueHistory; rw [if_pos hkey]
  · unfold getTransitions; rw [if_pos hkey]
  · intro k text ht
    unfold addComment
    simp only [ht, Bool.or_true, if_true]

theorem blank_key_guard_witness :
    runWrite Qt.sample sampleClient (.transitionIssue "  " "31") [okReply .Null] = []
      ∧ getTransitions Qt.sample sampleClient "  " [okReply .Null]
        = [.emit (.transitionsReady [])]
      ∧ addComment Qt.sample sampleClient "PROJ-1" " \n" [okReply .Null] = [] :=
  have h := blank_key_guard Qt.sample StdLib.sample sampleClient "  " [okReply .Null]
    (by decide)
  ⟨h.1 (.transitionIssue "  " "31") rfl, h.2.2.2.2.2.2.1,
    h.2.2.2.2.2.2.2 "PROJ-1" " \n" (by decide)⟩

theorem walkChildren_eq_foldl (cs : List QJsonValue) (lines : QStringList) :
    walkChildren cs lines = cs.foldl (fun lines v => walk v lines) lines := by
  induction cs generalizing lines with
  | nil => rw [walkChildren]; rfl
  | cons v vs ih => rw [walkChildren, ih]; rfl

theorem trimmed_of_blank (x : QString) (h : (QString.trimmed x).isEmpty = true) :
    QString.trimmed x = [] := by
  cases hx : QString.trimmed x with
  | nil => rfl
  | cons a t => rw [hx] at h; cases h

/-- Claim C24.  For an object node whose type is none of doc, paragraph, hardBreak and text:
when its content is an array the walk is the walk of the children in order on the same
lines, nothing being appended between them; when it has no content array the lines are
left as they are.  Such a node with the content `[text a, text b]` decodes to the trimmed
concatenation of `a` and `b`, and one without content array decodes to the empty text. -/
theorem unknown_node_walk (o : QJsonObject) (lines : QStringList) (hun : IsUnknownNode o) :
    (∀ cs, QJsonObject.value o "content" = .Array cs →
        walk (.Object o) lines = cs.foldl (fun lines v => walk v lines) lines)
      ∧ ((QJsonObject.value o "content").isArray = false → walk (.Object o) lines = lines)
      ∧ (∀ ta tb a b, QJsonObject.value o "content" = .Array [ta, tb] →
          IsTextNode ta a → IsTextNode tb b →
          walk (.Object o) [] = [a ++ b]
            ∧ adfToPlainText (.Object o) = QString.trimmed (a ++ b))
      ∧ ((QJsonObject.value o "content").isArray = false →
          adfToPlainText (.Object o) = []) := by
  obtain ⟨h1, h2, h3, h4⟩ := hun
  have hwalk : ∀ ls, walk (.Object o) ls
      = (if (QJsonObject.value o "content").isArray then
          walkChildren (QJsonObject.value o "content").toArray ls else ls) := by
    intro ls
    rw [walk_object]
    simp only [h1, h2, h3, h4, if_false]
  refine ⟨?_, ?_, ?_, ?_⟩
  · intro cs hcs
    rw [hwalk, hcs, ← walkChildren_eq_foldl]
    rfl
  · intro hno
    rw [hwalk, hno]
    rfl
  · intro ta tb a b hcs hta htb
    have hw : walk (.Object o) [] = [a ++ b] := by
      rw [hwalk, hcs]
      show walkChildren [ta, tb] [] = _
      simp only [walkChildren, walk_text hta, walk_text htb]
      simp [appendText]
    refine ⟨hw, ?_⟩
    unfold adfToPlainText
    rw [hw]
    unfold removeTrailingBlank
    by_cases hb : (QString.trimmed (a ++ b)).isEmpty = true
    · have : List.rdropWhile (fun l => (QString.trimmed l).isEmpty) [a ++ b] = [] := by
        rw [show [a ++ b] = [] ++ [a ++ b] from rfl, List.rdropWhile_concat_pos (fun l => (QString.trimmed l).isEmpty) [] (a ++ b) hb]
        rfl
      simp only [this]
      rw [trimmed_of_blank _ hb]
      rfl
    · have : List.rdropWhile (fun l => (QString.trimmed l).isEmpty) [a ++ b] = [a ++ b] := by
        rw [show [a ++ b] = [] ++ [a ++ b] from rfl, List.rdropWhile_concat_neg (fun l => (QString.trimmed l).isEmpty) [] (a ++ b) hb]
      simp only [this]
      rfl
  · intro hno
    unfold adfToPlainText
    rw [hwalk, hno]
    rfl

theorem unknown_node_walk_witness :
    walk (.Object [(("type" : QString), .String "mention"),
        (("content" : QString), .Array [textNode "Hello ", textNode "world "])]) []
        = [("Hello " : QString) ++ ("world " : QString)]
      ∧ adfToPlainText (.Object [(("type" : QString), .String "mention"),
        (("content" : QString), .Array [textNode "Hello ", textNode "world "])])
        = ("Hello world" : QString) :=
  have h := (unknown_node_walk [(("type" : QString), .String "mention"),
      (("content" : QString), .Array [textNode "Hello ", textNode "world "])] []
    ⟨by decide, by decide, by decide, by decide⟩).2.2.1 (textNode "Hello ") (textNode "world ")
      "Hello " "world " rfl ⟨_, rfl, rfl, rfl⟩ ⟨_, rfl, rfl, rfl⟩
  ⟨h.1, h.2.trans (by decide)⟩

theorem lastFieldId_of_none (qt : Qt) (name : QString) (arr : QJsonArray) (previous : QString)
    (h : ∀ v ∈ arr, isNamed qt name v = false) : lastFieldId qt name arr previous = previous := by
  unfold lastFieldId
  rw [List.filter_eq_nil_iff.mpr (fun v hv => by simp [h v hv])]
  rfl

theorem ensure_unresolved (qt : Qt) (c : JiraClient) (r : QNetworkReply)
    (net : List QNetworkReply)
    (cont : JiraClient → List QNetworkReply → JiraClient × List Effect)
    (id : JiraClient → QString) (name : QString)
    (hl : c.m_fieldMetadataLoaded = false) (hid : id c = [])
    (hscan : ∀ arr : QJsonArray, (∀ v ∈ arr, isNamed qt name v = false) →
      id { arr.foldl (scanField qt) c with m_fieldMetadataLoaded := true } = id c)
    (hcont : ∀ c' net', id c' = [] → (cont c' net').2 = []) :
    ((r.error = .NoError ∧ ∃ arr, r.body = .Array arr ∧ ∀ v ∈ arr, isNamed qt name v = false) →
        (ensureFieldMetadata qt c (r :: net) cont).2 = [.send (fieldCatalogRequest c)])
      ∧ (r.FailsCatalog → ∃ e, (ensureFieldMetadata qt c (r :: net) cont).2
          = [.send (fieldCatalogRequest c), .emit (.operationFailed "Load field metadata" e)]) := by
  refine ⟨?_, ?_⟩
  · rintro ⟨herr, arr, hbody, hnone⟩
    unfold ensureFieldMetadata ensureFieldMetadata.interleaved
    simp only [hl, Bool.false_eq_true, if_false, herr, ne_eq, not_true_eq_false, hbody,
      QJsonValue.isArray, Bool.not_true, QJsonValue.toArray]
    rw [hcont _ net (by rw [hscan arr hnone, hid])]
    rfl
  · intro hf
    unfold ensureFieldMetadata ensureFieldMetadata.interleaved
    simp only [hl, Bool.false_eq_true, if_false]
    rcases hf with ⟨herr, hauth⟩ | ⟨herr, hbody⟩
    · refine ⟨r.errorString, ?_⟩
      simp only [herr, ne_eq, not_false_eq_true, if_true, hauth, Bool.false_eq_true, if_false,
        hcont c net hid]
      rfl
    · refine ⟨("Unexpected JSON (expected array)" : QString), ?_⟩
      simp only [herr, ne_eq, not_true_eq_false, if_false, hbody, Bool.not_false, if_true,
        hcont c net hid]
      rfl

/-- Claim C22.  For a non-blank issue key and a client whose cache is not loaded (so that
both ids are empty): when the catalog load succeeds on a catalog without an entry named
Story Points, the log of `updateStoryPoints` is the catalog read alone; when the load fails
with a GenericFailure, the log is the catalog read and the one `operationFailed` of the
load; in both cases there is no PUT, no `operationSucceeded` and no further failure signal.
When the cache is loaded with an empty story-points id the log is empty.  The same holds
for `updateSprint` with the name Sprint and the sprint id. -/
theorem unresolved_field_noop (qt : Qt) (c : JiraClient) (key : QString) (r : QNetworkReply)
    (net : List QNetworkReply) (hkey : (QString.trimmed key).isEmpty = false) (hwf : c.wf) :
    (c.m_fieldMetadataLoaded = false →
        (∀ p, ((r.error = .NoError ∧ ∃ arr, r.body = .Array arr
                ∧ ∀ v ∈ arr, isNamed qt "Story Points" v = false) →
              (updateStoryPoints qt c key p (r :: net)).2 = [.send (fieldCatalogRequest c)])
            ∧ (r.FailsCatalog → ∃ e, (updateStoryPoints qt c key p (r :: net)).2
                = [.send (fieldCatalogRequest c),
                    .emit (.operationFailed "Load field metadata" e)]))
          ∧ ∀ s, ((r.error = .NoError ∧ ∃ arr, r.body = .Array arr
                ∧ ∀ v ∈ arr, isNamed qt "Sprint" v = false) →
              (updateSprint qt c key s (r :: net)).2 = [.send (fieldCatalogRequest c)])
            ∧ (r.FailsCatalog → ∃ e, (updateSprint qt c key s (r :: net)).2
                = [.send (fieldCatalogRequest c),
                    .emit (.operationFailed "Load field metadata" e)]))
      ∧ (c.m_fieldMetadataLoaded = true →
          (c.m_storyPointsFieldId = [] → ∀ p, updateStoryPoints qt c key p net = (c, []))
            ∧ (c.m_sprintFieldId = [] → ∀ s, updateSprint qt c key s net = (c, []))) := by
  refine ⟨fun hl => ⟨fun p => ?_, fun s => ?_⟩, fun hl => ⟨fun hid p => ?_, fun hid s => ?_⟩⟩
  · unfold updateStoryPoints
    simp only [hkey, Bool.false_eq_true, if_false]
    refine ensure_unresolved qt c r net _ JiraClient.m_storyPointsFieldId "Story Points" hl
      (hwf hl).2 (fun arr hnone => ?_) (fun c' net' hc => ?_)
    · rw [foldl_scanField]
      exact lastFieldId_of_none qt _ arr _ hnone
    · simp only [hc, List.isEmpty_nil, if_true]
  · unfold updateSprint
    simp only [hkey, Bool.false_eq_true, if_false]
    refine ensure_unresolved qt c r net _ JiraClient.m_sprintFieldId "Sprint" hl
      (hwf hl).1 (fun arr hnone => ?_) (fun c' net' hc => ?_)
    · rw [foldl_scanField]
      exact lastFieldId_of_none qt _ arr _ hnone
    · simp only [hc, List.isEmpty_nil, if_true]
  · unfold updateStoryPoints ensureFieldMetadata ensureFieldMetadata.interleaved
    simp only [hkey, Bool.false_eq_true, if_false, hl, if_true, hid, List.isEmpty_nil]
  · unfold updateSprint ensureFieldMetadata ensureFieldMetadata.interleaved
    simp only [hkey, Bool.false_eq_true, if_false, hl, if_true, hid, List.isEmpty_nil]

theorem unresolved_field_noop_witness :
    (updateStoryPoints Qt.sample sampleClient "PROJ-1" (some 3)
        [okReply (.Array sprintOnlyCatalog), okReply .Null]).2
        = [.send (fieldCatalogRequest sampleClient)]
      ∧ ∃ e, (updateSprint Qt.sample sampleClient "PROJ-1" (some 7) [serverError, okReply .Null]).2
        = [.send (fieldCatalogRequest sampleClient),
            .emit (.operationFailed "Load field metadata" e)] :=
  have h := (unresolved_field_noop Qt.sample sampleClient "PROJ-1"
    (okReply (.Array sprintOnlyCatalog)) [okReply .Null] (by decide)
    (fun _ => ⟨rfl, rfl⟩)).1 rfl
  ⟨(h.1 (some 3)).1 ⟨rfl, sprintOnlyCatalog, rfl, by decide⟩,
   (((unresolved_field_noop Qt.sample sampleClient "PROJ-1" serverError [okReply .Null]
      (by decide) (fun _ => ⟨rfl, rfl⟩)).1 rfl).2 (some 7)).2 (Or.inl ⟨by decide, rfl⟩)⟩

theorem reduceSprint_keeps_first (qt : Qt) (T : Int) (S s : QJsonObject)
    (hS : sprintStart qt S = some T) (hs : ∀ u, sprintStart qt s = some u → u ≤ T) :
    reduceSprint qt (Best.ofSprint qt S) s = Best.ofSprint qt S := by
  rw [reduceSprint_eq]
  apply if_neg
  rintro (h | ⟨_, h | h⟩)
  · cases h
  · simp only [Best.ofSprint, hS] at h
    cases h
  · simp only [Best.ofSprint, hS] at h
    cases hu : sprintStart qt s with
    | none => rw [hu] at h; cases h
    | some u =>
      rw [hu] at h
      have := hs u hu
      simp only [QDateTime.gt, decide_eq_true_eq] at h
      omega

theorem foldl_keeps_first (qt : Qt) (T : Int) (S : QJsonObject) (l : List QJsonObject)
    (hS : sprintStart qt S = some T)
    (hl : ∀ s ∈ l, ∀ u, sprintStart qt s = some u → u ≤ T) :
    l.foldl (reduceSprint qt) (Best.ofSprint qt S) = Best.ofSprint qt S := by
  induction l with
  | nil => rfl
  | cons s l ih =>
    simp only [List.foldl_cons]
    rw [reduceSprint_keeps_first qt T S s hS (hl s (List.mem_cons_self _ _))]
    exact ih (fun s' hs' => hl s' (List.mem_cons_of_mem _ hs'))

/-- Claim C25.  When the sprints delivered, in order of arrival, are `before`, then `S1`,
then `between`, then `S2`, then `after`, where `S1` and `S2` have the same valid start `T`
and every other sprint has no valid start or one strictly before `T`, the method emits
exactly one `mostRecentActiveSprintReady`, and it carries the id, the name and the start
of `S1`, the one that arrived first: the reducer never replaces the best by a candidate
whose start equals the best's. -/
theorem mostRecent_tie_first (qt : Qt) (c : JiraClient) (net : List QNetworkReply)
    (log : List Effect) (boards : List QJsonObject) (arrivals : List (List QJsonObject))
    (S1 S2 : QJsonObject) (before between after : List QJsonObject) (T : Int)
    (hboards : getAllBoards c "scrum" net = (log, some boards))
    (hlen : arrivals.length = boards.length)
    (horder : arrivals.flatten = before ++ S1 :: between ++ S2 :: after)
    (h1 : sprintStart qt S1 = some T) (h2 : sprintStart qt S2 = some T)
    (hothers : ∀ s, s ∈ before ∨ s ∈ between ∨ s ∈ after →
      ∀ u, sprintStart qt s = some u → u < T) :
    readySignals (getMostRecentActiveSprint qt c net arrivals)
        = [.mostRecentActiveSprintReady (some ((QJsonObject.value S1 "id").toInt 0))
            (QJsonObject.value S1 "name").toString (some (some T))]
      ∧ reduceSprint qt (Best.ofSprint qt S1) S2 = Best.ofSprint qt S1 := by
  have harr : arrivals ≠ [] := by
    intro h
    rw [h] at horder
    simp at horder
  have hbne : boards ≠ [] := by
    intro h
    rw [h] at hlen
    exact harr (List.length_eq_zero.mp hlen)
  have hlen' : (arrivals.length : Int) = (⟨Best.new, boards.length⟩ : Aggregation).remaining := by
    simp only [hlen]
  have hfold : arrivals.flatten.foldl (reduceSprint qt) Best.new = Best.ofSprint qt S1 := by
    rw [horder, List.append_assoc, List.foldl_append, List.cons_append, List.foldl_cons,
      reduceSprint_latest qt T _ S1 (foldl_before qt T before _ (before_new T)
        (fun s hs => hothers s (Or.inl hs))) h1]
    apply foldl_keeps_first qt T S1 _ h1
    intro s hs u hu
    rcases List.mem_append.mp hs with hs | hs
    · exact le_of_lt (hothers s (Or.inr (Or.inl hs)) u hu)
    · rcases List.mem_cons.mp hs with hs | hs
      · rw [hs, h2] at hu
        cases hu
        exact le_refl _
      · exact le_of_lt (hothers s (Or.inr (Or.inr hs)) u hu)
  refine ⟨?_, reduceSprint_keeps_first qt T S1 S2 h1 (fun u hu => by
    rw [h2] at hu; cases hu; exact le_refl _)⟩
  rw [readySignals_of_boards qt c net arrivals log boards hboards hbne,
    completions_emit qt arrivals _ harr hlen', readySignals_ready, hfold]
  simp [Best.ready, Best.ofSprint, h1, QDateTime.isValid]

theorem mostRecent_tie_first_witness :
    readySignals (getMostRecentActiveSprint Qt.sample sampleClient [twoBoards]
        [[sprint1, sprint2], [sprint3]])
        = [.mostRecentActiveSprintReady (some 2) "Sprint 2" (some (some 1705309200000))]
      ∧ readySignals (getMostRecentActiveSprint Qt.sample sampleClient [twoBoards]
        [[sprint3], [sprint1, sprint2]])
        = [.mostRecentActiveSprintReady (some 3) "Sprint 3" (some (some 1705309200000))] :=
  ⟨(mostRecent_tie_first Qt.sample sampleClient [twoBoards] _ _ [[sprint1, sprint2], [sprint3]]
      sprint2 sprint3 [sprint1] [] [] 1705309200000 rfl rfl rfl (by decide) (by decide)
      (by
        intro s hs u hu
        rcases hs with hs | hs | hs
        · rw [List.mem_singleton.mp hs, show sprintStart Qt.sample sprint1
            = some 1704099600000 from by decide] at hu
          cases hu
          decide
        · cases hs
        · cases hs)).1,
   (mostRecent_tie_first Qt.sample sampleClient [twoBoards] _ _ [[sprint3], [sprint1, sprint2]]
      sprint3 sprint2 [] [sprint1] [] 1705309200000 rfl rfl rfl (by decide) (by decide)
      (by
        intro s hs u hu
        rcases hs with hs | hs | hs
        · cases hs
        · rw [List.mem_singleton.mp hs, show sprintStart Qt.sample sprint1
            = some 1704099600000 from by decide] at hu
          cases hu
          decide
        · cases hs)).1⟩

theorem indexOf_eq (ch : Char) (s : QString) (i : Int) :
    QString.indexOfBy (fun a b => a == b) [ch] s i
      = if ch ∈ s then i + ((s.takeWhile (fun a => a != ch)).length : Int) else -1 := by
  induction s generalizing i with
  | nil => rfl
  | cons a s ih =>
    rw [QString.indexOfBy]
    by_cases h : a = ch
    · subst h
      simp [QString.startsWithBy]
    · have hne : (a == ch) = false := by simpa using h
      have hne' : (a != ch) = true := by simpa using h
      have hmem : (ch ∈ a :: s) ↔ ch ∈ s := by
        simp [List.mem_cons, Ne.symm h]
      simp only [QString.startsWithBy, hne, Bool.false_and, Bool.false_eq_true, if_false, ih,
        List.takeWhile_cons, hne', if_true, List.length_cons, hmem]
      split_ifs
      · push_cast
        ring
      · rfl

theorem take_length_takeWhile {α : Type} (p : α → Bool) (s : List α) :
    s.take (s.takeWhile p).length = s.takeWhile p := by
  induction s with
  | nil => rfl
  | cons a s ih =>
    by_cases h : p a = true
    · simp [List.takeWhile_cons, h, ih]
    · simp [List.takeWhile_cons, h]

theorem takeWhile_of_not_mem (ch : Char) (s : QString) (h : ch ∉ s) :
    s.takeWhile (fun a => a != ch) = s := by
  rw [List.takeWhile_eq_self_iff]
  intro a ha
  have : a ≠ ch := fun e => h (e ▸ ha)
  simpa using this

theorem not_mem_trimmed (ch : Char) (s : QString) (h : ch ∉ s) : ch ∉ QString.trimmed s := by
  intro hm
  unfold QString.trimmed at hm
  exact h ((List.dropWhile_suffix _).subset (( List.rdropWhile_prefix _ _).subset hm))

/-- The text that `parseSprintNameFromLegacyString` returns whenever the text after the
first `name=` does not begin with a comma: that text up to its first comma (all of it when
it has none), trimmed; it contains no comma. -/
theorem parseSprintName_of_name (qt : Qt) (raw : QString)
    (hraw : (QString.trimmed raw).isEmpty = false)
    (hidx : 0 ≤ QString.indexOfCaseInsensitive qt raw "name=")
    (hhead : (QString.mid raw (QString.indexOfCaseInsensitive qt raw "name=" + 5)).head?
      ≠ some ',') :
    parseSprintNameFromLegacyString qt raw
        = QString.trimmed ((QString.mid raw
            (QString.indexOfCaseInsensitive qt raw "name=" + 5)).takeWhile (fun a => a != ','))
      ∧ ',' ∉ parseSprintNameFromLegacyString qt raw := by
  have key : parseSprintNameFromLegacyString qt raw
      = QString.trimmed ((QString.mid raw
          (QString.indexOfCaseInsensitive qt raw "name=" + 5)).takeWhile
            (fun a => a != ',')) := by
    unfold parseSprintNameFromLegacyString
    simp only [hraw, Bool.false_eq_true, if_false, not_lt.mpr hidx]
    generalize QString.mid raw (QString.indexOfCaseInsensitive qt raw "name=" + 5) = after
      at hhead ⊢
    unfold QString.indexOf
    rw [indexOf_eq]
    by_cases hm : ',' ∈ after
    · simp only [hm, if_true, zero_add]
      cases after with
      | nil => cases hm
      | cons a t =>
        have ha : a ≠ ',' := by
          intro e
          apply hhead
          rw [e]
          rfl
        have hne' : (a != ',') = true := by simpa using ha
        simp only [List.takeWhile_cons, hne', if_true, List.length_cons]
        rw [if_pos (by positivity)]
        unfold QString.left
        have : ((((List.takeWhile (fun a => a != ',') t).length + 1 : Nat) : Int)).toNat
            = (List.takeWhile (fun a => a != ',') t).length + 1 := Int.toNat_natCast _
        rw [this, List.take_succ_cons, take_length_takeWhile]
    · simp only [hm, if_false]
      rw [if_neg (by decide), takeWhile_of_not_mem _ _ hm]
  refine ⟨key, ?_⟩
  rw [key]
  apply not_mem_trimmed
  intro hm
  have := List.mem_takeWhile_imp hm
  simp at this

/-- Claim C30 at the input `name=,state=ACTIVE`, whose name is empty: the text between
`name=` and the next comma is empty, and the method returns `,state=ACTIVE`, which contains
a comma; on the other inputs shown it returns what the claim says. -/
theorem parseSprintName_empty_name :
    parseSprintNameFromLegacyString Qt.sample "name=,state=ACTIVE"
        = (",state=ACTIVE" : QString)
      ∧ ',' ∈ parseSprintNameFromLegacyString Qt.sample "name=,state=ACTIVE"
      ∧ QString.indexOfCaseInsensitive Qt.sample ("name=,state=ACTIVE" : QString) "name=" = 0
      ∧ QString.indexOf (QString.mid ("name=,state=ACTIVE" : QString) 5) ',' = 0
      ∧ parseSprintNameFromLegacyString Qt.sample "id=5,NAME= Sprint 9 ,state=ACTIVE"
        = ("Sprint 9" : QString)
      ∧ parseSprintNameFromLegacyString Qt.sample "id=5,name=Sprint 9" = ("Sprint 9" : QString)
      ∧ parseSprintNameFromLegacyString Qt.sample "  " = ("Sprint" : QString)
      ∧ parseSprintNameFromLegacyString Qt.sample "id=5" = ("Sprint" : QString) := by
  refine ⟨?_, ?_, ?_, ?_, ?_, ?_, ?_, ?_⟩ <;> decide

theorem parseSprintName_of_name_example :
    parseSprintNameFromLegacyString Qt.sample "id=5,NAME= Sprint 9 ,state=ACTIVE"
      = ("Sprint 9" : QString) :=
  (parseSprintName_of_name Qt.sample "id=5,NAME= Sprint 9 ,state=ACTIVE" (by decide)
    (by decide) (by decide)).1.trans (by decide)

theorem rdropWhile_append_of_pos {α : Type} (p : α → Bool) (l w : List α)
    (h : ∀ a ∈ w, p a = true) : (l ++ w).rdropWhile p = l.rdropWhile p := by
  induction w using List.reverseRecOn with
  | nil => rw [List.append_nil]
  | append_singleton w a ih =>
    rw [← List.append_assoc, List.rdropWhile_concat_pos _ _ _ (h a (by simp))]
    exact ih (fun x hx => h x (by simp [hx]))

/-- Trimming ignores whitespace appended at the end. -/
theorem trimmed_append_space (s w : QString) (h : ∀ ch ∈ w, QChar.isSpace ch = true) :
    QString.trimmed (s ++ w) = QString.trimmed s := by
  unfold QString.trimmed
  rw [List.dropWhile_append]
  by_cases hs : (s.dropWhile QChar.isSpace).isEmpty = true
  · rw [if_pos hs]
    have h1 : w.dropWhile QChar.isSpace = [] := List.dropWhile_eq_nil_iff.mpr h
    have h2 : s.dropWhile QChar.isSpace = [] := List.isEmpty_iff.mp hs
    rw [h1, h2]
  · rw [if_neg hs]
    exact rdropWhile_append_of_pos _ _ _ h

theorem blank_iff (l : QString) :
    (QString.trimmed l).isEmpty = true ↔ ∀ ch ∈ l, QChar.isSpace ch = true := by
  unfold QString.trimmed
  rw [List.isEmpty_iff, List.rdropWhile_eq_nil_iff]
  constructor
  · intro h
    by_contra hne
    push_neg at hne
    obtain ⟨ch, hch, hsp⟩ := hne
    have hnil : ¬ (l.dropWhile QChar.isSpace = []) := by
      rw [List.dropWhile_eq_nil_iff]
      intro hall
      exact hsp (hall ch hch)
    obtain ⟨a, t, hat⟩ := List.exists_cons_of_ne_nil hnil
    have ha : ¬ QChar.isSpace a = true := by
      have := List.head_dropWhile_not QChar.isSpace l (by rw [hat]; simp)
      simpa [hat] using this
    exact ha (h a (by rw [hat]; simp))
  · intro h
    rw [List.dropWhile_eq_nil_iff.mpr h]
    intro x hx
    cases hx

theorem join_concat (init : QStringList) (l sep : QString) :
    QStringList.join (init ++ [l]) sep
      = if init.isEmpty then l else QStringList.join init sep ++ sep ++ l := by
  induction init with
  | nil => rfl
  | cons a rest ih =>
    cases rest with
    | nil => simp [QStringList.join]
    | cons b more =>
      have : QStringList.join (a :: b :: more ++ [l]) sep
          = a ++ sep ++ QStringList.join (b :: more ++ [l]) sep := by
        simp [QStringList.join]
      rw [this, ih]
      simp [QStringList.join, List.append_assoc]

/-- Removing the trailing blank lines does not change the trimmed text. -/
theorem trimmed_join_removeTrailingBlank (ls : QStringList) :
    QString.trimmed (QStringList.join (removeTrailingBlank ls) "\n")
      = QString.trimmed (QStringList.join ls "\n") := by
  unfold removeTrailingBlank
  induction ls using List.reverseRecOn with
  | nil => rfl
  | append_singleton init l ih =>
    by_cases hb : (QString.trimmed l).isEmpty = true
    · rw [List.rdropWhile_concat_pos (fun l => (QString.trimmed l).isEmpty) init l hb, ih,
        join_concat]
      cases init with
      | nil =>
        simp only [List.isEmpty_nil, if_true]
        rw [trimmed_of_blank l hb]
        rfl
      | cons a rest =>
        simp only [List.isEmpty_cons, Bool.false_eq_true, if_false]
        rw [List.append_assoc, trimmed_append_space]
        intro ch hch
        rcases List.mem_append.mp hch with h | h
        · rw [List.mem_singleton.mp h]
          decide
        · exact (blank_iff l).mp hb ch h
    · rw [List.rdropWhile_concat_neg (fun l => (QString.trimmed l).isEmpty) init l hb]

theorem walk_buildAdfDocument (x : QString) :
    walk (.Object (buildAdfDocument x)) [] = QString.split x '\n' := by
  rw [buildAdfDocument_eq]
  exact walk_doc_paragraphs rfl rfl (forall₂_paragraphNode _)

/-- Claim C26.  For every string `x`, decoding the encoding of `x` gives `x` with its
leading and trailing whitespace removed; the lines between the first and the last
non-blank line are those of `x`, blank ones included; the result neither starts nor ends
with a whitespace character. -/
theorem roundtrip_any (x : QString) :
    adfToPlainText (.Object (buildAdfDocument x)) = QString.trimmed x
      ∧ (∀ ch, (adfToPlainText (.Object (buildAdfDocument x))).head? = some ch →
          QChar.isSpace ch = false)
      ∧ (∀ ch, (adfToPlainText (.Object (buildAdfDocument x))).getLast? = some ch →
          QChar.isSpace ch = false)
      ∧ QString.split (adfToPlainText (.Object (buildAdfDocument x))) '\n'
          = QString.split (QString.trimmed x) '\n' := by
  have key : adfToPlainText (.Object (buildAdfDocument x)) = QString.trimmed x := by
    unfold adfToPlainText
    simp only [walk_buildAdfDocument]
    rw [trimmed_join_removeTrailingBlank, join_split]
  have hself := (trimmed_eq_self_iff (QString.trimmed x)).mp (trimmed_trimmed x)
  rw [key]
  exact ⟨rfl, hself.1, hself.2, rfl⟩

theorem roundtrip_any_examples :
    adfToPlainText (.Object (buildAdfDocument "  A\n\n B \n \n")) = ("A\n\n B" : QString)
      ∧ adfToPlainText (.Object (buildAdfDocument " \n ")) = ([] : QString) := by
  decide

theorem walk_hardBreakDoc (a b : QString) : walk (.Object (hardBreakDoc a b)) [] = [a, b] := by
  rfl

theorem walk_twoParagraphDoc (a b : QString) :
    walk (.Object (twoParagraphDoc a b)) [] = [a, b] :=
  walk_doc_paragraphs rfl rfl (forall₂_paragraphNode [a, b])

theorem split_of_not_mem (sep : Char) (b : QString) (h : sep ∉ b) :
    QString.split b sep = [b] := by
  induction b with
  | nil => rfl
  | cons c cs ih =>
    have hc : c ≠ sep := fun e => h (by simp [e])
    have hcs : sep ∉ cs := fun e => h (by simp [e])
    rw [QString.split, if_neg hc, ih hcs]

theorem split_append_sep (sep : Char) (a b : QString) (h : sep ∉ a) :
    QString.split (a ++ sep :: b) sep = a :: QString.split b sep := by
  induction a with
  | nil =>
    show QString.split (sep :: b) sep = _
    rw [QString.split, if_pos rfl]
  | cons c cs ih =>
    have hc : c ≠ sep := fun e => h (by simp [e])
    have hcs : sep ∉ cs := fun e => h (by simp [e])
    rw [List.cons_append, QString.split, if_neg hc, ih hcs]

theorem docNode_injective {p q : QJsonArray} (h : docNode p = docNode q) : p = q := by
  unfold docNode at h
  simpa using h

theorem paragraphNode_injective {s t : QString} (h : paragraphNode s = paragraphNode t) :
    s = t := by
  unfold paragraphNode textNode at h
  simpa using h

/-- Claim C23 fails in its last part: the re-encoding of the decoded text of
`doc[paragraph[text " x", hardBreak, text "y"]]` is the doc of the paragraphs `x` and `y`,
which differs from `doc[paragraph[text " x"], paragraph[text "y"]]`; and the re-encoding
for the texts `x` and the empty text is a doc of one paragraph. -/
theorem hardBreak_reencode_counterexample :
    buildAdfDocument (adfToPlainText (.Object (hardBreakDoc " x" "y")))
        = twoParagraphDoc "x" "y"
      ∧ buildAdfDocument (adfToPlainText (.Object (hardBreakDoc " x" "y")))
        ≠ twoParagraphDoc " x" "y"
      ∧ buildAdfDocument (adfToPlainText (.Object (hardBreakDoc "x" "")))
        = docNode [paragraphNode "x"]
      ∧ buildAdfDocument (adfToPlainText (.Object (hardBreakDoc "x" "")))
        ≠ twoParagraphDoc "x" "" := by
  have h1 : adfToPlainText (.Object (hardBreakDoc " x" "y")) = ("x\ny" : QString) := by decide
  have h2 : adfToPlainText (.Object (hardBreakDoc "x" "")) = ("x" : QString) := by decide
  rw [h1, h2]
  refine ⟨rfl, ?_, rfl, ?_⟩
  · intro h
    have h' : (twoParagraphDoc "x" "y") = twoParagraphDoc " x" "y" := h
    have := docNode_injective h'
    simp only [List.cons.injEq] at this
    exact absurd (paragraphNode_injective this.1) (by decide)
  · intro h
    have h' : docNode [paragraphNode "x"] = twoParagraphDoc "x" "" := h
    have := docNode_injective h'
    simp at this

/-- Claim C23, amended.  For all strings `a` and `b`, the doc whose paragraph holds the
text `a`, a hardBreak and the text `b` decodes to the same text as the doc of the two
paragraphs `a` and `b`, namely `a`, a newline and `b`, trimmed.  When `a` and `b` contain no
newline the second doc is `buildAdfDocument` of `a`, a newline and `b`, and the re-encoding
of the decoded text of the first doc is the second doc exactly when `a` begins and `b` ends
with a character that is no whitespace. -/
theorem hardBreak_as_paragraph (a b : QString) :
    adfToPlainText (.Object (hardBreakDoc a b))
        = adfToPlainText (.Object (twoParagraphDoc a b))
      ∧ adfToPlainText (.Object (hardBreakDoc a b))
        = QString.trimmed (a ++ ("\n" : QString) ++ b)
      ∧ ('\n' ∉ a → '\n' ∉ b →
          twoParagraphDoc a b = buildAdfDocument (a ++ ("\n" : QString) ++ b)
            ∧ (buildAdfDocument (adfToPlainText (.Object (hardBreakDoc a b)))
                  = twoParagraphDoc a b ↔
                (∃ ch, a.head? = some ch ∧ QChar.isSpace ch = false)
                  ∧ ∃ ch, b.getLast? = some ch ∧ QChar.isSpace ch = false)) := by
  have hdec : adfToPlainText (.Object (hardBreakDoc a b))
      = QString.trimmed (a ++ ("\n" : QString) ++ b) := by
    unfold adfToPlainText
    simp only [walk_hardBreakDoc]
    rw [trimmed_join_removeTrailingBlank]
    rfl
  refine ⟨?_, hdec, ?_⟩
  · unfold adfToPlainText
    rw [walk_hardBreakDoc, walk_twoParagraphDoc]
  · intro ha hb
    have hsplit : QString.split (a ++ ("\n" : QString) ++ b) '\n' = [a, b] := by
      have : a ++ ("\n" : QString) ++ b = a ++ '\n' :: b := by
        rw [List.append_assoc]; rfl
      rw [this, split_append_sep '\n' a b ha, split_of_not_mem '\n' b hb]
    have henc : twoParagraphDoc a b = buildAdfDocument (a ++ ("\n" : QString) ++ b) := by
      rw [buildAdfDocument_eq, hsplit]
      rfl
    refine ⟨henc, ?_⟩
    rw [hdec]
    have hiff : buildAdfDocument (QString.trimmed (a ++ ("\n" : QString) ++ b))
          = twoParagraphDoc a b
        ↔ QString.trimmed (a ++ ("\n" : QString) ++ b) = a ++ ("\n" : QString) ++ b := by
      constructor
      · intro h
        rw [buildAdfDocument_eq] at h
        have h2 := docNode_injective h
        have h3 : QString.split (QString.trimmed (a ++ ("\n" : QString) ++ b)) '\n' = [a, b] :=
          List.map_injective_iff.mpr (fun _ _ e => paragraphNode_injective e) h2
        rw [← join_split (QString.trimmed (a ++ ("\n" : QString) ++ b)), h3, ← hsplit,
          join_split]
      · intro h
        rw [h]
        exact henc.symm
    rw [hiff, trimmed_eq_self_iff]
    have hhead : (a ++ ("\n" : QString) ++ b).head? = (a ++ ("\n" : QString)).head? := by
      cases a <;> rfl
    have hlast : (a ++ ("\n" : QString) ++ b).getLast?
        = if b.isEmpty then some '\n' else b.getLast? := by
      cases hbb : b with
      | nil => simp
      | cons c cs =>
        rw [List.getLast?_append_of_ne_nil _ (by simp)]
        rfl
    rw [hhead, hlast]
    constructor
    · rintro ⟨h1, h2⟩
      constructor
      · cases a with
        | nil => exact absurd (h1 '\n' rfl) (by decide)
        | cons c cs => exact ⟨c, rfl, h1 c rfl⟩
      · cases b with
        | nil => exact absurd (h2 '\n' rfl) (by decide)
        | cons c cs =>
          obtain ⟨l, hl⟩ : ∃ l, (c :: cs).getLast? = some l :=
            ⟨_, List.getLast?_eq_getLast _ (by simp)⟩
          exact ⟨l, hl, h2 l (by simpa using hl)⟩
    · rintro ⟨⟨x, hx1, hx2⟩, ⟨y, hy1, hy2⟩⟩
      constructor
      · intro ch hch
        cases a with
        | nil => cases hx1
        | cons c cs =>
          simp only [List.cons_append, List.head?_cons, Option.some.injEq] at hch hx1
          rw [← hch, hx1]
          exact hx2
      · intro ch hch
        cases b with
        | nil => cases hy1
        | cons c cs =>
          simp only [List.isEmpty_cons, Bool.false_eq_true, if_false] at hch
          rw [hy1] at hch
          cases hch
          exact hy2

theorem hardBreak_as_paragraph_witness :
    adfToPlainText (.Object (hardBreakDoc "A" "B")) = ("A\nB" : QString)
      ∧ buildAdfDocument (adfToPlainText (.Object (hardBreakDoc "A" "B")))
        = twoParagraphDoc "A" "B" :=
  ⟨(hardBreak_as_paragraph "A" "B").2.1.trans (by decide),
   ((hardBreak_as_paragraph "A" "B").2.2 (by decide) (by decide)).2.mpr
     ⟨⟨'A', rfl, by decide⟩, ⟨'B', rfl, by decide⟩⟩⟩

theorem after_iff (x y : QDateTime) :
    QDateTime.after x y = true ↔ y.rank < x.rank := by
  cases x with
  | none =>
    cases y with
    | none => simp [QDateTime.after, QDateTime.rank]
    | some b => simp [QDateTime.after, QDateTime.rank]
  | some a =>
    cases y with
    | none =>
      simp only [QDateTime.after, QDateTime.rank, true_iff]
      exact WithBot.bot_lt_coe a
    | some b =>
      simp only [QDateTime.after, QDateTime.rank, decide_eq_true_eq]
      exact (WithBot.coe_lt_coe (a := b) (b := a)).symm

theorem rank_injective (x y : QDateTime) (h : x.rank = y.rank) : x = y := by
  cases x with
  | none =>
    cases y with
    | none => rfl
    | some b => exact absurd h.symm (WithBot.coe_ne_bot)
  | some a =>
    cases y with
    | none => exact absurd h (WithBot.coe_ne_bot)
    | some b =>
      simp only [QDateTime.rank] at h
      rw [WithBot.coe_injective h]

theorem compare_iff (qt : Qt) (a b : JiraHistoryEntry) :
    getIssueHistory.compare qt a b = true ↔ historyKey qt b < historyKey qt a := by
  unfold getIssueHistory.compare historyKey
  rw [Prod.Lex.lt_iff]
  by_cases h : a.when = b.when
  · simp only [h, ne_eq, not_true_eq_false, if_false, QString.gt, decide_eq_true_eq,
      lt_self_iff_false, true_and, false_or]
  · simp only [ne_eq, h, not_false_eq_true, if_true, after_iff]
    constructor
    · exact fun hlt => Or.inl hlt
    · rintro (hlt | ⟨he, _⟩)
      · exact hlt
      · exact absurd (rank_injective _ _ he).symm h

theorem compare_strictWeakOrdering (qt : Qt) :
    StrictWeakOrdering (getIssueHistory.compare qt) := by
  have hf : ∀ a b, getIssueHistory.compare qt a b = false
      ↔ historyKey qt a ≤ historyKey qt b := by
    intro a b
    rw [← not_lt, ← compare_iff, Bool.not_eq_true]
  refine ⟨?_, ?_, ?_⟩
  · intro a
    rw [hf]
  · intro a b c hab hbc
    rw [compare_iff] at hab hbc ⊢
    exact lt_trans hbc hab
  · intro a b c h1 h2 h3 h4
    rw [hf] at h1 h2 h3 h4 ⊢
    rw [hf]
    exact ⟨le_trans h1 h3, le_trans h4 h2⟩

theorem insertSorted_perm (lt : JiraHistoryEntry → JiraHistoryEntry → Bool)
    (x : JiraHistoryEntry) (l : List JiraHistoryEntry) :
    (insertSorted lt x l).Perm (x :: l) := by
  induction l with
  | nil => exact List.Perm.refl _
  | cons y ys ih =>
    rw [insertSorted]
    split_ifs
    · exact List.Perm.refl _
    · exact (List.Perm.cons y ih).trans (List.Perm.swap x y ys)

theorem insertSorted_sorted (lt : JiraHistoryEntry → JiraHistoryEntry → Bool)
    (hlt : StrictWeakOrdering lt) (x : JiraHistoryEntry) (l : List JiraHistoryEntry)
    (hl : l.Pairwise (fun a b => lt b a = false)) :
    (insertSorted lt x l).Pairwise (fun a b => lt b a = false) := by
  obtain ⟨hirr, htrans, _⟩ := hlt
  induction l with
  | nil => exact List.pairwise_singleton _ _
  | cons y ys ih =>
    obtain ⟨hy, hys⟩ := List.pairwise_cons.mp hl
    rw [insertSorted]
    split_ifs with hxy
    · refine List.pairwise_cons.mpr ⟨?_, hl⟩
      intro z hz
      by_contra hzx
      simp only [Bool.not_eq_false] at hzx
      have hzy := htrans z x y hzx hxy
      rcases List.mem_cons.mp hz with e | hz'
      · rw [e, hirr] at hzy
        cases hzy
      · rw [hy z hz'] at hzy
        cases hzy
    · refine List.pairwise_cons.mpr ⟨?_, ih hys⟩
      intro z hz
      rcases List.mem_cons.mp ((insertSorted_perm lt x ys).subset hz) with e | hz'
      · rw [e]
        simpa using hxy
      · exact hy z hz'

theorem sample_sorts : StdLib.sample.Sorts := by
  intro lt l hlt
  show (l.foldr (insertSorted lt) []).Perm l
    ∧ (l.foldr (insertSorted lt) []).Pairwise (fun a b => lt b a = false)
  induction l with
  | nil => exact ⟨List.Perm.refl _, List.Pairwise.nil⟩
  | cons x xs ih =>
    rw [List.foldr_cons]
    exact ⟨(insertSorted_perm lt x _).trans (List.Perm.cons x ih.1),
      insertSorted_sorted lt hlt x _ ih.2⟩

theorem foldl_entries (qt : Qt) (hs : QJsonArray) (acc : List JiraHistoryEntry) :
    hs.foldl (fun history hv => history ++ getIssueHistory.entries qt hv) acc
      = acc ++ hs.flatMap (getIssueHistory.entries qt) := by
  induction hs generalizing acc with
  | nil => simp
  | cons h hs ih => rw [List.foldl_cons, ih, List.flatMap_cons, List.append_assoc]

theorem entries_eq (qt : Qt) (hv : QJsonValue) :
    getIssueHistory.entries qt hv
      = (QJsonObject.value hv.toObject "items").toArray.map (fun iv =>
        { author := (QJsonObject.value (QJsonObject.value hv.toObject "author").toObject
            "displayName").toString
          when := parseDateTime qt (QJsonObject.value hv.toObject "created").toString
          field := (QJsonObject.value iv.toObject "field").toString
          fromValue := (QJsonObject.value iv.toObject "fromString").toString
          toValue := (QJsonObject.value iv.toObject "toString").toString }) := by
  unfold getIssueHistory.entries
  simp only []
  rw [foldl_append_singleton]
  rfl

/-- Claim C28.  For a successful changelog response, with `std::sort` meeting its contract,
`getIssueHistory` delivers once a list that is a permutation of the entries of the
response (one per item of every history record, carrying the author and the timestamp of
its record) and in which, for every entry `x` placed before an entry `y`, the timestamp of
`y` is not later than that of `x` and, when the two timestamps are equal, the lower-cased
author of `y` is not greater than that of `x`.  The comparison handed to `std::sort` is a
strict weak ordering. -/
theorem history_sorted (qt : Qt) (std : StdLib) (c : JiraClient) (key : QString)
    (r : QNetworkReply) (net : List QNetworkReply) (root : QJsonObject)
    (hstd : std.Sorts) (hkey : (QString.trimmed key).isEmpty = false)
    (herr : r.error = .NoError) (hbody : r.body = .Object root) :
    StrictWeakOrdering (getIssueHistory.compare qt)
      ∧ ∃ history,
        getIssueHistory qt std c key (r :: net)
            = [.send (historyRequest qt c key), .emit (.issueHistoryReady history)]
          ∧ history.Perm (historyEntries qt root)
          ∧ history.length = ((QJsonObject.value (QJsonObject.value root "changelog").toObject
              "histories").toArray.map
                (fun hv => (QJsonObject.value hv.toObject "items").toArray.length)).sum
          ∧ history.Pairwise (fun x y =>
              QDateTime.after y.when x.when = false
                ∧ (x.when = y.when →
                    QString.gt (qt.toLower y.author) (qt.toLower x.author) = false)) := by
  have hswo := compare_strictWeakOrdering qt
  have hentries : (QJsonObject.value (QJsonObject.value root "changelog").toObject
        "histories").toArray.foldl
          (fun history hv => history ++ getIssueHistory.entries qt hv) []
      = historyEntries qt root := by
    rw [foldl_entries, List.nil_append]
    unfold historyEntries
    congr 1
    funext hv
    exact entries_eq qt hv
  obtain ⟨hperm, hsorted⟩ := hstd (getIssueHistory.compare qt) (historyEntries qt root) hswo
  refine ⟨hswo, std.sort (getIssueHistory.compare qt) (historyEntries qt root), ?_, hperm,
    ?_, ?_⟩
  · unfold getIssueHistory
    simp only [hkey, Bool.false_eq_true, if_false, herr, ne_eq, not_true_eq_false, hbody,
      QJsonValue.isObject, Bool.not_true, toObject_Object, hentries]
  · rw [hperm.length_eq]
    unfold historyEntries
    rw [List.length_flatMap]
    congr 1
    apply List.map_congr_left
    intro hv _
    exact List.length_map _ _
  · refine hsorted.imp ?_
    intro x y hxy
    unfold getIssueHistory.compare at hxy
    by_cases hw : y.when = x.when
    · rw [if_neg (by simp [hw])] at hxy
      refine ⟨?_, fun _ => hxy⟩
      rw [hw, ← Bool.not_eq_true, after_iff]
      exact lt_irrefl _
    · rw [if_pos hw] at hxy
      exact ⟨hxy, fun e => absurd e.symm hw⟩

theorem history_sorted_witness :
    ∃ history,
      getIssueHistory Qt.sample StdLib.sample sampleClient "PROJ-1" [changelogReply]
          = [.send (historyRequest Qt.sample sampleClient "PROJ-1"),
              .emit (.issueHistoryReady history)]
        ∧ history.Perm (historyEntries Qt.sample changelogReply.body.toObject)
        ∧ history.length = 3
        ∧ history.Pairwise (fun x y =>
            QDateTime.after y.when x.when = false
              ∧ (x.when = y.when →
                  QString.gt (Qt.sample.toLower y.author) (Qt.sample.toLower x.author)
                    = false)) :=
  (history_sorted Qt.sample StdLib.sample sampleClient "PROJ-1" changelogReply []
    changelogReply.body.toObject sample_sorts (by decide) rfl rfl).2

/-- The history delivered for the sample changelog: the entry of 15 January first; the
insertion sort leaves the two entries of 1 January, which compare equal, in reverse order. -/
theorem history_sorted_example :
    signals (getIssueHistory Qt.sample StdLib.sample sampleClient "PROJ-1" [changelogReply])
      = [.issueHistoryReady
          [⟨"bob", some 1705309200000, "summary", [], "New"⟩,
            ⟨"alice", some 1704099600000, "assignee", [], "bob"⟩,
            ⟨"alice", some 1704099600000, "status", "Open", "Done"⟩]] := by
  decide

/-! ## Object lifetimes in the paginated reads, and operations that overlap -/

theorem defined_send (r : Request) (log : List Effect) :
    defined (.send r :: log) = .send r :: defined log := rfl

theorem tickets_first (c : JiraClient) (all : List JiraTicket) (token : QString)
    (net : List QNetworkReply) :
    ∃ tail, getMyTickets.fetchPage c all token net = .send (searchRequest c token) :: tail := by
  cases net with
  | nil => exact ⟨_, rfl⟩
  | cons r net => rw [getMyTickets.fetchPage]; exact ⟨_, rfl⟩

theorem boards_first (c : JiraClient) (type : QString) (all : List QJsonObject)
    (o : Int) (net : List QNetworkReply) :
    ∃ tail, (getAllBoards.fetch c type all o net).1
      = .send (boardsRequest c type o) :: tail := by
  cases net with
  | nil => exact ⟨_, rfl⟩
  | cons r net =>
    rw [getAllBoards.fetch]
    simp only []
    split_ifs <;> exact ⟨_, rfl⟩

theorem boardSprints_first (c : JiraClient) (boardId : Int) (state : QString)
    (all : List QJsonObject) (o : Int) (net : List QNetworkReply) :
    ∃ tail, (getBoardSprints.fetch c boardId state all o net).1
      = .send (boardSprintsRequest c boardId state o) :: tail := by
  cases net with
  | nil => exact ⟨_, rfl⟩
  | cons r net =>
    rw [getBoardSprints.fetch]
    simp only []
    split_ifs <;> exact ⟨_, rfl⟩

/-- What the ticket search does within defined behaviour when a reply arrives. -/
theorem tickets_defined (c : JiraClient) (all : List JiraTicket) (token : QString)
    (r : QNetworkReply) (net : List QNetworkReply) :
    defined (getMyTickets.fetchPage c all token (r :: net))
      = .send (searchRequest c token) ::
          if r.error ≠ .NoError then
            if isAuthError r r.error then
              [.emit (.authenticationRequired
                "Jira authentication failed while loading tickets. Please configure your API token."),
                .emit (.myTicketsReady [])]
            else [.emit (.operationFailed "GetMyTickets" r.errorString)]
          else if !r.body.isObject then
            [.emit (.operationFailed "GetMyTickets" "Unexpected JSON (expected object)")]
          else if (QJsonObject.value r.body.toObject "issues").toArray.isEmpty
              && !(QJsonObject.value r.body.toObject "nextPageToken").toString.isEmpty then
            [.send (searchRequest c (QJsonObject.value r.body.toObject "nextPageToken").toString)]
          else [] := by
  rw [getMyTickets.fetchPage, defined_send]
  congr 1
  simp only []
  split_ifs with h1 h2 h3 h4 h5 h6 h7
  all_goals first
    | rfl
    | (obtain ⟨tail, ht⟩ := tickets_first c
        ((QJsonObject.value r.body.toObject "issues").toArray.foldl
          (fun all v => all ++ [getMyTickets.ticket c v]) all)
        (QJsonObject.value r.body.toObject "nextPageToken").toString net
       rw [ht]
       rfl)
    | simp_all

/-- What the comment fetch does within defined behaviour when a reply arrives. -/
theorem comments_defined (qt : Qt) (c : JiraClient) (key : QString) (all : List JiraComment)
    (o : Int) (r : QNetworkReply) (net : List QNetworkReply) :
    defined (getIssueComments.fetch qt c key all o (r :: net))
      = .send (commentsRequest qt c key o) ::
          if r.error ≠ .NoError then
            if isAuthError r r.error then
              [.emit (.authenticationRequired
                "Jira authentication failed while loading comments. Please configure your API token."),
                .emit (.issueCommentsReady [])]
            else [.emit (.operationFailed "GetIssueComments" r.errorString)]
          else if !r.body.isObject then
            [.emit (.operationFailed "GetIssueComments" "Unexpected JSON (expected object)")]
          else [] := by
  rw [getIssueComments.fetch, defined_send]
  congr 1
  simp only []
  split_ifs <;> rfl

/-- What the sprint-issue fetch does within defined behaviour when a reply arrives. -/
theorem issues_defined (c : JiraClient) (sprintId : Int) (all : List JiraTicket)
    (o : Int) (r : QNetworkReply) (net : List QNetworkReply) :
    defined (getIssuesForSprint.fetch c sprintId all o (r :: net))
      = .send (sprintIssuesRequest c sprintId o) ::
          if r.error ≠ .NoError then
            if isAuthError r r.error then
              [.emit (.authenticationRequired
                "Jira authentication failed while loading sprint issues. Please configure your API token."),
                .emit (.sprintIssuesReady [])]
            else [.emit (.operationFailed "GetIssuesForSprint" r.errorString)]
          else if !r.body.isObject then
            [.emit (.operationFailed "GetIssuesForSprint" "Unexpected JSON (expected object)")]
          else [] := by
  rw [getIssuesForSprint.fetch, defined_send]
  congr 1
  simp only []
  split_ifs <;> rfl

/-- What the board fetch does within defined behaviour when a reply arrives: the log up to
the first mark, and the list handed to `cont` when the handler ends the fetch. -/
theorem boards_defined (c : JiraClient) (type : QString) (all : List QJsonObject)
    (o : Int) (r : QNetworkReply) (net : List QNetworkReply) :
    (r.error ≠ .NoError → isAuthError r r.error = true →
        getAllBoards.fetch c type all o (r :: net)
          = ([.send (boardsRequest c type o), .emit (.authenticationRequired
              "Jira authentication failed while loading boards. Please configure your API token.")],
             some []))
      ∧ (r.error ≠ .NoError → isAuthError r r.error = false →
          getAllBoards.fetch c type all o (r :: net)
            = ([.send (boardsRequest c type o),
                .emit (.operationFailed "GetAllBoards" r.errorString)], some all))
      ∧ (r.error = .NoError → r.body.isObject = false →
          getAllBoards.fetch c type all o (r :: net)
            = ([.send (boardsRequest c type o),
                .emit (.operationFailed "GetAllBoards" "Unexpected JSON (expected object)")],
               some all))
      ∧ ∀ root, r.error = .NoError → r.body = .Object root →
          ((QJsonObject.value root "isLast").toBool false = true
              ∨ (QJsonObject.value root "values").toArray = [] →
            getAllBoards.fetch c type all o (r :: net)
              = ([.send (boardsRequest c type o)],
                 some (all ++ (QJsonObject.value root "values").toArray.map QJsonValue.toObject)))
          ∧ ((QJsonObject.value root "isLast").toBool false = false →
              (QJsonObject.value root "values").toArray ≠ [] →
              (∃ tail, (getAllBoards.fetch c type all o (r :: net)).1
                  = .send (boardsRequest c type o)
                    :: .send (boardsRequest c type
                        (o + (QJsonObject.value root "values").toArray.length))
                    :: .undefined .handler :: tail)
                ∧ defined (getAllBoards.fetch c type all o (r :: net)).1
                  = [.send (boardsRequest c type o),
                      .send (boardsRequest c type
                        (o + (QJsonObject.value root "values").toArray.length))]) := by
  refine ⟨fun herr hauth => ?_, fun herr hauth => ?_, fun herr hbody => ?_,
    fun root herr hbody => ⟨fun hend => ?_, fun hlast hne => ?_⟩⟩
  · rw [getAllBoards.fetch]
    simp only [herr, ne_eq, not_false_eq_true, if_true, hauth]
  · rw [getAllBoards.fetch]
    simp only [herr, ne_eq, not_false_eq_true, if_true, hauth, Bool.false_eq_true, if_false]
  · rw [getAllBoards.fetch]
    simp only [herr, ne_eq, not_true_eq_false, if_false, hbody, Bool.not_false, if_true]
  · rw [boards_page c type all o r net root herr hbody]
    simp only []
    rw [if_pos]
    rcases hend with h | h
    · rw [h]
      rfl
    · rw [h]
      simp only [List.isEmpty_nil, Bool.or_true]
  · rw [boards_page c type all o r net root herr hbody]
    simp only []
    have hemp : (QJsonObject.value root "values").toArray.isEmpty = false := by
      cases h : (QJsonObject.value root "values").toArray with
      | nil => exact absurd h hne
      | cons v vs => rfl
    rw [if_neg (by rw [hlast, hemp]; decide)]
    obtain ⟨tail, ht⟩ := boards_first c type
      (all ++ (QJsonObject.value root "values").toArray.map QJsonValue.toObject)
      (o + (QJsonObject.value root "values").toArray.length) net
    simp only [ht]
    exact ⟨⟨tail, rfl⟩, rfl⟩

/-- What the board-sprint fetch does within defined behaviour when a reply arrives. -/
theorem boardSprints_defined (c : JiraClient) (boardId : Int) (state : QString)
    (all : List QJsonObject) (o : Int) (r : QNetworkReply) (net : List QNetworkReply) :
    (r.error ≠ .NoError → isAuthError r r.error = true →
        getBoardSprints.fetch c boardId state all o (r :: net)
          = ([.send (boardSprintsRequest c boardId state o), .emit (.authenticationRequired
              "Jira authentication failed while loading sprints. Please configure your API token.")],
             some []))
      ∧ (r.error ≠ .NoError → isAuthError r r.error = false →
          getBoardSprints.fetch c boardId state all o (r :: net)
            = ([.send (boardSprintsRequest c boardId state o),
                .emit (.operationFailed "GetBoardSprints" r.errorString)], some all))
      ∧ (r.error = .NoError → r.body.isObject = false →
          getBoardSprints.fetch c boardId state all o (r :: net)
            = ([.send (boardSprintsRequest c boardId state o),
                .emit (.operationFailed "GetBoardSprints" "Unexpected JSON (expected object)")],
               some all))
      ∧ ∀ root, r.error = .NoError → r.body = .Object root →
          ((QJsonObject.value root "isLast").toBool false = true
              ∨ (QJsonObject.value root "values").toArray = [] →
            getBoardSprints.fetch c boardId state all o (r :: net)
              = ([.send (boardSprintsRequest c boardId state o)],
                 some (all ++ (QJsonObject.value root "values").toArray.map QJsonValue.toObject)))
          ∧ ((QJsonObject.value root "isLast").toBool false = false →
              (QJsonObject.value root "values").toArray ≠ [] →
              (∃ tail, (getBoardSprints.fetch c boardId state all o (r :: net)).1
                  = .send (boardSprintsRequest c boardId state o)
                    :: .send (boardSprintsRequest c boardId state
                        (o + (QJsonObject.value root "values").toArray.length))
                    :: .undefined .handler :: tail)
                ∧ defined (getBoardSprints.fetch c boardId state all o (r :: net)).1
                  = [.send (boardSprintsRequest c boardId state o),
                      .send (boardSprintsRequest c boardId state
                        (o + (QJsonObject.value root "values").toArray.length))]) := by
  refine ⟨fun herr hauth => ?_, fun herr hauth => ?_, fun herr hbody => ?_,
    fun root herr hbody => ⟨fun hend => ?_, fun hlast hne => ?_⟩⟩
  · rw [getBoardSprints.fetch]
    simp only [herr, ne_eq, not_false_eq_true, if_true, hauth]
  · rw [getBoardSprints.fetch]
    simp only [herr, ne_eq, not_false_eq_true, if_true, hauth, Bool.false_eq_true, if_false]
  · rw [getBoardSprints.fetch]
    simp only [herr, ne_eq, not_true_eq_false, if_false, hbody, Bool.not_false, if_true]
  · rw [boardSprints_page c boardId state all o r net root herr hbody]
    simp only []
    rw [if_pos]
    rcases hend with h | h
    · rw [h]
      rfl
    · rw [h]
      simp only [List.isEmpty_nil, Bool.or_true]
  · rw [boardSprints_page c boardId state all o r net root herr hbody]
    simp only []
    have hemp : (QJsonObject.value root "values").toArray.isEmpty = false := by
      cases h : (QJsonObject.value root "values").toArray with
      | nil => exact absurd h hne
      | cons v vs => rfl
    rw [if_neg (by rw [hlast, hemp]; decide)]
    obtain ⟨tail, ht⟩ := boardSprints_first c boardId state
      (all ++ (QJsonObject.value root "values").toArray.map QJsonValue.toObject)
      (o + (QJsonObject.value root "values").toArray.length) net
    simp only [ht]
    exact ⟨⟨tail, rfl⟩, rfl⟩

/-- Claim C13 fails: a first page of one board that declares the total 1 and no `isLast` is
followed by a request at offset 1, although its next offset 1 is not below the total, and
so is a first page that declares neither a total nor `isLast`; the same holds in the
board-sprint fetch.  The call that issues that request then copies the destroyed `fetch`:
from there on the behaviour of the fetch is undefined. -/
theorem boards_total_counterexample :
    defined (getAllBoards sampleClient "scrum" [boardPageWithTotal]).1
        = [.send (boardsRequest sampleClient "scrum" 0),
            .send (boardsRequest sampleClient "scrum" 1)]
      ∧ defined (getAllBoards sampleClient "scrum" [boardPageBare]).1
        = [.send (boardsRequest sampleClient "scrum" 0),
            .send (boardsRequest sampleClient "scrum" 1)]
      ∧ defined (getBoardSprints sampleClient 1 "active" [boardPageWithTotal]).1
        = [.send (boardSprintsRequest sampleClient 1 "active" 0),
            .send (boardSprintsRequest sampleClient 1 "active" 1)]
      ∧ defined (getBoardSprints sampleClient 1 "active" [boardPageBare]).1
        = [.send (boardSprintsRequest sampleClient 1 "active" 0),
            .send (boardSprintsRequest sampleClient 1 "active" 1)]
      ∧ (getAllBoards sampleClient "scrum" [boardPageWithTotal]).1
        = [.send (boardsRequest sampleClient "scrum" 0),
            .send (boardsRequest sampleClient "scrum" 1), .undefined .handler] :=
  ⟨rfl, rfl, rfl, rfl, rfl⟩

/-- Claim C13, amended.  In the board fetch and the board-sprint fetch, after a successful
first page (the page at offset 0) that returns `n` items: when `n > 0` and the `isLast`
flag of the response is not true, exactly one further request is issued, at offset `n`;
otherwise no further request is issued, the fetch ends with that page and hands its items
to the continuation.  So a further page is requested if and only if `n > 0` and `isLast`
is not true; a declared total is not read. -/
theorem boards_continue_iff (c : JiraClient) (type state : QString) (boardId : Int)
    (r : QNetworkReply) (net : List QNetworkReply) (root : QJsonObject) (vs : QJsonArray)
    (herr : r.error = .NoError) (hbody : r.body = .Object root)
    (hvs : (QJsonObject.value root "values").toArray = vs) :
    (vs ≠ [] → (QJsonObject.value root "isLast").toBool false = false →
        defined (getAllBoards c type (r :: net)).1
            = [.send (boardsRequest c type 0), .send (boardsRequest c type vs.length)]
          ∧ defined (getBoardSprints c boardId state (r :: net)).1
            = [.send (boardSprintsRequest c boardId state 0),
                .send (boardSprintsRequest c boardId state vs.length)])
      ∧ (vs = [] ∨ (QJsonObject.value root "isLast").toBool false = true →
          getAllBoards c type (r :: net)
              = ([.send (boardsRequest c type 0)], some (vs.map QJsonValue.toObject))
            ∧ getBoardSprints c boardId state (r :: net)
              = ([.send (boardSprintsRequest c boardId state 0)],
                  some (vs.map QJsonValue.toObject)))
      ∧ ((requests (defined (getAllBoards c type (r :: net)).1)).length = 2
          ↔ vs ≠ [] ∧ (QJsonObject.value root "isLast").toBool false = false)
      ∧ ((requests (defined (getBoardSprints c boardId state (r :: net)).1)).length = 2
          ↔ vs ≠ [] ∧ (QJsonObject.value root "isLast").toBool false = false) := by
  subst hvs
  have hb := (boards_defined c type [] 0 r net).2.2.2 root herr hbody
  have hs := (boardSprints_defined c boardId state [] 0 r net).2.2.2 root herr hbody
  simp only [zero_add, List.nil_append] at hb hs
  have hmore : (QJsonObject.value root "values").toArray ≠ [] →
      (QJsonObject.value root "isLast").toBool false = false →
      defined (getAllBoards c type (r :: net)).1
          = [.send (boardsRequest c type 0),
              .send (boardsRequest c type (QJsonObject.value root "values").toArray.length)]
        ∧ defined (getBoardSprints c boardId state (r :: net)).1
          = [.send (boardSprintsRequest c boardId state 0),
              .send (boardSprintsRequest c boardId state
                (QJsonObject.value root "values").toArray.length)] :=
    fun hne hlast => ⟨(hb.2 hlast hne).2, (hs.2 hlast hne).2⟩
  have hend : (QJsonObject.value root "values").toArray = []
        ∨ (QJsonObject.value root "isLast").toBool false = true →
      getAllBoards c type (r :: net)
          = ([.send (boardsRequest c type 0)],
              some ((QJsonObject.value root "values").toArray.map QJsonValue.toObject))
        ∧ getBoardSprints c boardId state (r :: net)
          = ([.send (boardSprintsRequest c boardId state 0)],
              some ((QJsonObject.value root "values").toArray.map QJsonValue.toObject)) :=
    fun h => ⟨hb.1 h.symm, hs.1 h.symm⟩
  refine ⟨hmore, hend, ?_, ?_⟩
  · constructor
    · intro hlen
      by_contra hno
      have h : (QJsonObject.value root "values").toArray = []
          ∨ (QJsonObject.value root "isLast").toBool false = true := by
        by_cases hv : (QJsonObject.value root "values").toArray = []
        · exact Or.inl hv
        · right
          cases hl : (QJsonObject.value root "isLast").toBool false with
          | true => rfl
          | false => exact absurd ⟨hv, hl⟩ hno
      rw [(hend h).1] at hlen
      simp [defined, requests, Effect.isUndefined] at hlen
    · rintro ⟨hne, hlast⟩
      rw [(hmore hne hlast).1]
      rfl
  · constructor
    · intro hlen
      by_contra hno
      have h : (QJsonObject.value root "values").toArray = []
          ∨ (QJsonObject.value root "isLast").toBool false = true := by
        by_cases hv : (QJsonObject.value root "values").toArray = []
        · exact Or.inl hv
        · right
          cases hl : (QJsonObject.value root "isLast").toBool false with
          | true => rfl
          | false => exact absurd ⟨hv, hl⟩ hno
      rw [(hend h).2] at hlen
      simp [defined, requests, Effect.isUndefined] at hlen
    · rintro ⟨hne, hlast⟩
      rw [(hmore hne hlast).2]
      rfl

/-- A first page of one board without `isLast` is followed by a request at offset 1, and an
empty page ends the fetch. -/
theorem boards_continue_iff_witness :
    defined (getAllBoards sampleClient "scrum" [boardPageWithTotal]).1
        = [.send (boardsRequest sampleClient "scrum" 0),
            .send (boardsRequest sampleClient "scrum" (1 : Nat))]
      ∧ getBoardSprints sampleClient 1 "active" [noBoards]
        = ([.send (boardSprintsRequest sampleClient 1 "active" 0)], some []) :=
  ⟨((boards_continue_iff sampleClient "scrum" "active" 1 boardPageWithTotal [] _
      [.Object [(("id" : QString), .Double 1)]] rfl rfl rfl).1 (by simp) rfl).1,
   ((boards_continue_iff sampleClient "scrum" "active" 1 noBoards [] _ [] rfl rfl rfl).2.1
      (Or.inl rfl)).2⟩

/-- Claim C21 fails on the user lookup, and on the reads that keep their accumulator on the
stack.  A successful reply whose body is no JSON document, or a JSON object instead of an
array, makes `resolveUserAccountId` emit no signal at all; the assignee write goes on with
the trimmed input.  In the comment fetch, the sprint-issue fetch and the ticket search a
body that is no JSON object gives one `operationFailed`, and then the handler reads the
destroyed accumulator to deliver it: no ready signal is emitted within defined
behaviour. -/
theorem lookup_malformed_counterexample :
    signals (resolveUserAccountId sampleClient "bob" [okReply .Null] (fun _ _ => [])) = []
      ∧ signals (resolveUserAccountId sampleClient "bob" [okReply (.Object [])]
          (fun _ _ => [])) = []
      ∧ signals (updateAssignee Qt.sample sampleClient "PROJ-1" "bob"
          [okReply .Null, okReply .Null]) = [.operationSucceeded "Assignee updated"]
      ∧ signals (defined (getIssueComments Qt.sample sampleClient "PROJ-1" [okReply .Null]))
        = [.operationFailed "GetIssueComments" "Unexpected JSON (expected object)"]
      ∧ signals (defined (getIssuesForSprint sampleClient 5 [okReply .Null]))
        = [.operationFailed "GetIssuesForSprint" "Unexpected JSON (expected object)"]
      ∧ signals (defined (getMyTickets Qt.sample loadedClient [okReply .Null]).2)
        = [.operationFailed "GetMyTickets" "Unexpected JSON (expected object)"] := by
  decide

/-- Claim C21, amended.  A reply without transport error whose body has the wrong top-level
shape (no JSON document, or not the array or object that the handler expects) is handled as
follows.  The catalog read emits one `operationFailed` and runs the continuation on the
unchanged state.  The board fetch and the board-sprint fetch, on their first page, emit one
`operationFailed` and hand the empty list to their continuation.  The snapshot, history and
transitions reads emit one `operationFailed` and deliver the empty result.  None of them
emits `authenticationRequired`.  The user lookup emits no signal: it hands the empty
account id to its continuation. -/
theorem malformed_body (qt : Qt) (std : StdLib) (c : JiraClient) (key : QString)
    (r : QNetworkReply) (net : List QNetworkReply) (herr : r.error = .NoError) :
    (r.body.isArray = false →
        (∀ cont, c.m_fieldMetadataLoaded = false →
          ensureFieldMetadata qt c (r :: net) cont
            = ((cont c net).1, .send (fieldCatalogRequest c)
                :: .emit (.operationFailed "Load field metadata"
                    "Unexpected JSON (expected array)") :: (cont c net).2))
          ∧ (∀ cont, (QString.trimmed key).isEmpty = false →
              resolveUserAccountId c key (r :: net) cont
                = .send (lookupRequest c key) :: cont [] net))
      ∧ (r.body.isObject = false →
          (∀ type, getAllBoards c type (r :: net)
              = ([.send (boardsRequest c type 0),
                  .emit (.operationFailed "GetAllBoards" "Unexpected JSON (expected object)")],
                some []))
            ∧ (∀ boardId state, getBoardSprints c boardId state (r :: net)
              = ([.send (boardSprintsRequest c boardId state 0),
                  .emit (.operationFailed "GetBoardSprints"
                    "Unexpected JSON (expected object)")],
                some []))
            ∧ ((QString.trimmed key).isEmpty = false →
                (c.m_fieldMetadataLoaded = true →
                  getIssueFieldSnapshot qt c key (r :: net)
                    = (c, [.send (snapshotRequest qt c key),
                        .emit (.operationFailed "GetIssueFieldSnapshot"
                          "Unexpected JSON (expected object)"),
                        .emit (.issueFieldSnapshotReady JiraIssueFieldSnapshot.new)]))
                  ∧ getIssueHistory qt std c key (r :: net)
                    = [.send (historyRequest qt c key),
                        .emit (.operationFailed "GetIssueHistory"
                          "Unexpected JSON (expected object)"),
                        .emit (.issueHistoryReady [])]
                  ∧ getTransitions qt c key (r :: net)
                    = [.send (transitionsRequest qt c key),
                        .emit (.operationFailed "GetTransitions"
                          "Unexpected JSON (expected object)"),
                        .emit (.transitionsReady [])])) := by
  refine ⟨fun harr => ⟨fun cont hl => ?_, fun cont hk => ?_⟩,
    fun hobj => ⟨fun type => ?_, fun boardId state => ?_,
      fun hk => ⟨fun hl => ?_, ?_, ?_⟩⟩⟩
  · unfold ensureFieldMetadata ensureFieldMetadata.interleaved
    simp only [hl, Bool.false_eq_true, if_false, herr, ne_eq, not_true_eq_false, harr,
      Bool.not_false, if_true]
    rfl
  · unfold resolveUserAccountId
    simp only [hk, Bool.false_eq_true, if_false, herr, ne_eq, not_true_eq_false, harr,
      Bool.not_false, Bool.true_or, if_true]
    rfl
  · exact (boards_defined c type [] 0 r net).2.2.1 herr hobj
  · exact (boardSprints_defined c boardId state [] 0 r net).2.2.1 herr hobj
  · unfold getIssueFieldSnapshot ensureFieldMetadata ensureFieldMetadata.interleaved
    simp only [hk, Bool.false_eq_true, if_false, hl, if_true, herr, ne_eq, not_true_eq_false,
      hobj, Bool.not_false]
  · unfold getIssueHistory
    simp only [hk, Bool.false_eq_true, if_false, herr, ne_eq, not_true_eq_false, hobj,
      Bool.not_false, if_true]
  · unfold getTransitions
    simp only [hk, Bool.false_eq_true, if_false, herr, ne_eq, not_true_eq_false, hobj,
      Bool.not_false, if_true]

theorem malformed_body_witness :
    getTransitions Qt.sample sampleClient "PROJ-1" [okReply (.Array [])]
        = [.send (transitionsRequest Qt.sample sampleClient "PROJ-1"),
            .emit (.operationFailed "GetTransitions" "Unexpected JSON (expected object)"),
            .emit (.transitionsReady [])]
      ∧ resolveUserAccountId sampleClient "PROJ-1" [okReply .Null] (fun _ _ => [])
        = [.send (lookupRequest sampleClient "PROJ-1")] :=
  ⟨(((malformed_body Qt.sample StdLib.sample sampleClient "PROJ-1" (okReply (.Array [])) []
      rfl).2 rfl).2.2 (by decide)).2.2,
   ((malformed_body Qt.sample StdLib.sample sampleClient "PROJ-1" (okReply .Null) []
      rfl).1 rfl).2 (fun _ _ => []) (by decide)⟩

/-- A sprint fetch that reports a failure while its behaviour is defined delivers no
sprint: the only reply that is handled within defined behaviour is the first, when the
accumulator is empty. -/
theorem boardSprints_failed_empty (c : JiraClient) (boardId : Int) (state : QString)
    (net : List QNetworkReply) (hdef : Defined (getBoardSprints c boardId state net).1)
    (hfail : ∃ s ∈ signals (getBoardSprints c boardId state net).1,
      s.isOperationFailed = true ∨ s.isAuthenticationRequired = true) :
    (getBoardSprints c boardId state net).2 = some [] := by
  unfold getBoardSprints at *
  cases net with
  | nil =>
    obtain ⟨s, hs, _⟩ := hfail
    simp [getBoardSprints.fetch, signals] at hs
  | cons r rest =>
    have h := boardSprints_defined c boardId state [] 0 r rest
    by_cases herr : r.error = .NoError
    · cases hb : r.body with
      | Object root =>
        by_cases hend : (QJsonObject.value root "isLast").toBool false = true
            ∨ (QJsonObject.value root "values").toArray = []
        · rw [(h.2.2.2 root herr hb).1 hend] at hfail
          obtain ⟨s, hs, _⟩ := hfail
          simp [signals] at hs
        · have hl : (QJsonObject.value root "isLast").toBool false = false := by
            cases hl : (QJsonObject.value root "isLast").toBool false with
            | true => exact absurd (Or.inl hl) hend
            | false => rfl
          have hv : (QJsonObject.value root "values").toArray ≠ [] :=
            fun hv => hend (Or.inr hv)
          obtain ⟨tail, ht⟩ := ((h.2.2.2 root herr hb).2 hl hv).1
          rw [ht] at hdef
          have := hdef (.undefined .handler) (by simp)
          cases this
      | _ =>
        rw [h.2.2.1 herr (by rw [hb]; rfl)]
    · by_cases hauth : isAuthError r r.error = true
      · rw [h.1 herr hauth]
      · rw [h.2.1 herr (by simpa using hauth)]

/-- Claim C6.  With `N ≥ 1` boards whose sprint fetches complete in the order `arrivals`:
nothing is emitted while fewer than `N` fetches have completed; the `N`-th completion
emits `mostRecentActiveSprintReady` exactly once, with the reducer folded over all
delivered sprints in arrival order; that value is the empty result exactly when no sprint
was delivered; a fetch that delivers no sprint changes nothing in the result and counts as
a completion.  A sprint fetch delivers no sprint when its first page is empty (a board
without active sprint), and when it fails: whenever it reports an AuthFailure or a
GenericFailure within defined behaviour. -/
theorem mostRecent_fan_in (qt : Qt) (c : JiraClient) (net : List QNetworkReply)
    (log : List Effect) (boards : List QJsonObject) (arrivals : List (List QJsonObject))
    (hboards : getAllBoards c "scrum" net = (log, some boards))
    (hN : 1 ≤ boards.length) (hlen : arrivals.length = boards.length) :
    (∀ k, k < boards.length →
        readySignals (getMostRecentActiveSprint qt c net (arrivals.take k)) = [])
      ∧ readySignals (getMostRecentActiveSprint qt c net arrivals)
        = [(arrivals.flatten.foldl (reduceSprint qt) Best.new).ready]
      ∧ ((arrivals.flatten.foldl (reduceSprint qt) Best.new).ready
          = .mostRecentActiveSprintReady none [] none ↔ arrivals.flatten = [])
      ∧ (∀ pre post, arrivals = pre ++ [] :: post →
          arrivals.flatten.foldl (reduceSprint qt) Best.new
            = (pre ++ post).flatten.foldl (reduceSprint qt) Best.new)
      ∧ (∀ boardId r rest root, r.error = .NoError → r.body = .Object root →
          (QJsonObject.value root "values").toArray = [] →
          getBoardSprints c boardId "active" (r :: rest)
            = ([.send (boardSprintsRequest c boardId "active" 0)], some []))
      ∧ (∀ boardId r rest, r.error ≠ .NoError ∨ r.body.isObject = false →
          (getBoardSprints c boardId "active" (r :: rest)).2 = some []
            ∧ Defined (getBoardSprints c boardId "active" (r :: rest)).1
            ∧ (signals (getBoardSprints c boardId "active" (r :: rest)).1).length = 1)
      ∧ (∀ boardId net', Defined (getBoardSprints c boardId "active" net').1 →
          (∃ s ∈ signals (getBoardSprints c boardId "active" net').1,
            s.isOperationFailed = true ∨ s.isAuthenticationRequired = true) →
          (getBoardSprints c boardId "active" net').2 = some []) := by
  have hbne : boards ≠ [] := by
    intro h
    rw [h] at hN
    simp at hN
  have harr : arrivals ≠ [] := by
    intro h
    rw [h] at hlen
    simp at hlen
    omega
  refine ⟨?_, ?_, ?_, ?_, ?_, ?_, ?_⟩
  · intro k hk
    rw [readySignals_of_boards qt c net _ log boards hboards hbne,
      completions_silent qt _ _ (by
        simp only [List.length_take]
        have := Nat.min_le_left k arrivals.length
        omega)]
    rfl
  · rw [readySignals_of_boards qt c net _ log boards hboards hbne,
      completions_emit qt arrivals _ harr (by simp only [hlen]), readySignals_ready]
  · rw [ready_eq_none_iff, foldl_has]
    cases arrivals.flatten <;> simp [Best.new]
  · rintro pre post rfl
    simp
  · intro boardId r rest root herr hbody hvalues
    have h := ((boardSprints_defined c boardId "active" [] 0 r rest).2.2.2 root herr hbody).1
      (Or.inr hvalues)
    rw [hvalues] at h
    exact h
  · intro boardId r rest hfail
    have h := boardSprints_defined c boardId "active" [] 0 r rest
    unfold getBoardSprints
    by_cases herr : r.error = .NoError
    · have hobj : r.body.isObject = false := by
        rcases hfail with h' | h'
        · exact absurd herr h'
        · exact h'
      rw [h.2.2.1 herr hobj]
      refine ⟨rfl, ?_, rfl⟩
      intro e he
      simp only [List.mem_cons, List.mem_singleton, List.not_mem_nil, or_false] at he
      rcases he with rfl | rfl <;> rfl
    · by_cases hauth : isAuthError r r.error = true
      · rw [h.1 herr hauth]
        refine ⟨rfl, ?_, rfl⟩
        intro e he
        simp only [List.mem_cons, List.mem_singleton, List.not_mem_nil, or_false] at he
        rcases he with rfl | rfl <;> rfl
      · rw [h.2.1 herr (by simpa using hauth)]
        refine ⟨rfl, ?_, rfl⟩
        intro e he
        simp only [List.mem_cons, List.mem_singleton, List.not_mem_nil, or_false] at he
        rcases he with rfl | rfl <;> rfl
  · intro boardId net' hdef hfail
    exact boardSprints_failed_empty c boardId "active" net' hdef hfail

/-- Two boards, the first without sprints: nothing after one completion, the sprint of the
second board after both; a sprint fetch answered by an HTTP 500 delivers no sprint. -/
theorem mostRecent_fan_in_witness :
    readySignals (getMostRecentActiveSprint Qt.sample sampleClient [twoBoards] [[]]) = []
      ∧ readySignals (getMostRecentActiveSprint Qt.sample sampleClient [twoBoards]
          [[], [sprint2]])
        = [.mostRecentActiveSprintReady (some 2) "Sprint 2" (some (some 1705309200000))]
      ∧ (getBoardSprints sampleClient 1 "active" [serverError]).2 = some [] :=
  have h := mostRecent_fan_in Qt.sample sampleClient [twoBoards]
    (getAllBoards sampleClient "scrum" [twoBoards]).1
    [[(("id" : QString), .Double 1)], [(("id" : QString), .Double 2)]] [[], [sprint2]]
    rfl (by decide) rfl
  ⟨h.1 1 (by decide), h.2.1.trans (by decide),
    (h.2.2.2.2.2.1 1 serverError [] (Or.inl (by decide))).1⟩

/-- Claim C11 at the failing input.  On a client whose field metadata is loaded the ticket
search is answered by a first page with one issue and the token `abc`, then by a last page
with one issue.  The handler of the first page appends the ticket of its issue to the
accumulator, a local of the continuation that `getMyTickets` handed to
`ensureFieldMetadata`, destroyed when that continuation returned.  The behaviour is
undefined from there: within defined behaviour the operation issues its first request and
nothing else, neither the request that carries the token nor a `myTicketsReady`.  A single
page with one issue and no token is not delivered either.  A first page without issue that
carries the token `abc` is followed by the request with that token, and the call that
issues it copies the destroyed `fetchPage`. -/
theorem getMyTickets_cursor_undefined :
    defined (getMyTickets Qt.sample loadedClient [firstTicketPage, lastTicketPage]).2
        = [.send (searchRequest loadedClient [])]
      ∧ (∃ tail, (getMyTickets Qt.sample loadedClient [firstTicketPage, lastTicketPage]).2
          = .send (searchRequest loadedClient []) :: .undefined .accumulator :: tail)
      ∧ defined (getMyTickets Qt.sample loadedClient [lastTicketPage]).2
        = [.send (searchRequest loadedClient [])]
      ∧ (∃ tail, (getMyTickets Qt.sample loadedClient [lastTicketPage]).2
          = .send (searchRequest loadedClient []) :: .undefined .accumulator :: tail)
      ∧ (∃ tail, (getMyTickets Qt.sample loadedClient
            [okReply (.Object [(("issues" : QString), .Array []),
              (("nextPageToken" : QString), .String "abc")]), lastTicketPage]).2
          = .send (searchRequest loadedClient []) :: .send (searchRequest loadedClient "abc")
            :: .undefined .handler :: tail) :=
  ⟨rfl, ⟨_, rfl⟩, rfl, ⟨_, rfl⟩, ⟨_, rfl⟩⟩

/-- Claim C12 at the failing input.  Against server pages of 50, 50 and 7 items that declare
the total 107, the handler of the first page of the comment fetch, and likewise of the
sprint-issue fetch, appends the items of the page to the accumulator, a local of the method
that was destroyed when the method returned.  The behaviour is undefined from there:
within defined behaviour each fetch issues the request at offset 0 and nothing else,
neither the requests at offsets 50 and 100 nor the ready signal with the 107 items. -/
theorem offset_pagination_undefined :
    defined (getIssueComments Qt.sample sampleClient "PROJ-1"
        [commentPage 50, commentPage 50, commentPage 7])
        = [.send (commentsRequest Qt.sample sampleClient "PROJ-1" 0)]
      ∧ (∃ tail, getIssueComments Qt.sample sampleClient "PROJ-1"
          [commentPage 50, commentPage 50, commentPage 7]
          = .send (commentsRequest Qt.sample sampleClient "PROJ-1" 0)
            :: .undefined .accumulator :: tail)
      ∧ defined (getIssuesForSprint sampleClient 5 [issuePage 50, issuePage 50, issuePage 7])
        = [.send (sprintIssuesRequest sampleClient 5 0)]
      ∧ (∃ tail, getIssuesForSprint sampleClient 5 [issuePage 50, issuePage 50, issuePage 7]
          = .send (sprintIssuesRequest sampleClient 5 0) :: .undefined .accumulator :: tail) :=
  ⟨rfl, ⟨_, rfl⟩, rfl, ⟨_, rfl⟩⟩

/-- Claim C14 at the failing input.  A comment fetch whose first request is answered by an
HTTP 500 emits `operationFailed` and then reads the destroyed accumulator to deliver it:
within defined behaviour no `issueCommentsReady` is emitted.  The sprint-issue fetch and
the ticket search do the same.  A board fetch whose first page calls for a second one
issues the second request and then copies the destroyed `fetch`: the HTTP 500 that answers
the second request is not handled within defined behaviour.  What the handlers do with a
failure of the first request otherwise is as claimed: the board fetch hands the empty list
to its continuation with one `operationFailed`, and an HTTP 401 gives the empty result with
one `authenticationRequired`. -/
theorem paginated_failure_undefined :
    getIssueComments Qt.sample sampleClient "PROJ-1" [serverError]
        = [.send (commentsRequest Qt.sample sampleClient "PROJ-1" 0),
            .emit (.operationFailed "GetIssueComments" "Internal Server Error"),
            .undefined .accumulator, .emit (.issueCommentsReady [])]
      ∧ signals (defined (getIssueComments Qt.sample sampleClient "PROJ-1" [serverError]))
        = [.operationFailed "GetIssueComments" "Internal Server Error"]
      ∧ signals (defined (getIssuesForSprint sampleClient 5 [serverError]))
        = [.operationFailed "GetIssuesForSprint" "Internal Server Error"]
      ∧ signals (defined (getMyTickets Qt.sample loadedClient [serverError]).2)
        = [.operationFailed "GetMyTickets" "Internal Server Error"]
      ∧ (getAllBoards sampleClient "scrum" [boardPageBare, serverError]).1
        = [.send (boardsRequest sampleClient "scrum" 0),
            .send (boardsRequest sampleClient "scrum" 1), .undefined .handler,
            .emit (.operationFailed "GetAllBoards" "Internal Server Error")]
      ∧ signals (defined (getAllBoards sampleClient "scrum" [boardPageBare, serverError]).1)
        = []
      ∧ getAllBoards sampleClient "scrum" [serverError]
        = ([.send (boardsRequest sampleClient "scrum" 0),
            .emit (.operationFailed "GetAllBoards" "Internal Server Error")], some [])
      ∧ signals (getIssueComments Qt.sample sampleClient "PROJ-1" [unauthorized])
        = [.authenticationRequired
            "Jira authentication failed while loading comments. Please configure your API token.",
            .issueCommentsReady []] :=
  ⟨rfl, by decide, by decide, by decide, rfl, by decide, rfl, by decide⟩

/-- Claim C27 at the failing input.  A sprint-issue fetch whose first page holds one issue
and declares the total 3, and a comment fetch whose first page holds 50 of 107 comments,
call for a follow-up request; the handler appends to the destroyed accumulator before it
computes a next offset, so that within defined behaviour no follow-up request is issued,
and nothing bounds what the fetch does from there.  A board-sprint fetch and a board fetch
whose first page holds one item and no `isLast` issue the follow-up request at offset 1 and
then copy the destroyed `fetch`. -/
theorem offsets_undefined :
    defined (getIssuesForSprint sampleClient 5 [sparsePage, sparsePage])
        = [.send (sprintIssuesRequest sampleClient 5 0)]
      ∧ (∃ tail, getIssuesForSprint sampleClient 5 [sparsePage, sparsePage]
          = .send (sprintIssuesRequest sampleClient 5 0) :: .undefined .accumulator :: tail)
      ∧ defined (getIssueComments Qt.sample sampleClient "PROJ-1"
          [commentPage 50, commentPage 57])
        = [.send (commentsRequest Qt.sample sampleClient "PROJ-1" 0)]
      ∧ (getBoardSprints sampleClient 1 "active" [boardPageBare]).1
        = [.send (boardSprintsRequest sampleClient 1 "active" 0),
            .send (boardSprintsRequest sampleClient 1 "active" 1), .undefined .handler]
      ∧ (getAllBoards sampleClient "scrum" [boardPageBare]).1
        = [.send (boardsRequest sampleClient "scrum" 0),
            .send (boardsRequest sampleClient "scrum" 1), .undefined .handler] :=
  ⟨rfl, ⟨_, rfl⟩, rfl, rfl, rfl⟩

theorem failsCatalog_iff (r : QNetworkReply) :
    r.failsCatalog = true ↔
      (r.error ≠ .NoError ∧ isAuthError r r.error = false)
        ∨ (r.error = .NoError ∧ r.body.isArray = false) := by
  unfold QNetworkReply.failsCatalog
  simp only [Bool.or_eq_true, Bool.and_eq_true, bne_iff_ne, ne_eq, Bool.not_eq_true',
    beq_iff_eq]

/-- The catalog load with other operations in between, when its read does not meet a
GenericFailure. -/
theorem writeLog_interleaved (qt : Qt) (c atReply : JiraClient) (net : List QNetworkReply)
    (cont : JiraClient → List QNetworkReply → JiraClient × List Effect)
    (hcont : ∀ c' net', WriteLog (cont c' net').2 net')
    (hok : c.m_fieldMetadataLoaded = false → ∀ r rest, net = r :: rest →
      r.failsCatalog = false) :
    WriteLog (ensureFieldMetadata.interleaved qt c atReply net cont).2 net := by
  unfold ensureFieldMetadata.interleaved
  by_cases hload : c.m_fieldMetadataLoaded = true
  · simp only [hload, if_true]
    exact hcont c net
  · simp only [hload, Bool.false_eq_true, if_false]
    have hload' : c.m_fieldMetadataLoaded = false := by simpa using hload
    cases net with
    | nil => exact writeLog_pending _
    | cons reply rest =>
      have hnot := hok hload' reply rest rfl
      have hnot' : ¬ ((reply.error ≠ .NoError ∧ isAuthError reply reply.error = false)
          ∨ (reply.error = .NoError ∧ reply.body.isArray = false)) := by
        rw [← failsCatalog_iff, hnot]
        simp
      dsimp only
      by_cases herr : reply.error = .NoError
      · rw [if_neg (by simp [herr])]
        by_cases harr : reply.body.isArray = true
        · rw [if_neg (by simp [harr])]
          exact writeLog_after_request _ reply _ rest
            (by simp [QNetworkReply.isAuthFailure, herr]) (hcont _ rest) (fun _ => Or.inl rfl)
        · exact absurd (Or.inr ⟨herr, by simpa using harr⟩) hnot'
      · rw [if_pos herr]
        by_cases hauth : isAuthError reply reply.error = true
        · rw [if_pos hauth]
          refine ⟨by simp [signals], fun _ => ⟨_, rfl⟩, ?_⟩
          intro req r hreq hverb
          simp [requests] at hreq
          subst hreq
          exact absurd rfl hverb
        · exact absurd (Or.inl ⟨herr, by simpa using hauth⟩) hnot'

/-- The signals of the catalog load with other operations in between, when its read meets a
GenericFailure: the failure signal, then the signals of the continuation run on the client
as it is when the reply arrives. -/
theorem signals_interleaved_failed (qt : Qt) (c atReply : JiraClient) (r0 : QNetworkReply)
    (rest : List QNetworkReply)
    (cont : JiraClient → List QNetworkReply → JiraClient × List Effect)
    (hload : c.m_fieldMetadataLoaded = false) (hfail : r0.failsCatalog = true) :
    signals (ensureFieldMetadata.interleaved qt c atReply (r0 :: rest) cont).2
      = catalogFailureSignal r0 :: signals (cont atReply rest).2 := by
  unfold ensureFieldMetadata.interleaved catalogFailureSignal
  simp only [hload, Bool.false_eq_true, if_false]
  rcases (failsCatalog_iff r0).mp hfail with ⟨herr, hauth⟩ | ⟨herr, harr⟩
  · simp only [herr, ne_eq, not_false_eq_true, if_true, hauth, Bool.false_eq_true, if_false]
    rfl
  · simp only [herr, ne_eq, not_true_eq_false, if_false, harr, Bool.not_false, if_true]
    rfl

/-- Claim C10 fails for `updateAssignee`, and for `updateStoryPoints` when another operation
completes in between.  With a lookup answered by HTTP 403 and a write that succeeds,
`updateAssignee` succeeds and yet emits an `authenticationRequired`; with both requests
answered by HTTP 401 it emits two `authenticationRequired`.  When `updateStoryPoints` is
called on a client whose cache is not loaded, the catalog load of another operation
completes while its own catalog read is in flight, its own read is answered by HTTP 500
and its write succeeds, it emits `operationFailed` and then `operationSucceeded`. -/
theorem updateAssignee_counterexample :
    signals (updateAssignee Qt.sample sampleClient "PROJ-1" "bob" [forbidden, okReply .Null])
        = [.authenticationRequired
            "Jira authentication failed while resolving an account id. Please configure your API token.",
          .operationSucceeded "Assignee updated"]
      ∧ signals (updateAssignee Qt.sample sampleClient "PROJ-1" "bob"
          [unauthorized, unauthorized])
        = [.authenticationRequired
            "Jira authentication failed while resolving an account id. Please configure your API token.",
          .authenticationRequired
            "Jira authentication failed while updating the assignee. Please configure your API token."]
      ∧ signals (updateStoryPoints.interleaved Qt.sample sampleClient
          (ensureFieldMetadata.finished Qt.sample sampleClient (okReply (.Array duplicateCatalog)))
          "PROJ-1" (some 3) [serverError, okReply .Null]).2
        = [.operationFailed "Load field metadata" "Internal Server Error",
          .operationSucceeded "Story points updated"] := by
  decide

/-- Claim C10, amended.  For every write operation, whatever the handlers of other
operations do to the cache while its catalog read is in flight, unless it is
`updateAssignee` with a failed account lookup or `updateStoryPoints` or `updateSprint` with
a catalog read that meets a GenericFailure: the operation emits at most one signal; when
the write request is answered without error it emits exactly one `operationSucceeded`;
when a reply is an AuthFailure it emits exactly one `authenticationRequired`.  For
`updateAssignee` with a failed lookup the signal of the lookup is emitted first and the
write still goes on and emits its own signal.  For `updateStoryPoints` and `updateSprint`
with a GenericFailure of the catalog read, `operationFailed` is emitted first; the write is
issued exactly when the field id is resolved at the time the reply arrives, and emits its
own signal. -/
theorem write_operations_signals (qt : Qt) (c atReply : JiraClient) (op : WriteOp)
    (net : List QNetworkReply) :
    (lookupFails op net = false → catalogFails c op net = false →
        WriteLog (runWrite.interleaved qt c atReply op net) net)
      ∧ (∀ k a r0 rest, op = .updateAssignee k a → net = r0 :: rest →
          (QString.trimmed k).isEmpty = false → (QString.trimmed a).isEmpty = false →
          r0.error ≠ .NoError →
          signals (runWrite.interleaved qt c atReply op net)
            = lookupFailureSignal r0 :: (rest.head?.map assigneeWriteSignal).toList)
      ∧ (∀ k p r0 rest, op = .updateStoryPoints k p → net = r0 :: rest →
          catalogFails c op net = true →
          signals (runWrite.interleaved qt c atReply op net)
            = catalogFailureSignal r0 ::
                if atReply.m_storyPointsFieldId.isEmpty then []
                else (rest.head?.map storyPointsWriteSignal).toList)
      ∧ (∀ k s r0 rest, op = .updateSprint k s → net = r0 :: rest →
          catalogFails c op net = true →
          signals (runWrite.interleaved qt c atReply op net)
            = catalogFailureSignal r0 ::
                if atReply.m_sprintFieldId.isEmpty then []
                else (rest.head?.map sprintWriteSignal).toList) := by
  refine ⟨?_, ?_, ?_, ?_⟩
  · intro h hc
    cases op with
    | updateIssueDescription k t => exact writeLog_updateIssueDescription qt c k t net
    | addComment k t => exact writeLog_addComment qt c k t net
    | updateComment k i t => exact writeLog_updateComment qt c k i t net
    | updateStoryPoints k p =>
      simp only [runWrite.interleaved]
      unfold updateStoryPoints.interleaved
      split
      · exact writeLog_nil net
      · rename_i hk
        apply writeLog_interleaved
        · intro c' net'
          dsimp only
          split
          · exact writeLog_nil net'
          · exact writeLog_handler _ net' _ _ _
        · intro hload r rest hnet
          subst hnet
          simpa [catalogFails, hk, hload] using hc
    | updateAssignee k a => exact writeLog_updateAssignee qt c k a net h
    | updateDueDate k d => exact writeLog_updateDueDate qt c k d net
    | updateSprint k s =>
      simp only [runWrite.interleaved]
      unfold updateSprint.interleaved
      split
      · exact writeLog_nil net
      · rename_i hk
        apply writeLog_interleaved
        · intro c' net'
          dsimp only
          split
          · exact writeLog_nil net'
          · exact writeLog_handler _ net' _ _ _
        · intro hload r rest hnet
          subst hnet
          simpa [catalogFails, hk, hload] using hc
    | transitionIssue k t => exact writeLog_transitionIssue qt c k t net
  · rintro k a r0 rest rfl rfl hk ha herr
    exact signals_updateAssignee_lookup_failed qt c k a r0 rest hk ha herr
  · rintro k p r0 rest rfl rfl hc
    simp only [catalogFails, Bool.and_eq_true, Bool.not_eq_true'] at hc
    obtain ⟨⟨hk, hload⟩, hfail⟩ := hc
    simp only [runWrite.interleaved]
    unfold updateStoryPoints.interleaved
    rw [if_neg (by simp [hk]), signals_interleaved_failed qt c atReply r0 rest _ hload hfail]
    congr 1
    unfold storyPointsWriteSignal
    by_cases hid : atReply.m_storyPointsFieldId.isEmpty = true
    · simp only [hid, if_true]
      rfl
    · simp only [hid, Bool.false_eq_true, if_false]
      cases rest with
      | nil => rfl
      | cons r1 rest =>
        simp only [signals, List.head?_cons, Option.map_some', Option.toList_some]
        split_ifs <;> rfl
  · rintro k s r0 rest rfl rfl hc
    simp only [catalogFails, Bool.and_eq_true, Bool.not_eq_true'] at hc
    obtain ⟨⟨hk, hload⟩, hfail⟩ := hc
    simp only [runWrite.interleaved]
    unfold updateSprint.interleaved
    rw [if_neg (by simp [hk]), signals_interleaved_failed qt c atReply r0 rest _ hload hfail]
    congr 1
    unfold sprintWriteSignal
    by_cases hid : atReply.m_sprintFieldId.isEmpty = true
    · simp only [hid, if_true]
      rfl
    · simp only [hid, Bool.false_eq_true, if_false]
      cases rest with
      | nil => rfl
      | cons r1 rest =>
        simp only [signals, List.head?_cons, Option.map_some', Option.toList_some]
        split_ifs <;> rfl

/-- A story-points update whose catalog read and write both succeed while the catalog load
of another operation completes in between; and one whose catalog read is answered by
HTTP 500 after that load. -/
theorem write_operations_signals_witness :
    WriteLog (runWrite.interleaved Qt.sample sampleClient loadedClient
        (.updateStoryPoints "PROJ-1" (some 3))
        [okReply (.Array duplicateCatalog), okReply .Null])
        [okReply (.Array duplicateCatalog), okReply .Null]
      ∧ signals (runWrite.interleaved Qt.sample sampleClient loadedClient
          (.updateStoryPoints "PROJ-1" (some 3)) [serverError, okReply .Null])
        = [.operationFailed "Load field metadata" "Internal Server Error",
            .operationSucceeded "Story points updated"] :=
  ⟨(write_operations_signals Qt.sample sampleClient loadedClient
      (.updateStoryPoints "PROJ-1" (some 3))
      [okReply (.Array duplicateCatalog), okReply .Null]).1 rfl (by decide),
   ((write_operations_signals Qt.sample sampleClient loadedClient
      (.updateStoryPoints "PROJ-1" (some 3)) [serverError, okReply .Null]).2.2.1
      "PROJ-1" (some 3) serverError [okReply .Null] rfl rfl (by decide)).trans (by decide)⟩

end JiraExplorer
